import Mathlib

/-!
# task-tracker: authentication and session core

A shallow embedding of the Go sources under `internal/` (domain, service,
repository, handlers, auth) together with theorems about them.

Conventions of the embedding:

* a Go `string` is a Lean `String`; a Go `error` is a `GoError` (message plus
  the chain built by `fmt.Errorf("...: %w", err)`); a nil pointer or nil error
  is `none`;
* `uuid.UUID` values are natural numbers (`uuid.Nil = 0`); `time.Time` values
  are integers counting nanoseconds since the Unix epoch;
* a repository is a record of state-passing functions over a store type `σ`,
  so that mocks and the PostgreSQL implementation are both instances;
* everything the code imports from outside the repository (bcrypt, golang-jwt,
  google/uuid, encoding/json decoding, time.ParseDuration) is a field of
  `Libs`; values drawn from the clock or from a random source are explicit
  arguments of the function that draws them.
-/

set_option autoImplicit false

namespace TaskTracker

/-! ## Go values -/

/-- Go error values: `errorf msg` is `fmt.Errorf(msg)` / `errors.New(msg)`,
`wrapf ctx inner` is `fmt.Errorf(ctx + ": %w", inner)`. -/
inductive GoError where
  | errorf (msg : String)
  | wrapf (ctx : String) (inner : GoError)
  deriving DecidableEq, Repr

namespace GoError

/-- The method `Error()` of an error value. -/
def Error : GoError → String
  | errorf msg => msg
  | wrapf ctx inner => ctx ++ ": " ++ inner.Error

/-- The method `Unwrap()` of an error value, as used by `errors.Unwrap`. -/
def Unwrap : GoError → Option GoError
  | errorf _ => none
  | wrapf _ inner => some inner

end GoError

namespace uuid

/-- A `uuid.UUID` value (16 bytes), read as a number. -/
abbrev UUID := Nat

/-- The zero UUID `uuid.Nil`. -/
def Nil : UUID := 0

end uuid

namespace time

/-- An instant `time.Time`, in nanoseconds since the Unix epoch. -/
abbrev Time := Int

/-- A `time.Duration`, in nanoseconds. -/
abbrev Duration := Int

/-- The constant `time.Second`. -/
def Second : Duration := 1000000000

/-- The constant `time.Hour`. -/
def Hour : Duration := 3600 * Second

/-- The method `t.Add(d)`. -/
def Time.Add (t : Time) (d : Duration) : Time := t + d

/-- The method `t.Before(u)`: strictly earlier. -/
def Time.Before (t u : Time) : Bool := decide (t < u)

/-- The method `t.Unix()`: whole seconds since the epoch. -/
def Time.Unix (t : Time) : Int := t / Second

end time

/-! ## Regular expressions (package `regexp`) -/

namespace regexp

/-- Regular expressions over runes; a character class is a list of inclusive
rune ranges. -/
inductive Regexp where
  | fail
  | eps
  | cls (ranges : List (Char × Char))
  | seq (a b : Regexp)
  | alt (a b : Regexp)
  | star (a : Regexp)
  deriving Repr

namespace Regexp

/-- Whether a rune lies in one of the ranges of a class. -/
def inClass (ranges : List (Char × Char)) (c : Char) : Bool :=
  ranges.any fun r => decide (r.1 ≤ c) && decide (c ≤ r.2)

/-- Whether the expression matches the empty text. -/
def nullable : Regexp → Bool
  | fail => false
  | eps => true
  | cls _ => false
  | seq a b => a.nullable && b.nullable
  | alt a b => a.nullable || b.nullable
  | star _ => true

/-- Brzozowski derivative by one rune. -/
def deriv (c : Char) : Regexp → Regexp
  | fail => fail
  | eps => fail
  | cls ranges => if inClass ranges c then eps else fail
  | seq a b => if a.nullable then alt (seq (a.deriv c) b) (b.deriv c) else seq (a.deriv c) b
  | alt a b => alt (a.deriv c) (b.deriv c)
  | star a => seq (a.deriv c) (star a)

/-- Whole-text match: the expression is anchored by `^` and `$`. -/
def matchRunes (r : Regexp) : List Char → Bool
  | [] => r.nullable
  | c :: cs => (r.deriv c).matchRunes cs

/-- The repetition `a+`. -/
def plus (a : Regexp) : Regexp := seq a (star a)

/-- The repetition `a{2,}`. -/
def atLeastTwo (a : Regexp) : Regexp := seq a (seq a (star a))

/-- A single literal rune. -/
def lit (c : Char) : Regexp := cls [(c, c)]

/-- The method `MatchString` of an expression of the form `^...$`. -/
def MatchString (r : Regexp) (s : String) : Bool := r.matchRunes s.data

/-- The texts an expression denotes: the usual semantics of regular
expressions, against which the matcher is proved correct. A text in a starred
expression is a concatenation of non-empty texts of the body. -/
def Matches : Regexp → List Char → Prop
  | fail, _ => False
  | eps, s => s = []
  | cls ranges, s => ∃ c, s = [c] ∧ inClass ranges c = true
  | seq a b, s => ∃ u v, s = u ++ v ∧ a.Matches u ∧ b.Matches v
  | alt a b, s => a.Matches s ∨ b.Matches s
  | star a, s => ∃ pieces : List (List Char),
      s = pieces.flatten ∧ ∀ u ∈ pieces, u ≠ [] ∧ a.Matches u

end Regexp

end regexp

/-! ## Package `strings` -/

namespace strings

/-- Splitting a rune list at every occurrence of a separator rune; the
accumulator `cur` holds the current piece, reversed. -/
def splitAux (sep : Char) : List Char → List Char → List (List Char)
  | [], cur => [cur.reverse]
  | c :: cs, cur => if c = sep then cur.reverse :: splitAux sep cs [] else splitAux sep cs (c :: cur)

/-- The function `strings.Split(s, sep)` for a one-rune separator: all pieces
between separators, `n + 1` pieces for `n` separators. -/
def Split (s : String) (sep : Char) : List String :=
  (splitAux sep s.data []).map String.mk

/-- The function `strings.ToLower`. Only ASCII letters are mapped; the two
non-ASCII runes that Go lowers to an ASCII letter (U+212A to `k`, U+0130 to
`i`) lower to letters that do not occur in the one string the result is
compared with, `"bearer"`. -/
def ToLower (s : String) : String := String.mk (s.data.map Char.toLower)

end strings

/-! ## External libraries -/

namespace jwt

/-- A claim value as held in `jwt.MapClaims` (an `interface{}`): a string, a
number, or any other JSON value kept as raw text. -/
inductive Value where
  | string (s : String)
  | number (n : Int)
  | other (raw : String)
  deriving DecidableEq, Repr

/-- The type `jwt.MapClaims`. -/
abbrev MapClaims := List (String × Value)

/-- Indexing `claims[key]`: `none` when the key is absent. -/
def MapClaims.get (claims : MapClaims) (key : String) : Option Value :=
  claims.lookup key

/-- The signing method named by a token header. `SigningMethodHMAC` is the Go
type of `HS256`, `HS384` and `HS512`. -/
inductive SigningMethod where
  | HS256
  | HS384
  | HS512
  | none
  | other (alg : String)
  deriving DecidableEq, Repr

/-- The type assertion `method.(*jwt.SigningMethodHMAC)`. -/
def SigningMethod.isHMAC : SigningMethod → Bool
  | HS256 => true
  | HS384 => true
  | HS512 => true
  | _ => false

/-- The header value `alg` of a method. -/
def SigningMethod.Alg : SigningMethod → String
  | HS256 => "HS256"
  | HS384 => "HS384"
  | HS512 => "HS512"
  | none => "none"
  | other alg => alg

/-- The type `jwt.Token`. -/
structure Token where
  Raw : String
  Method : SigningMethod
  Claims : MapClaims
  Valid : Bool
  deriving DecidableEq, Repr

end jwt

namespace domain

/-- The struct `domain.User`. -/
structure User where
  ID : uuid.UUID
  Username : String
  Email : String
  Password : String
  deriving DecidableEq, Repr

/-- The struct `domain.RefreshToken`. -/
structure RefreshToken where
  ID : uuid.UUID
  UserID : uuid.UUID
  Token : String
  ExpiryDate : time.Time
  deriving DecidableEq, Repr

/-- The struct `domain.Task`. A nil slice of label ids is the empty list. -/
structure Task where
  ID : uuid.UUID
  Title : String
  Description : String
  DueDate : time.Time
  UserID : uuid.UUID
  LabelIDs : List uuid.UUID := []
  deriving DecidableEq, Repr

/-- The struct `domain.Label`. -/
structure Label where
  ID : uuid.UUID
  Name : String
  Color : String
  UserID : uuid.UUID
  deriving DecidableEq, Repr

end domain

/-- The body of a login request, `struct { Email; Password }`. -/
structure LoginData where
  Email : String
  Password : String
  deriving DecidableEq, Repr

/-- The body of a request to create a task, the struct `taskData` of
`TaskHandler.CreateTask`. -/
structure TaskData where
  Title : String
  Description : String
  DueDate : time.Time
  UserID : uuid.UUID
  deriving DecidableEq, Repr

/-- The body of a request to update a task, the struct `taskData` of
`TaskHandler.UpdateTask`. -/
structure TaskUpdateData where
  Title : String
  Description : String
  DueDate : time.Time
  deriving DecidableEq, Repr

/-- The body of a request to create a label, the struct `labelData` of
`LabelHandler.CreateLabel`. -/
structure LabelData where
  Name : String
  Color : String
  UserID : uuid.UUID
  deriving DecidableEq, Repr

/-- Functions imported from outside the repository. -/
structure Libs where
  /-- The call `bcrypt.GenerateFromPassword(password, bcrypt.DefaultCost)`; the first
  argument is the random salt it draws. -/
  bcrypt_GenerateFromPassword : String → String → Except GoError String
  /-- The call `bcrypt.CompareHashAndPassword(hash, password)`. -/
  bcrypt_CompareHashAndPassword : String → String → Option GoError
  /-- The call `jwt.NewWithClaims(jwt.SigningMethodHS256, claims).SignedString(key)`. -/
  jwt_SignedString : jwt.MapClaims → String → Except GoError String
  /-- The call `Parser.ParseUnverified`: decoding of the three segments. -/
  jwt_ParseUnverified : String → Except GoError jwt.Token
  /-- The call `token.Method.Verify(signingString, signature, key)`. -/
  jwt_Verify : jwt.Token → String → Option GoError
  /-- The call `Validator.Validate(claims)` at the given instant. -/
  jwt_Validate : jwt.MapClaims → time.Time → Option GoError
  /-- The method `String()` of a UUID. -/
  uuid_String : uuid.UUID → String
  /-- The call `uuid.Parse`. -/
  uuid_Parse : String → Except GoError uuid.UUID
  /-- The call `time.ParseDuration`. -/
  time_ParseDuration : String → Except GoError time.Duration
  /-- The call `json.NewDecoder(body).Decode(&user)` into a `domain.User`. -/
  json_DecodeUser : String → Except GoError domain.User
  /-- The call `json.NewDecoder(body).Decode(&loginData)`. -/
  json_DecodeLogin : String → Except GoError LoginData
  /-- The call `json.NewDecoder(body).Decode(&refreshTokenData)`: the field
  `refresh_token`. -/
  json_DecodeRefresh : String → Except GoError String
  /-- The call `json.NewDecoder(body).Decode(&taskData)` in `CreateTask`. -/
  json_DecodeTask : String → Except GoError TaskData
  /-- The call `json.NewDecoder(body).Decode(&taskData)` in `UpdateTask`. -/
  json_DecodeTaskUpdate : String → Except GoError TaskUpdateData
  /-- The call `json.NewDecoder(body).Decode(&labelData)` in `CreateLabel`. -/
  json_DecodeLabel : String → Except GoError LabelData

/-- The process environment as `CreateRefreshToken` sees it: the result of
`godotenv.Load()` and the values `os.Getenv` returns afterwards. -/
structure OSEnv where
  godotenv_Load : Option GoError
  Getenv : String → String

namespace jwt

/-- The function `jwt.Parse(tokenString, keyFunc)` of golang-jwt v5: decode the
segments, ask the key function for the key, verify the signature, validate the
registered claims at the current instant, and only then mark the token valid. -/
def Parse (lib : Libs) (now : time.Time) (tokenString : String)
    (keyFunc : Token → Except GoError String) : Except GoError Token :=
  match lib.jwt_ParseUnverified tokenString with
  | .error err => .error err
  | .ok token =>
    match keyFunc token with
    | .error err => .error (.wrapf "token is unverifiable: error while executing keyfunc" err)
    | .ok key =>
      match lib.jwt_Verify token key with
      | some err => .error (.wrapf "token signature is invalid" err)
      | Option.none =>
        match lib.jwt_Validate token.Claims now with
        | some err => .error err
        | Option.none => .ok { token with Valid := true }

end jwt

namespace domain

/-- The method `(*User).HashPassword`: the user after the call and the error. -/
def User.HashPassword (lib : Libs) (salt : String) (u : User) (password : String) :
    User × Option GoError :=
  match lib.bcrypt_GenerateFromPassword salt password with
  | .error err => (u, some err)
  | .ok hashedPassword => ({ u with Password := hashedPassword }, none)

/-- The method `(*User).ComparePassword`. -/
def User.ComparePassword (lib : Libs) (u : User) (password : String) : Option GoError :=
  lib.bcrypt_CompareHashAndPassword u.Password password

end domain

/-! ## Package `auth` -/

namespace auth

/-- Keys of `context.WithValue`: the key type `auth.UserContextKey` and any
other key. -/
inductive ContextKey where
  | UserContextKey
  | other (name : String)
  deriving DecidableEq, Repr

/-- Values stored in a context: a `uuid.UUID` or a value of another type. -/
inductive ContextValue where
  | uuid (id : uuid.UUID)
  | other (v : String)
  deriving DecidableEq, Repr

/-- A `context.Context`: the chain of `WithValue` bindings, innermost first. -/
abbrev Context := List (ContextKey × ContextValue)

/-- The method `ctx.Value(key)`. -/
def Context.Value (ctx : Context) (key : ContextKey) : Option ContextValue :=
  ctx.lookup key

/-- The function `auth.ContextWithUser`. -/
def ContextWithUser (ctx : Context) (userID : uuid.UUID) : Context :=
  (ContextKey.UserContextKey, ContextValue.uuid userID) :: ctx

/-- The function `auth.UserIDFromContext`: the type assertion to `uuid.UUID`
yields the zero UUID and `false` when the value is absent or of another type. -/
def UserIDFromContext (ctx : Context) : uuid.UUID × Bool :=
  match ctx.Value ContextKey.UserContextKey with
  | some (ContextValue.uuid userID) => (userID, true)
  | _ => (uuid.Nil, false)

end auth

/-! ## Package `repository` -/

namespace repository

/-- The interface `repository.UserRepository` over a store `σ`. A method
returning `(*domain.User, error)` returns both components. -/
structure UserRepository (σ : Type) where
  Create : domain.User → σ → Option GoError × σ
  GetByID : uuid.UUID → σ → (Option domain.User × Option GoError) × σ
  GetByEmail : String → σ → (Option domain.User × Option GoError) × σ
  Update : domain.User → σ → Option GoError × σ
  Delete : uuid.UUID → σ → Option GoError × σ

/-- The interface `repository.RefreshTokenRepository` over a store `σ`. -/
structure RefreshTokenRepository (σ : Type) where
  Create : domain.RefreshToken → σ → Option GoError × σ
  GetByToken : String → σ → (Option domain.RefreshToken × Option GoError) × σ
  Delete : uuid.UUID → σ → Option GoError × σ
  DeleteAllByUserID : uuid.UUID → σ → Option GoError × σ

/-- The interface `repository.TaskRepository` over a store `σ`. -/
structure TaskRepository (σ : Type) where
  Create : domain.Task → σ → Option GoError × σ
  GetByID : uuid.UUID → σ → (Option domain.Task × Option GoError) × σ
  GetAllByUserID : uuid.UUID → σ → (List domain.Task × Option GoError) × σ
  Update : domain.Task → σ → Option GoError × σ
  Delete : uuid.UUID → σ → Option GoError × σ

/-- The interface `repository.LabelRepository` over a store `σ`. -/
structure LabelRepository (σ : Type) where
  Create : domain.Label → σ → Option GoError × σ
  GetByID : uuid.UUID → σ → (Option domain.Label × Option GoError) × σ
  GetAllByUserID : uuid.UUID → σ → (List domain.Label × Option GoError) × σ
  Update : domain.Label → σ → Option GoError × σ
  Delete : uuid.UUID → σ → Option GoError × σ

/-- A call received by a user repository. -/
inductive UserCall where
  | Create (user : domain.User)
  | GetByID (id : uuid.UUID)
  | GetByEmail (email : String)
  | Update (user : domain.User)
  | Delete (id : uuid.UUID)
  deriving DecidableEq, Repr

/-- A call received by a refresh-token repository. -/
inductive RefreshTokenCall where
  | Create (refreshToken : domain.RefreshToken)
  | GetByToken (token : String)
  | Delete (id : uuid.UUID)
  | DeleteAllByUserID (userID : uuid.UUID)
  deriving DecidableEq, Repr

/-- A call received by one of the repositories. -/
inductive Call where
  | user (call : UserCall)
  | refreshToken (call : RefreshTokenCall)
  deriving DecidableEq, Repr

/-- A user repository that records every call it receives, in order, next to
the store of the repository it wraps (what a testify mock records). -/
def UserRepository.recording {σ : Type} (repo : UserRepository σ) :
    UserRepository (σ × List Call) where
  Create user s :=
    ((repo.Create user s.1).1, ((repo.Create user s.1).2, s.2 ++ [.user (.Create user)]))
  GetByID id s :=
    ((repo.GetByID id s.1).1, ((repo.GetByID id s.1).2, s.2 ++ [.user (.GetByID id)]))
  GetByEmail email s :=
    ((repo.GetByEmail email s.1).1,
      ((repo.GetByEmail email s.1).2, s.2 ++ [.user (.GetByEmail email)]))
  Update user s :=
    ((repo.Update user s.1).1, ((repo.Update user s.1).2, s.2 ++ [.user (.Update user)]))
  Delete id s :=
    ((repo.Delete id s.1).1, ((repo.Delete id s.1).2, s.2 ++ [.user (.Delete id)]))

/-- A refresh-token repository that records every call it receives. -/
def RefreshTokenRepository.recording {σ : Type} (repo : RefreshTokenRepository σ) :
    RefreshTokenRepository (σ × List Call) where
  Create rt s :=
    ((repo.Create rt s.1).1, ((repo.Create rt s.1).2, s.2 ++ [.refreshToken (.Create rt)]))
  GetByToken token s :=
    ((repo.GetByToken token s.1).1,
      ((repo.GetByToken token s.1).2, s.2 ++ [.refreshToken (.GetByToken token)]))
  Delete id s :=
    ((repo.Delete id s.1).1, ((repo.Delete id s.1).2, s.2 ++ [.refreshToken (.Delete id)]))
  DeleteAllByUserID userID s :=
    ((repo.DeleteAllByUserID userID s.1).1,
      ((repo.DeleteAllByUserID userID s.1).2,
        s.2 ++ [.refreshToken (.DeleteAllByUserID userID)]))

/-- A call received by a task repository. -/
inductive TaskCall where
  | Create (task : domain.Task)
  | GetByID (id : uuid.UUID)
  | GetAllByUserID (userID : uuid.UUID)
  | Update (task : domain.Task)
  | Delete (id : uuid.UUID)
  deriving DecidableEq, Repr

/-- A call received by a label repository. -/
inductive LabelCall where
  | Create (label : domain.Label)
  | GetByID (id : uuid.UUID)
  | GetAllByUserID (userID : uuid.UUID)
  | Update (label : domain.Label)
  | Delete (id : uuid.UUID)
  deriving DecidableEq, Repr

/-- A task repository that records every call it receives. -/
def TaskRepository.recording {σ : Type} (repo : TaskRepository σ) :
    TaskRepository (σ × List TaskCall) where
  Create task s := ((repo.Create task s.1).1, ((repo.Create task s.1).2, s.2 ++ [.Create task]))
  GetByID id s := ((repo.GetByID id s.1).1, ((repo.GetByID id s.1).2, s.2 ++ [.GetByID id]))
  GetAllByUserID userID s :=
    ((repo.GetAllByUserID userID s.1).1,
      ((repo.GetAllByUserID userID s.1).2, s.2 ++ [.GetAllByUserID userID]))
  Update task s := ((repo.Update task s.1).1, ((repo.Update task s.1).2, s.2 ++ [.Update task]))
  Delete id s := ((repo.Delete id s.1).1, ((repo.Delete id s.1).2, s.2 ++ [.Delete id]))

/-- A label repository that records every call it receives. -/
def LabelRepository.recording {σ : Type} (repo : LabelRepository σ) :
    LabelRepository (σ × List LabelCall) where
  Create label s :=
    ((repo.Create label s.1).1, ((repo.Create label s.1).2, s.2 ++ [.Create label]))
  GetByID id s := ((repo.GetByID id s.1).1, ((repo.GetByID id s.1).2, s.2 ++ [.GetByID id]))
  GetAllByUserID userID s :=
    ((repo.GetAllByUserID userID s.1).1,
      ((repo.GetAllByUserID userID s.1).2, s.2 ++ [.GetAllByUserID userID]))
  Update label s :=
    ((repo.Update label s.1).1, ((repo.Update label s.1).2, s.2 ++ [.Update label]))
  Delete id s := ((repo.Delete id s.1).1, ((repo.Delete id s.1).2, s.2 ++ [.Delete id]))

end repository

/-! ## Package `service` -/

namespace service

open regexp.Regexp in
/-- The expression compiled in `CreateUser`:
`^[a-zA-Z0-9._%+-]+@[a-zA-Z0-9.-]+\.[a-zA-Z]{2,}$`. -/
def emailRegex : regexp.Regexp :=
  seq (plus (cls [('a', 'z'), ('A', 'Z'), ('0', '9'), ('.', '.'), ('_', '_'), ('%', '%'),
      ('+', '+'), ('-', '-')]))
    (seq (lit '@')
      (seq (plus (cls [('a', 'z'), ('A', 'Z'), ('0', '9'), ('.', '.'), ('-', '-')]))
        (seq (lit '.') (atLeastTwo (cls [('a', 'z'), ('A', 'Z')])))))

/-- The method `DefaultUserService.CreateUser`. `newID` is the value of
`uuid.New()`, `salt` the randomness of the password hash. -/
def CreateUser {σ : Type} (lib : Libs) (userRepo : repository.UserRepository σ)
    (newID : uuid.UUID) (salt : String) (username email password : String) (s : σ) :
    (Option domain.User × Option GoError) × σ :=
  if username = "" ∨ email = "" ∨ password = "" then
    ((none, some (.errorf "необходимо заполнить все поля")), s)
  else if !emailRegex.MatchString email then
    ((none, some (.errorf "неверный формат email")), s)
  else
    match userRepo.GetByEmail email s with
    | ((existingUser, err), s1) =>
      if err = none ∧ existingUser ≠ none then
        ((none, some (.errorf "пользователь с таким email уже существует")), s1)
      else
        match domain.User.HashPassword lib salt
            { ID := newID, Username := username, Email := email, Password := "" } password with
        | (_, some err) => ((none, some (.wrapf "ошибка при хешировании пароля" err)), s1)
        | (user, none) =>
          match userRepo.Create user s1 with
          | (some err, s2) => ((none, some (.wrapf "ошибка при создании пользователя" err)), s2)
          | (none, s2) => ((some user, none), s2)

/-- The method `DefaultUserService.GetUserByID`. -/
def GetUserByID {σ : Type} (userRepo : repository.UserRepository σ) (id : uuid.UUID) (s : σ) :
    (Option domain.User × Option GoError) × σ :=
  match userRepo.GetByID id s with
  | ((_, some err), s1) => ((none, some (.wrapf "ошибка при получении пользователя по ID" err)), s1)
  | ((user, none), s1) => ((user, none), s1)

/-- The method `DefaultUserService.GetUserByEmail`. -/
def GetUserByEmail {σ : Type} (userRepo : repository.UserRepository σ) (email : String) (s : σ) :
    (Option domain.User × Option GoError) × σ :=
  match userRepo.GetByEmail email s with
  | ((_, some err), s1) =>
    ((none, some (.wrapf "ошибка при получении пользователя по email" err)), s1)
  | ((user, none), s1) => ((user, none), s1)

/-- The method `DefaultRefreshTokenService.CreateRefreshToken`. `newID` and
`newToken` are the two values of `uuid.New()`, `now` is `time.Now().UTC()`. -/
def CreateRefreshToken {σ : Type} (lib : Libs) (env : OSEnv)
    (refreshTokenRepo : repository.RefreshTokenRepository σ)
    (newID newToken : uuid.UUID) (now : time.Time) (userID : uuid.UUID) (s : σ) :
    (Option domain.RefreshToken × Option GoError) × σ :=
  match env.godotenv_Load with
  | some err => ((none, some err), s)
  | none =>
    match lib.time_ParseDuration (env.Getenv "REFRESH_TOKEN_EXPIRE_TIME") with
    | .error err => ((none, some err), s)
    | .ok duration =>
      let refreshToken : domain.RefreshToken :=
        { ID := newID, UserID := userID, Token := lib.uuid_String newToken,
          ExpiryDate := time.Time.Add now duration }
      match refreshTokenRepo.Create refreshToken s with
      | (some err, s1) => ((none, some (.wrapf "ошибка при создании refresh токена" err)), s1)
      | (none, s1) => ((some refreshToken, none), s1)

/-- The method `DefaultRefreshTokenService.GetRefreshToken`. -/
def GetRefreshToken {σ : Type} (refreshTokenRepo : repository.RefreshTokenRepository σ)
    (token : String) (s : σ) : (Option domain.RefreshToken × Option GoError) × σ :=
  match refreshTokenRepo.GetByToken token s with
  | ((_, some err), s1) => ((none, some (.wrapf "ошибка при получении refresh токена" err)), s1)
  | ((refreshToken, none), s1) => ((refreshToken, none), s1)

/-- The method `DefaultRefreshTokenService.DeleteRefreshToken`. -/
def DeleteRefreshToken {σ : Type} (refreshTokenRepo : repository.RefreshTokenRepository σ)
    (id : uuid.UUID) (s : σ) : Option GoError × σ :=
  match refreshTokenRepo.Delete id s with
  | (some err, s1) => (some (.wrapf "ошибка при удалении refresh токена" err), s1)
  | (none, s1) => (none, s1)

/-- The method `DefaultRefreshTokenService.DeleteAllRefreshTokensByUserID`. -/
def DeleteAllRefreshTokensByUserID {σ : Type}
    (refreshTokenRepo : repository.RefreshTokenRepository σ) (userID : uuid.UUID) (s : σ) :
    Option GoError × σ :=
  match refreshTokenRepo.DeleteAllByUserID userID s with
  | (some err, s1) =>
    (some (.wrapf "ошибка при удалении всех refresh токенов пользователя" err), s1)
  | (none, s1) => (none, s1)

/-- The method `DefaultUserService.UpdateUser`. The result `none` is the
run-time panic of writing through a nil user, when `GetByID` returns neither a
user nor an error. -/
def UpdateUser {σ : Type} (userRepo : repository.UserRepository σ) (id : uuid.UUID)
    (username email : String) (s : σ) : Option (Option domain.User × Option GoError) × σ :=
  match userRepo.GetByID id s with
  | ((_, some _), s1) => (some (none, some (.errorf "пользователь не найден")), s1)
  | ((none, none), s1) => (none, s1)
  | ((some user, none), s1) =>
    match userRepo.Update { user with Username := username, Email := email } s1 with
    | (some err, s2) => (some (none, some (.wrapf "ошибка при обновлении пользователя" err)), s2)
    | (none, s2) => (some (some { user with Username := username, Email := email }, none), s2)

/-- The method `DefaultUserService.DeleteUser`. -/
def DeleteUser {σ : Type} (userRepo : repository.UserRepository σ) (id : uuid.UUID) (s : σ) :
    Option GoError × σ :=
  match userRepo.Delete id s with
  | (some err, s1) => (some (.wrapf "ошибка при удалении пользователя" err), s1)
  | (none, s1) => (none, s1)

/-- The method `DefaultTaskService.CreateTask`; `newID` is the value of
`uuid.New()`. -/
def CreateTask {σ : Type} (taskRepo : repository.TaskRepository σ) (newID : uuid.UUID)
    (title description : String) (dueDate : time.Time) (userID : uuid.UUID) (s : σ) :
    (Option domain.Task × Option GoError) × σ :=
  if title = "" then
    ((none, some (.errorf "необходимо указать название задачи")), s)
  else if userID = uuid.Nil then
    ((none, some (.errorf "необходимо указать пользователя")), s)
  else
    let task : domain.Task :=
      { ID := newID, Title := title, Description := description, DueDate := dueDate,
        UserID := userID }
    match taskRepo.Create task s with
    | (some err, s1) => ((none, some (.wrapf "ошибка при создании задачи" err)), s1)
    | (none, s1) => ((some task, none), s1)

/-- The method `DefaultTaskService.GetTaskByID`. -/
def GetTaskByID {σ : Type} (taskRepo : repository.TaskRepository σ) (id : uuid.UUID) (s : σ) :
    (Option domain.Task × Option GoError) × σ :=
  match taskRepo.GetByID id s with
  | ((_, some err), s1) => ((none, some (.wrapf "ошибка при получении задачи по ID" err)), s1)
  | ((task, none), s1) => ((task, none), s1)

/-- The method `DefaultTaskService.UpdateTask`. The result `none` is the
run-time panic of writing through a nil task. -/
def UpdateTask {σ : Type} (taskRepo : repository.TaskRepository σ) (id : uuid.UUID)
    (title description : String) (dueDate : time.Time) (s : σ) :
    Option (Option domain.Task × Option GoError) × σ :=
  match taskRepo.GetByID id s with
  | ((_, some _), s1) => (some (none, some (.errorf "задача не найдена")), s1)
  | ((none, none), s1) => (none, s1)
  | ((some task, none), s1) =>
    match taskRepo.Update
        { task with Title := title, Description := description, DueDate := dueDate } s1 with
    | (some err, s2) => (some (none, some (.wrapf "ошибка при обновлении задачи" err)), s2)
    | (none, s2) =>
      (some (some { task with Title := title, Description := description, DueDate := dueDate },
        none), s2)

/-- The method `DefaultTaskService.DeleteTask`. -/
def DeleteTask {σ : Type} (taskRepo : repository.TaskRepository σ) (id : uuid.UUID) (s : σ) :
    Option GoError × σ :=
  match taskRepo.Delete id s with
  | (some err, s1) => (some (.wrapf "ошибка при удалении задачи" err), s1)
  | (none, s1) => (none, s1)

open regexp.Regexp in
/-- The expression compiled in `CreateLabel`: `^#([0-9a-fA-F]{3}){1,2}$`. -/
def hexColorRegex : regexp.Regexp :=
  seq (lit '#')
    (seq (seq (cls [('0', '9'), ('a', 'f'), ('A', 'F')])
        (seq (cls [('0', '9'), ('a', 'f'), ('A', 'F')]) (cls [('0', '9'), ('a', 'f'), ('A', 'F')])))
      (alt eps
        (seq (cls [('0', '9'), ('a', 'f'), ('A', 'F')])
          (seq (cls [('0', '9'), ('a', 'f'), ('A', 'F')])
            (cls [('0', '9'), ('a', 'f'), ('A', 'F')])))))

/-- The method `DefaultLabelService.CreateLabel`; `newID` is the value of
`uuid.New()`. -/
def CreateLabel {σ : Type} (labelRepo : repository.LabelRepository σ) (newID : uuid.UUID)
    (name color : String) (userID : uuid.UUID) (s : σ) :
    (Option domain.Label × Option GoError) × σ :=
  if name = "" then
    ((none, some (.errorf "необходимо указать название метки")), s)
  else if color = "" then
    ((none, some (.errorf "необходимо указать цвет метки")), s)
  else if userID = uuid.Nil then
    ((none, some (.errorf "необходимо указать пользователя")), s)
  else if !hexColorRegex.MatchString color then
    ((none, some (.errorf "неверный формат цвета (HEX)")), s)
  else
    let label : domain.Label := { ID := newID, Name := name, Color := color, UserID := userID }
    match labelRepo.Create label s with
    | (some err, s1) => ((none, some (.wrapf "ошибка при создании метки" err)), s1)
    | (none, s1) => ((some label, none), s1)

/-- The method `DefaultTaskService.GetAllTasksByUserID`. -/
def GetAllTasksByUserID {σ : Type} (taskRepo : repository.TaskRepository σ)
    (userID : uuid.UUID) (s : σ) : (List domain.Task × Option GoError) × σ :=
  match taskRepo.GetAllByUserID userID s with
  | ((_, some err), s1) => (([], some (.wrapf "ошибка при получении задач пользователя" err)), s1)
  | ((tasks, none), s1) => ((tasks, none), s1)

/-- The method `DefaultLabelService.GetLabelByID`. -/
def GetLabelByID {σ : Type} (labelRepo : repository.LabelRepository σ) (id : uuid.UUID)
    (s : σ) : (Option domain.Label × Option GoError) × σ :=
  match labelRepo.GetByID id s with
  | ((_, some err), s1) => ((none, some (.wrapf "ошибка при получении метки по ID" err)), s1)
  | ((label, none), s1) => ((label, none), s1)

/-- The method `DefaultLabelService.GetAllLabelsByUserID`. -/
def GetAllLabelsByUserID {σ : Type} (labelRepo : repository.LabelRepository σ)
    (userID : uuid.UUID) (s : σ) : (List domain.Label × Option GoError) × σ :=
  match labelRepo.GetAllByUserID userID s with
  | ((_, some err), s1) => (([], some (.wrapf "ошибка при получении меток пользователя" err)), s1)
  | ((labels, none), s1) => ((labels, none), s1)

/-- The method `DefaultLabelService.UpdateLabel`. The result `none` is the
run-time panic of writing through a nil label. -/
def UpdateLabel {σ : Type} (labelRepo : repository.LabelRepository σ) (id : uuid.UUID)
    (name color : String) (s : σ) : Option (Option domain.Label × Option GoError) × σ :=
  match labelRepo.GetByID id s with
  | ((_, some _), s1) => (some (none, some (.errorf "метка не найдена")), s1)
  | ((none, none), s1) => (none, s1)
  | ((some label, none), s1) =>
    match labelRepo.Update { label with Name := name, Color := color } s1 with
    | (some err, s2) => (some (none, some (.wrapf "ошибка при обновлении метки" err)), s2)
    | (none, s2) => (some (some { label with Name := name, Color := color }, none), s2)

/-- The method `DefaultLabelService.DeleteLabel`. -/
def DeleteLabel {σ : Type} (labelRepo : repository.LabelRepository σ) (id : uuid.UUID)
    (s : σ) : Option GoError × σ :=
  match labelRepo.Delete id s with
  | (some err, s1) => (some (.wrapf "ошибка при удалении метки" err), s1)
  | (none, s1) => (none, s1)

end service

/-! ## Package `net/http` -/

namespace http

/-- What a handler writes as the response body: plain text, a JSON object of
string members, the JSON encoding of a task or of a label (one member per
field, named by its `json` tag), or nothing. -/
inductive Body where
  | text (s : String)
  | json (fields : List (String × String))
  | jsonTask (task : domain.Task)
  | jsonLabel (label : domain.Label)
  | empty
  deriving DecidableEq, Repr

/-- The outcome of serving one request: the status line and body written, or a
run-time panic (nil dereference) before anything is written. -/
inductive Response where
  | reply (status : Nat) (body : Body)
  | panic
  deriving DecidableEq, Repr

/-- The status code of a response, if one was written. -/
def Response.status : Response → Option Nat
  | .reply status _ => some status
  | .panic => none

/-- The function `http.Error(w, error, code)`: a plain-text body holding the
message and a newline. -/
def Error (error : String) (code : Nat) : Response :=
  .reply code (.text (error ++ "\n"))

/-- The parts of `*http.Request` the handlers read; `Vars` are the route
variables `mux.Vars(r)`. -/
structure Request where
  Authorization : String := ""
  Body : String := ""
  ctx : auth.Context := []
  Vars : List (String × String) := []
  deriving DecidableEq, Repr

/-- The method `r.WithContext(ctx)`. -/
def Request.WithContext (r : Request) (ctx : auth.Context) : Request :=
  { r with ctx := ctx }

/-- An `http.Handler` acting on a store `σ`. -/
abbrev Handler (σ : Type) := Request → σ → Response × σ

end http

/-! ## Package `config` -/

namespace config

/-- The struct `config.Config`. -/
structure Config where
  AppPort : String
  DatabaseURL : String
  JWTSecret : String
  deriving DecidableEq, Repr

end config

/-! ## Package `handlers` -/

namespace handlers

open http

/-- The struct `handlers.UserHandler` as `app.Run` builds it: `userService` is
the `DefaultUserService` over `userRepo`, `refreshTokenService` the
`DefaultRefreshTokenService` over `refreshTokenRepo`. -/
structure UserHandler (σ : Type) where
  userRepo : repository.UserRepository σ
  refreshTokenRepo : repository.RefreshTokenRepository σ
  config : config.Config

/-- The same handler over repositories that record their calls. -/
def UserHandler.recording {σ : Type} (h : UserHandler σ) :
    UserHandler (σ × List repository.Call) where
  userRepo := h.userRepo.recording
  refreshTokenRepo := h.refreshTokenRepo.recording
  config := h.config

/-- The encoding `json.NewEncoder(w).Encode(user)` of a `domain.User`: one
member per field, named by its `json` tag. -/
def encodeUser (lib : Libs) (user : domain.User) : Body :=
  .json [("id", lib.uuid_String user.ID), ("username", user.Username), ("email", user.Email),
    ("password", user.Password)]

/-- The claims of an access token, built in `LoginUser` and `RefreshToken`;
`now` is the value of `time.Now()`. -/
def accessClaims (lib : Libs) (userID : uuid.UUID) (now : time.Time) : jwt.MapClaims :=
  [("user_id", .string (lib.uuid_String userID)),
    ("exp", .number (time.Time.Unix (time.Time.Add now (time.Hour * 24))))]

/-- The method `UserHandler.RegisterUser`. -/
def RegisterUser {σ : Type} (lib : Libs) (h : UserHandler σ) (newID : uuid.UUID) (salt : String) :
    Handler σ := fun r s =>
  match lib.json_DecodeUser r.Body with
  | .error _ => (Error "Неверный формат запроса" 400, s)
  | .ok user =>
    match service.CreateUser lib h.userRepo newID salt user.Username user.Email user.Password s with
    | ((_, some err), s1) => (Error err.Error 400, s1)
    | ((none, none), s1) => (.reply 201 (.text "null\n"), s1)
    | ((some createdUser, none), s1) => (.reply 201 (encodeUser lib createdUser), s1)

/-- The method `UserHandler.LoginUser`. `now` is the value of `time.Now()`
for the access token; `refreshID`, `refreshToken` and `refreshNow` are the
values `CreateRefreshToken` draws. -/
def LoginUser {σ : Type} (lib : Libs) (env : OSEnv) (h : UserHandler σ) (now : time.Time)
    (refreshID refreshToken : uuid.UUID) (refreshNow : time.Time) : Handler σ := fun r s =>
  match lib.json_DecodeLogin r.Body with
  | .error _ => (Error "Неверный формат запроса" 400, s)
  | .ok loginData =>
    match service.GetUserByEmail h.userRepo loginData.Email s with
    | ((_, some _), s1) => (Error "Неверный email или пароль" 401, s1)
    | ((none, none), s1) => (.panic, s1)
    | ((some user, none), s1) =>
      match user.ComparePassword lib loginData.Password with
      | some _ => (Error "Неверный email или пароль" 401, s1)
      | none =>
        match lib.jwt_SignedString (accessClaims lib user.ID now) h.config.JWTSecret with
        | .error _ => (Error "Ошибка при создании токена" 500, s1)
        | .ok tokenString =>
          match service.CreateRefreshToken lib env h.refreshTokenRepo refreshID refreshToken
              refreshNow user.ID s1 with
          | ((_, some _), s2) => (Error "Ошибка при создании refresh токена" 500, s2)
          | ((none, none), s2) => (.panic, s2)
          | ((some created, none), s2) =>
            (.reply 200 (.json [("refresh_token", created.Token), ("token", tokenString)]), s2)

/-- The method `UserHandler.RefreshToken`. `nowCheck` is the value of
`time.Now().UTC()` in the expiry test, `nowIssue` the later value of
`time.Now()` in the claims. -/
def RefreshToken {σ : Type} (lib : Libs) (h : UserHandler σ) (nowCheck nowIssue : time.Time) :
    Handler σ := fun r s =>
  match lib.json_DecodeRefresh r.Body with
  | .error _ => (Error "Неверный формат запроса" 400, s)
  | .ok token =>
    match service.GetRefreshToken h.refreshTokenRepo token s with
    | ((_, some _), s1) => (Error "Неверный refresh токен" 401, s1)
    | ((none, none), s1) => (.panic, s1)
    | ((some refreshToken, none), s1) =>
      if time.Time.Before refreshToken.ExpiryDate nowCheck then
        (Error "Срок действия refresh токена истек" 401, s1)
      else
        match lib.jwt_SignedString (accessClaims lib refreshToken.UserID nowIssue)
            h.config.JWTSecret with
        | .error _ => (Error "Ошибка при создании токена" 500, s1)
        | .ok tokenString => (.reply 200 (.json [("token", tokenString)]), s1)

/-- The function `handlers.GetUserIDFromRequest`. -/
def GetUserIDFromRequest (r : Request) : uuid.UUID × Bool :=
  auth.UserIDFromContext r.ctx

/-- The method `UserHandler.RevokeAllRefreshTokens`. -/
def RevokeAllRefreshTokens {σ : Type} (h : UserHandler σ) : Handler σ := fun r s =>
  match GetUserIDFromRequest r with
  | (_, false) => (Error "Не удалось получить ID пользователя из контекста" 500, s)
  | (userID, true) =>
    match service.DeleteAllRefreshTokensByUserID h.refreshTokenRepo userID s with
    | (some _, s1) => (Error "Ошибка при отзыве refresh токенов" 500, s1)
    | (none, s1) => (.reply 204 .empty, s1)

/-- The struct `handlers.AuthMiddleware`; `userService` is the
`DefaultUserService` over `userRepo`. -/
structure AuthMiddleware (σ : Type) where
  userRepo : repository.UserRepository σ
  config : config.Config

/-- The key function `Authenticate` hands to `jwt.Parse`. -/
def keyFunc {σ : Type} (m : AuthMiddleware σ) (token : jwt.Token) : Except GoError String :=
  if token.Method.isHMAC then .ok m.config.JWTSecret
  else .error (.errorf ("неверный алгоритм подписи: " ++ token.Method.Alg))

/-- Steps 3 to 6 of `AuthMiddleware.Authenticate`: validation of the token
string taken from the header, extraction of the user id, and the call of the
next handler. The assertion of `token.Claims` to `jwt.MapClaims` holds for
every token `jwt.Parse` returns, so the test of step 4 is that of
`token.Valid`. -/
def authenticateToken {σ : Type} (lib : Libs) (m : AuthMiddleware σ) (now : time.Time)
    (next : Handler σ) (tokenString : String) : Handler σ := fun r s =>
  match jwt.Parse lib now tokenString (keyFunc m) with
  | .error _ => (Error "Неверный токен" 401, s)
  | .ok token =>
    if token.Valid then
      match token.Claims.get "user_id" with
      | some (.string userIDString) =>
        match lib.uuid_Parse userIDString with
        | .error _ => (Error "Неверный ID пользователя в токене" 500, s)
        | .ok userID => next (r.WithContext (auth.ContextWithUser r.ctx userID)) s
      | _ => (Error "Неверный формат ID пользователя в токене" 500, s)
    else
      (Error "Неверный токен" 401, s)

/-- The method `AuthMiddleware.Authenticate` (steps 1 and 2, then
`authenticateToken`); `now` is the instant at which the token is validated. -/
def Authenticate {σ : Type} (lib : Libs) (m : AuthMiddleware σ) (now : time.Time)
    (next : Handler σ) : Handler σ := fun r s =>
  let authHeader := r.Authorization
  if authHeader = "" then
    (Error "Отсутствует заголовок Authorization" 401, s)
  else
    let parts := strings.Split authHeader ' '
    if parts.length ≠ 2 ∨ strings.ToLower (parts.getD 0 "") ≠ "bearer" then
      (Error "Неверный формат заголовка Authorization" 401, s)
    else
      authenticateToken lib m now next (parts.getD 1 "") r s

/-- The struct `handlers.TaskHandler` as `app.Run` builds it: `taskService` is
the `DefaultTaskService` over `taskRepo`. -/
structure TaskHandler (σ : Type) where
  taskRepo : repository.TaskRepository σ

/-- The struct `handlers.LabelHandler` as `app.Run` builds it: `labelService`
is the `DefaultLabelService` over `labelRepo`. -/
structure LabelHandler (σ : Type) where
  labelRepo : repository.LabelRepository σ

/-- The route variable `mux.Vars(r)["id"]`, empty when absent. -/
def routeID (r : Request) : String := (r.Vars.lookup "id").getD ""

/-- The method `TaskHandler.CreateTask`; `newID` is the value of `uuid.New()`
in the service. -/
def CreateTask {σ : Type} (lib : Libs) (h : TaskHandler σ) (newID : uuid.UUID) : Handler σ :=
  fun r s =>
  match lib.json_DecodeTask r.Body with
  | .error _ => (Error "Неверный формат запроса" 400, s)
  | .ok taskData =>
    match service.CreateTask h.taskRepo newID taskData.Title taskData.Description
        taskData.DueDate taskData.UserID s with
    | ((_, some err), s1) => (Error err.Error 400, s1)
    | ((none, none), s1) => (.reply 201 (.text "null\n"), s1)
    | ((some createdTask, none), s1) => (.reply 201 (.jsonTask createdTask), s1)

/-- The method `TaskHandler.GetTask`. -/
def GetTask {σ : Type} (lib : Libs) (h : TaskHandler σ) : Handler σ := fun r s =>
  match lib.uuid_Parse (routeID r) with
  | .error _ => (Error "Неверный ID задачи" 400, s)
  | .ok id =>
    match service.GetTaskByID h.taskRepo id s with
    | ((_, some _), s1) => (Error "Задача не найдена" 404, s1)
    | ((none, none), s1) => (.reply 200 (.text "null\n"), s1)
    | ((some task, none), s1) => (.reply 200 (.jsonTask task), s1)

/-- The method `TaskHandler.UpdateTask`. -/
def UpdateTask {σ : Type} (lib : Libs) (h : TaskHandler σ) : Handler σ := fun r s =>
  match lib.uuid_Parse (routeID r) with
  | .error _ => (Error "Неверный ID задачи" 400, s)
  | .ok id =>
    match lib.json_DecodeTaskUpdate r.Body with
    | .error _ => (Error "Неверный формат запроса" 400, s)
    | .ok taskData =>
      match service.UpdateTask h.taskRepo id taskData.Title taskData.Description
          taskData.DueDate s with
      | (none, s1) => (.panic, s1)
      | (some (_, some err), s1) => (Error err.Error 500, s1)
      | (some (none, none), s1) => (.reply 200 (.text "null\n"), s1)
      | (some (some updatedTask, none), s1) => (.reply 200 (.jsonTask updatedTask), s1)

/-- The method `TaskHandler.DeleteTask`. -/
def DeleteTask {σ : Type} (lib : Libs) (h : TaskHandler σ) : Handler σ := fun r s =>
  match lib.uuid_Parse (routeID r) with
  | .error _ => (Error "Неверный ID задачи" 400, s)
  | .ok id =>
    match service.DeleteTask h.taskRepo id s with
    | (some err, s1) => (Error err.Error 500, s1)
    | (none, s1) => (.reply 204 .empty, s1)

/-- The method `LabelHandler.CreateLabel`; `newID` is the value of
`uuid.New()` in the service. -/
def CreateLabel {σ : Type} (lib : Libs) (h : LabelHandler σ) (newID : uuid.UUID) : Handler σ :=
  fun r s =>
  match lib.json_DecodeLabel r.Body with
  | .error _ => (Error "Неверный формат запроса" 400, s)
  | .ok labelData =>
    match service.CreateLabel h.labelRepo newID labelData.Name labelData.Color
        labelData.UserID s with
    | ((_, some err), s1) => (Error err.Error 400, s1)
    | ((none, none), s1) => (.reply 201 (.text "null\n"), s1)
    | ((some createdLabel, none), s1) => (.reply 201 (.jsonLabel createdLabel), s1)

end handlers

/-! ## Package `repository/postgres` -/

namespace postgres

/-- The error `sql.ErrNoRows`. -/
def ErrNoRows : GoError := .errorf "sql: no rows in result set"

/-- The tables the repositories read and write, rows in insertion order. The schema is not part of the sources: no constraint is
modelled, and neither are connection failures. -/
structure DB where
  users : List domain.User := []
  refresh_tokens : List domain.RefreshToken := []
  tasks : List domain.Task := []
  labels : List domain.Label := []
  deriving DecidableEq, Repr

/-- The struct `postgres.UserRepository` on a connection that does not fail:
each method runs its SQL statement on the `users` table, so a lookup either
finds a row or returns `sql.ErrNoRows`. The branches taken when the driver
returns another error are in `UserRepositoryOn`. -/
def UserRepository : repository.UserRepository DB where
  Create user db := (none, { db with users := db.users ++ [user] })
  GetByID id db :=
    match db.users.find? (fun u => decide (u.ID = id)) with
    | some user => ((some user, none), db)
    | none => ((none, some (.wrapf "пользователь не найден" ErrNoRows)), db)
  GetByEmail email db :=
    match db.users.find? (fun u => decide (u.Email = email)) with
    | some user => ((some user, none), db)
    | none => ((none, some (.wrapf "пользователь не найден" ErrNoRows)), db)
  Update user db :=
    (none, { db with users := db.users.map fun u => if u.ID = user.ID then user else u })
  Delete id db := (none, { db with users := db.users.filter fun u => decide (u.ID ≠ id) })

/-- The struct `postgres.RefreshTokenRepository`: each method runs its SQL
statement on the `refresh_tokens` table. -/
def RefreshTokenRepository : repository.RefreshTokenRepository DB where
  Create refreshToken db :=
    (none, { db with refresh_tokens := db.refresh_tokens ++ [refreshToken] })
  GetByToken token db :=
    match db.refresh_tokens.find? (fun t => decide (t.Token = token)) with
    | some refreshToken => ((some refreshToken, none), db)
    | none => ((none, some (.wrapf "refresh токен не найден" ErrNoRows)), db)
  Delete id db :=
    (none, { db with refresh_tokens := db.refresh_tokens.filter fun t => decide (t.ID ≠ id) })
  DeleteAllByUserID userID db :=
    (none, { db with
      refresh_tokens := db.refresh_tokens.filter fun t => decide (t.UserID ≠ userID) })

/-- The struct `postgres.TaskRepository`: each method runs its SQL statement on
the `tasks` table. The table has no column for the label ids. -/
def TaskRepository : repository.TaskRepository DB where
  Create task db := (none, { db with tasks := db.tasks ++ [{ task with LabelIDs := [] }] })
  GetByID id db :=
    match db.tasks.find? (fun t => decide (t.ID = id)) with
    | some task => ((some task, none), db)
    | none => ((none, some (.wrapf "задача не найдена" ErrNoRows)), db)
  GetAllByUserID userID db := ((db.tasks.filter fun t => decide (t.UserID = userID), none), db)
  Update task db :=
    (none, { db with tasks := db.tasks.map fun t =>
      if t.ID = task.ID then
        { t with Title := task.Title, Description := task.Description, DueDate := task.DueDate }
      else t })
  Delete id db := (none, { db with tasks := db.tasks.filter fun t => decide (t.ID ≠ id) })

/-- The struct `postgres.LabelRepository`: each method runs its SQL statement
on the `labels` table. -/
def LabelRepository : repository.LabelRepository DB where
  Create label db := (none, { db with labels := db.labels ++ [label] })
  GetByID id db :=
    match db.labels.find? (fun l => decide (l.ID = id)) with
    | some label => ((some label, none), db)
    | none => ((none, some (.wrapf "метка не найдена" ErrNoRows)), db)
  GetAllByUserID userID db := ((db.labels.filter fun l => decide (l.UserID = userID), none), db)
  Update label db :=
    (none, { db with labels := db.labels.map fun l =>
      if l.ID = label.ID then { l with Name := label.Name, Color := label.Color } else l })
  Delete id db := (none, { db with labels := db.labels.filter fun l => decide (l.ID ≠ id) })

end postgres

/-! ## Contracts of the external libraries -/

/-- Contract of google/uuid: parsing the canonical string form of a UUID gives
the UUID back. -/
def Libs.UUIDRoundTrip (lib : Libs) : Prop :=
  ∀ u : uuid.UUID, lib.uuid_Parse (lib.uuid_String u) = .ok u

/-- Contract of bcrypt: a hash produced for a password compares equal to that
password. -/
def Libs.BcryptRoundTrip (lib : Libs) : Prop :=
  ∀ salt password hash : String,
    lib.bcrypt_GenerateFromPassword salt password = .ok hash →
      lib.bcrypt_CompareHashAndPassword hash password = none

/-- Contract of golang-jwt for a token signed with HS256 over the claims
`user_id` and `exp`: its segments decode to an HS256 token carrying the same
`user_id`, its signature verifies under the signing key, and its claims are
valid at every instant before `exp`. -/
def Libs.JWTRoundTrip (lib : Libs) : Prop :=
  ∀ (uid : String) (exp : Int) (key tok : String),
    lib.jwt_SignedString [("user_id", .string uid), ("exp", .number exp)] key = .ok tok →
      ∃ token : jwt.Token, lib.jwt_ParseUnverified tok = .ok token ∧
        token.Method = jwt.SigningMethod.HS256 ∧
        token.Claims.get "user_id" = some (.string uid) ∧
        lib.jwt_Verify token key = none ∧
        ∀ now : time.Time, now < exp * time.Second → lib.jwt_Validate token.Claims now = none

/-- Contract of golang-jwt: a signed token is three base64url segments joined
by dots, so it contains no space. -/
def Libs.JWTCompact (lib : Libs) : Prop :=
  ∀ (claims : jwt.MapClaims) (key tok : String),
    lib.jwt_SignedString claims key = .ok tok → ' ' ∉ tok.data

/-- Contract of golang-jwt for a token signed with HS256 over the claims
`user_id` and a non-zero `exp`: claim validation rejects it at every instant
after `exp`. -/
def Libs.JWTExpiry (lib : Libs) : Prop :=
  ∀ (uid : String) (exp : Int) (key tok : String) (token : jwt.Token),
    lib.jwt_SignedString [("user_id", .string uid), ("exp", .number exp)] key = .ok tok →
      lib.jwt_ParseUnverified tok = .ok token → exp ≠ 0 →
        ∀ now : time.Time, exp * time.Second < now → lib.jwt_Validate token.Claims now ≠ none

/-- Contract of HMAC (RFC 2104), which HS256 signs with: a key shorter than
the 64-byte block of SHA-256 is padded with zero bytes up to the block, so a
zero byte appended to such a key changes no signed token. -/
def Libs.HMACZeroPad (lib : Libs) : Prop :=
  ∀ (claims : jwt.MapClaims) (key : String), key.utf8ByteSize < 64 →
    lib.jwt_SignedString claims (key ++ "\x00") = lib.jwt_SignedString claims key

/-- Contract of bcrypt: a hash is not empty and is not the password itself. -/
def Libs.BcryptHashForm (lib : Libs) : Prop :=
  ∀ salt password hash : String,
    lib.bcrypt_GenerateFromPassword salt password = .ok hash → hash ≠ "" ∧ hash ≠ password

/-- Contract of bcrypt: the key schedule reads the first 72 bytes of a
password, so whatever follows a password of 72 bytes changes no comparison. -/
def Libs.BcryptReads72 (lib : Libs) : Prop :=
  ∀ hash password suffix : String, password.utf8ByteSize = 72 →
    lib.bcrypt_CompareHashAndPassword hash (password ++ suffix)
      = lib.bcrypt_CompareHashAndPassword hash password

/-- Contract of `time.ParseDuration`: the empty string is not a duration. -/
def Libs.ParseDurationEmpty (lib : Libs) : Prop :=
  ∃ err : GoError, lib.time_ParseDuration "" = .error err

/-! ## Sequences of user operations on the PostgreSQL store -/

namespace postgres

/-- One call of the user service. -/
inductive UserOp where
  | CreateUser (newID : uuid.UUID) (salt username email password : String)
  | UpdateUser (id : uuid.UUID) (username email : String)
  | DeleteUser (id : uuid.UUID)
  deriving DecidableEq, Repr

/-- Whether the call is an `UpdateUser`. -/
def UserOp.isUpdate : UserOp → Bool
  | .UpdateUser _ _ _ => true
  | _ => false

/-- The struct `postgres.UserRepository` over a connection whose statements
may fail: `fault db call` is the error the driver returns for the statement of
`call` on the store `db`, if it fails; a failed statement changes no table.
Each method wraps the driver's error as the source does, `sql.ErrNoRows` from
a lookup under the not-found message. Where the driver returns no error the
statement runs as in `UserRepository`. -/
def UserRepositoryOn (fault : DB → repository.UserCall → Option GoError) :
    repository.UserRepository DB where
  Create user db :=
    match fault db (.Create user) with
    | some err => (some (.wrapf "ошибка в создании пользователя" err), db)
    | none => UserRepository.Create user db
  GetByID id db :=
    match fault db (.GetByID id) with
    | some err =>
      if err = ErrNoRows then ((none, some (.wrapf "пользователь не найден" err)), db)
      else ((none, some (.wrapf "ошибка в получении пользователя по ID" err)), db)
    | none => UserRepository.GetByID id db
  GetByEmail email db :=
    match fault db (.GetByEmail email) with
    | some err =>
      if err = ErrNoRows then ((none, some (.wrapf "пользователь не найден" err)), db)
      else ((none, some (.wrapf "ошибка в получении пользователя по email" err)), db)
    | none => UserRepository.GetByEmail email db
  Update user db :=
    match fault db (.Update user) with
    | some err => (some (.wrapf "ошибка при обновлении пользователя" err), db)
    | none => UserRepository.Update user db
  Delete id db :=
    match fault db (.Delete id) with
    | some err => (some (.wrapf "ошибка при удалении пользователя" err), db)
    | none => UserRepository.Delete id db

/-- The store after one call of the user service over the PostgreSQL
repository, on a connection with the failures `fault`. -/
def UserOp.run (lib : Libs) (fault : DB → repository.UserCall → Option GoError) (db : DB) :
    UserOp → DB
  | .CreateUser newID salt username email password =>
    (service.CreateUser lib (UserRepositoryOn fault) newID salt username email password db).2
  | .UpdateUser id username email =>
    (service.UpdateUser (UserRepositoryOn fault) id username email db).2
  | .DeleteUser id => (service.DeleteUser (UserRepositoryOn fault) id db).2

/-- The store after a sequence of calls, run one after the other. -/
def runUserOps (lib : Libs) (fault : DB → repository.UserCall → Option GoError)
    (ops : List UserOp) (db : DB) : DB :=
  ops.foldl (UserOp.run lib fault) db

end postgres

/-! ## The wording of the specification -/

namespace spec

/-- An ASCII letter or digit, `[a-zA-Z0-9]`. -/
def alphanumeric (c : Char) : Prop :=
  ('a' ≤ c ∧ c ≤ 'z') ∨ ('A' ≤ c ∧ c ≤ 'Z') ∨ ('0' ≤ c ∧ c ≤ '9')

/-- A rune of the local part of an email, `[a-zA-Z0-9._%+-]`. -/
def localRune (c : Char) : Prop :=
  alphanumeric c ∨ c = '.' ∨ c = '_' ∨ c = '%' ∨ c = '+' ∨ c = '-'

/-- A rune of the domain of an email, `[a-zA-Z0-9.-]`. -/
def domainRune (c : Char) : Prop :=
  alphanumeric c ∨ c = '.' ∨ c = '-'

/-- An ASCII letter, `[a-zA-Z]`. -/
def asciiLetter (c : Char) : Prop :=
  ('a' ≤ c ∧ c ≤ 'z') ∨ ('A' ≤ c ∧ c ≤ 'Z')

/-- The shape of an email in the words of the specification: a local part, an
at sign, a domain, a dot and a top-level part of at least two letters. -/
def emailShape (email : String) : Prop :=
  ∃ l d t : String, email = l ++ "@" ++ d ++ "." ++ t ∧
    l ≠ "" ∧ (∀ c ∈ l.data, localRune c) ∧
    d ≠ "" ∧ (∀ c ∈ d.data, domainRune c) ∧
    2 ≤ t.data.length ∧ (∀ c ∈ t.data, asciiLetter c)

/-- A hexadecimal digit, `[0-9a-fA-F]`. -/
def hexDigit (c : Char) : Prop :=
  ('0' ≤ c ∧ c ≤ '9') ∨ ('a' ≤ c ∧ c ≤ 'f') ∨ ('A' ≤ c ∧ c ≤ 'F')

/-- The shape of a label color in the words of the specification: a number
sign followed by exactly three or exactly six hexadecimal digits. -/
def hexColorShape (color : String) : Prop :=
  ∃ digits : String, color = "#" ++ digits ∧
    (digits.data.length = 3 ∨ digits.data.length = 6) ∧ ∀ c ∈ digits.data, hexDigit c

/-- The header cut at its first space, as the specification words step 2 of the
gate: the scheme before the first space and the whole remainder after it;
`none` when the header has no space. -/
def cutAtFirstSpace (h : String) : Option (String × String) :=
  if ' ' ∈ h.data then
    some (String.mk (h.data.takeWhile fun c => c != ' '),
      String.mk ((h.data.dropWhile fun c => c != ' ').drop 1))
  else none

end spec

/-! ## A small instance of the libraries and of the environment

Used to evaluate the handlers on concrete requests. Tokens are not encrypted:
a token spells out its expiry, its key and its subject. -/

namespace sample

/-- The string form of a UUID: as many letters `u` as its value. -/
def uuidString (u : uuid.UUID) : String := String.mk (List.replicate u 'u')

/-- Parsing of the string form. -/
def uuidParse (s : String) : Except GoError uuid.UUID :=
  if s.data.all (fun c => c == 'u') then .ok s.data.length
  else .error (.errorf "invalid UUID format")

/-- A token for an expiry, a key and a subject: the expiry in unary (`+` or
`-`), a dot, the length of the key in unary, a dot, the key, the subject. -/
def encodeToken (exp : Int) (key uid : String) : String :=
  String.mk (List.replicate exp.toNat '+' ++ (List.replicate (-exp).toNat '-' ++
    '.' :: (List.replicate key.data.length 'k' ++ '.' :: (key.data ++ uid.data))))

/-- The expiry read off a token. -/
def tokenExp (tok : String) : Int :=
  ((tok.data.takeWhile fun c => c == '+').length : Int) -
    (((tok.data.dropWhile fun c => c == '+').takeWhile fun c => c == '-').length : Int)

/-- The part of a token after the expiry and its dot. -/
def tokenRest (tok : String) : List Char :=
  (((tok.data.dropWhile fun c => c == '+').dropWhile fun c => c == '-').drop 1)

/-- The key and the subject of a token, as one list. -/
def tokenTail (tok : String) : List Char :=
  ((tokenRest tok).dropWhile fun c => c == 'k').drop 1

/-- The key read off a token. -/
def tokenKey (tok : String) : String :=
  String.mk ((tokenTail tok).take ((tokenRest tok).takeWhile fun c => c == 'k').length)

/-- The subject read off a token. -/
def tokenUid (tok : String) : String :=
  String.mk ((tokenTail tok).drop ((tokenRest tok).takeWhile fun c => c == 'k').length)

/-- The claim `user_id` when it is a string, else the empty string. -/
def claimUid (claims : jwt.MapClaims) : String :=
  match claims.get "user_id" with
  | some (.string s) => s
  | _ => ""

/-- The claim `exp` when it is a number, else zero. -/
def claimExp (claims : jwt.MapClaims) : Int :=
  match claims.get "exp" with
  | some (.number n) => n
  | _ => 0

/-- The sample libraries. Request bodies list their fields one per line. -/
def libs : Libs where
  bcrypt_GenerateFromPassword _ password := .ok ("$" ++ password)
  bcrypt_CompareHashAndPassword hash password :=
    if hash = "$" ++ password then none
    else some (.errorf "crypto/bcrypt: hashedPassword is not the hash of the given password")
  jwt_SignedString claims key :=
    if ' ' ∈ (claimUid claims).data ∨ ' ' ∈ key.data then .error (.errorf "space in token")
    else .ok (encodeToken (claimExp claims) key (claimUid claims))
  jwt_ParseUnverified tok :=
    if tok = "" then .error (.errorf "token is malformed")
    else .ok { Raw := tok, Method := .HS256,
               Claims := [("user_id", .string (tokenUid tok)), ("exp", .number (tokenExp tok))],
               Valid := false }
  jwt_Verify token key :=
    if tokenKey token.Raw = key then none else some (.errorf "signature is invalid")
  jwt_Validate claims now :=
    match claims.get "exp" with
    | some (.number n) => if now < n * time.Second then none else some (.errorf "token is expired")
    | _ => none
  uuid_String := uuidString
  uuid_Parse := uuidParse
  time_ParseDuration s :=
    if s = "168h" then .ok (168 * time.Hour) else .error (.errorf "time: invalid duration")
  json_DecodeUser body :=
    match strings.Split body '\n' with
    | [username, email, password] => .ok ⟨uuid.Nil, username, email, password⟩
    | _ => .error (.errorf "invalid character")
  json_DecodeLogin body :=
    match strings.Split body '\n' with
    | [email, password] => .ok ⟨email, password⟩
    | _ => .error (.errorf "invalid character")
  json_DecodeRefresh body := .ok body
  json_DecodeTask body :=
    match strings.Split body '\n' with
    | [title, description, userID] =>
      .ok ⟨title, description, 0, userID.data.length⟩
    | _ => .error (.errorf "invalid character")
  json_DecodeTaskUpdate body :=
    match strings.Split body '\n' with
    | [title, description] => .ok ⟨title, description, 0⟩
    | _ => .error (.errorf "invalid character")
  json_DecodeLabel body :=
    match strings.Split body '\n' with
    | [name, color, userID] => .ok ⟨name, color, userID.data.length⟩
    | _ => .error (.errorf "invalid character")

/-- An environment whose `.env` file loads and sets the refresh-token lifetime
to seven days. -/
def env : OSEnv where
  godotenv_Load := none
  Getenv name := if name = "REFRESH_TOKEN_EXPIRE_TIME" then "168h" else ""

/-- An environment whose `.env` file loads but does not set the refresh-token
lifetime. -/
def envNoTTL : OSEnv where
  godotenv_Load := none
  Getenv _ := ""

/-- The configuration `LoadConfig` returns when nothing is set. -/
def cfg : config.Config := { AppPort := "8080", DatabaseURL := "", JWTSecret := "secret" }

/-- The user handler of `app.Run` over the PostgreSQL repositories. -/
def handler : handlers.UserHandler postgres.DB where
  userRepo := postgres.UserRepository
  refreshTokenRepo := postgres.RefreshTokenRepository
  config := cfg

/-- The gate of `app.Run`. -/
def gate : handlers.AuthMiddleware postgres.DB where
  userRepo := postgres.UserRepository
  config := cfg

/-- The sample libraries with a token decoder that reads the header of every
token as `alg: none`. -/
def libsNone : Libs :=
  { libs with
    jwt_ParseUnverified := fun tok =>
      .ok { Raw := tok, Method := .none,
            Claims := [("user_id", .string (tokenUid tok)), ("exp", .number (tokenExp tok))],
            Valid := false } }

/-- The sample libraries with a password hash that, like bcrypt, refuses
passwords longer than 72 bytes. -/
def libsLimit : Libs :=
  { libs with
    bcrypt_GenerateFromPassword := fun _ password =>
      if 72 < password.utf8ByteSize then
        .error (.errorf "bcrypt: password length exceeds 72 bytes")
      else .ok ("$" ++ password) }

/-- A key without its trailing zero bytes. -/
def stripZeros (key : String) : String :=
  String.mk (key.data.reverse.dropWhile fun c => c == Char.ofNat 0).reverse

/-- The sample libraries with a signature that, like HMAC, pads a key with zero
bytes: keys that differ by trailing zero bytes sign and verify alike. -/
def libsPad : Libs :=
  { libs with
    jwt_SignedString := fun claims key => libs.jwt_SignedString claims (stripZeros key)
    jwt_Verify := fun token key => libs.jwt_Verify token (stripZeros key) }

/-- The longest prefix of a text that fits in `n` bytes of UTF-8. -/
def takeBytes : Nat → List Char → List Char
  | _, [] => []
  | n, c :: cs => if c.utf8Size ≤ n then c :: takeBytes (n - c.utf8Size) cs else []

/-- The sample libraries with a password hash that, like bcrypt, refuses to
hash more than 72 bytes and reads no more than 72 bytes of the password it
compares (here the characters that fit in 72 bytes). -/
def libsTrunc : Libs :=
  { libsLimit with
    bcrypt_CompareHashAndPassword := fun hash password =>
      if hash = "$" ++ String.mk (takeBytes 72 password.data) then none
      else some (.errorf "crypto/bcrypt: hashedPassword is not the hash of the given password") }

/-- The task handler of `app.Run` over the PostgreSQL repository. -/
def taskHandler : handlers.TaskHandler postgres.DB where
  taskRepo := postgres.TaskRepository

/-- The label handler of `app.Run` over the PostgreSQL repository. -/
def labelHandler : handlers.LabelHandler postgres.DB where
  labelRepo := postgres.LabelRepository

/-- A storage failure, as a lost connection gives. -/
def storageError : GoError := .errorf "dial tcp: connection refused"

/-- A user repository whose database is unreachable: every call fails. -/
def downUserRepo : repository.UserRepository postgres.DB where
  Create _ db := (some (.wrapf "ошибка в создании пользователя" storageError), db)
  GetByID _ db := ((none, some (.wrapf "ошибка в получении пользователя по ID" storageError)), db)
  GetByEmail _ db :=
    ((none, some (.wrapf "ошибка в получении пользователя по email" storageError)), db)
  Update _ db := (some (.wrapf "ошибка при обновлении пользователя" storageError), db)
  Delete _ db := (some (.wrapf "ошибка при удалении пользователя" storageError), db)

/-- A refresh-token repository whose database is unreachable. -/
def downRefreshTokenRepo : repository.RefreshTokenRepository postgres.DB where
  Create _ db := (some (.wrapf "ошибка при создании refresh токена" storageError), db)
  GetByToken _ db :=
    ((none, some (.wrapf "ошибка при получении refresh токена по токену" storageError)), db)
  Delete _ db := (some (.wrapf "ошибка при удалении refresh токена" storageError), db)
  DeleteAllByUserID _ db :=
    (some (.wrapf "ошибка при удалении всех refresh токенов пользователя" storageError), db)

/-- A task repository whose database is unreachable. -/
def downTaskRepo : repository.TaskRepository postgres.DB where
  Create _ db := (some (.wrapf "ошибка при создании задачи" storageError), db)
  GetByID _ db := ((none, some (.wrapf "ошибка при получении задачи по ID" storageError)), db)
  GetAllByUserID _ db :=
    (([], some (.wrapf "ошибка при получении задач пользователя" storageError)), db)
  Update _ db := (some (.wrapf "ошибка при обновлении задачи" storageError), db)
  Delete _ db := (some (.wrapf "ошибка при удалении задачи" storageError), db)

/-- A label repository whose database is unreachable. -/
def downLabelRepo : repository.LabelRepository postgres.DB where
  Create _ db := (some (.wrapf "ошибка при создании метки" storageError), db)
  GetByID _ db := ((none, some (.wrapf "ошибка при получении метки по ID" storageError)), db)
  GetAllByUserID _ db :=
    (([], some (.wrapf "ошибка при получении меток пользователя" storageError)), db)
  Update _ db := (some (.wrapf "ошибка при обновлении метки" storageError), db)
  Delete _ db := (some (.wrapf "ошибка при удалении метки" storageError), db)

/-- The user handler of `app.Run` while the database is unreachable. -/
def downHandler : handlers.UserHandler postgres.DB where
  userRepo := downUserRepo
  refreshTokenRepo := downRefreshTokenRepo
  config := cfg

/-- A next handler that answers 200 with the user id it finds in the context. -/
def whoami : http.Handler postgres.DB := fun r s =>
  (.reply 200 (.text (uuidString (handlers.GetUserIDFromRequest r).1)), s)

end sample

/-! ## Auxiliary lemmas -/

theorem emailRegex_empty : service.emailRegex.MatchString "" = false := by decide

theorem email_ne_empty {email : String} (he : service.emailRegex.MatchString email = true) :
    email ≠ "" := by
  intro h
  rw [h, emailRegex_empty] at he
  exact Bool.noConfusion he

theorem splitAux_no_sep (sep : Char) (l cur : List Char) (h : sep ∉ l) :
    strings.splitAux sep l cur = [cur.reverse ++ l] := by
  induction l generalizing cur with
  | nil => simp [strings.splitAux]
  | cons c cs ih =>
    have hc : c ≠ sep := fun e => h (by simp [e])
    have hcs : sep ∉ cs := fun e => h (by simp [e])
    simp [strings.splitAux, hc, ih _ hcs]

theorem Split_bearer (tok : String) (h : ' ' ∉ tok.data) :
    strings.Split ("Bearer " ++ tok) ' ' = ["Bearer", tok] := by
  have hd : ("Bearer " ++ tok).data
      = 'B' :: 'e' :: 'a' :: 'r' :: 'e' :: 'r' :: ' ' :: tok.data := by
    simp [String.data_append]
  simp [strings.Split, hd, strings.splitAux, splitAux_no_sep _ _ _ h]

theorem ToLower_Bearer : strings.ToLower "Bearer" = "bearer" := by decide

theorem find_append_singleton {α : Type} (p : α → Bool) (l : List α) (a : α)
    (hl : ∀ x ∈ l, p x = false) (ha : p a = true) : (l ++ [a]).find? p = some a := by
  induction l with
  | nil => simp [ha]
  | cons x xs ih =>
    have hx : p x = false := hl x (by simp)
    have ih' := ih (fun y hy => hl y (by simp [hy]))
    rw [List.cons_append, List.find?_cons, hx]
    exact ih'

theorem find_none_of_forall {α : Type} (p : α → Bool) (l : List α)
    (hl : ∀ x ∈ l, p x = false) : l.find? p = none := by
  simp [List.find?_eq_none]
  intro x hx
  simp [hl x hx]

/-! ## Registration with a duplicate email -/

/-- C1. For a non-empty username and password and a format-valid email, when
the repository's `GetByEmail` returns an existing user and no error,
`CreateUser` returns a nil user and the error "пользователь с таким email уже
существует"; the only call the repository receives is that `GetByEmail`, so
`Create` is not called and the store is the one `GetByEmail` left. -/
theorem C1_CreateUser_existing_email {σ : Type} (lib : Libs)
    (repo : repository.UserRepository σ) (newID : uuid.UUID) (salt : String)
    (username email password : String) (s : σ) (log : List repository.Call)
    (existing : domain.User)
    (hu : username ≠ "") (hp : password ≠ "")
    (he : service.emailRegex.MatchString email = true)
    (hget : (repo.GetByEmail email s).1 = (some existing, none)) :
    service.CreateUser lib repo.recording newID salt username email password (s, log)
      = ((none, some (.errorf "пользователь с таким email уже существует")),
          ((repo.GetByEmail email s).2, log ++ [.user (.GetByEmail email)])) := by
  have hne := email_ne_empty he
  simp [service.CreateUser, hu, hp, hne, he, repository.UserRepository.recording, hget]

/-- Witness of C1: the case of `TestCreateUser_ExistingEmail`, run on the
PostgreSQL repository holding one user with that email. -/
theorem C1_CreateUser_existing_email_witness :
    service.CreateUser sample.libs postgres.UserRepository.recording 2 "salt" "testuser"
        "test@example.com" "password"
        ({ users := [⟨1, "existingUser", "test@example.com", "$x"⟩] }, [])
      = ((none, some (.errorf "пользователь с таким email уже существует")),
          ({ users := [⟨1, "existingUser", "test@example.com", "$x"⟩] },
            [.user (.GetByEmail "test@example.com")])) :=
  C1_CreateUser_existing_email sample.libs postgres.UserRepository 2 "salt" "testuser"
    "test@example.com" "password" { users := [⟨1, "existingUser", "test@example.com", "$x"⟩] } []
    ⟨1, "existingUser", "test@example.com", "$x"⟩ (by decide) (by decide) (by decide) (by decide)

/-! ## Login failures -/

/-- C2. For every email and password, `LoginUser` answers a request with the
same response, status 401 and body "Неверный email или пароль", when the email
lookup fails (store `s`) and when it finds a user whose stored hash does not
match the password (store `s'`); in both runs the only repository call is the
lookup, so no refresh token is created, and the body carries no token. -/
theorem C2_LoginUser_same_failure {σ : Type} (lib : Libs) (env : OSEnv)
    (h : handlers.UserHandler σ) (now : time.Time) (refreshID refreshToken : uuid.UUID)
    (refreshNow : time.Time) (r : http.Request) (email password : String)
    (s s' : σ) (log log' : List repository.Call) (user : domain.User)
    (hbody : lib.json_DecodeLogin r.Body = .ok ⟨email, password⟩)
    (hfail : (h.userRepo.GetByEmail email s).1.2 ≠ none)
    (hfound : (h.userRepo.GetByEmail email s').1 = (some user, none))
    (hwrong : user.ComparePassword lib password ≠ none) :
    handlers.LoginUser lib env h.recording now refreshID refreshToken refreshNow r (s, log)
        = (http.Error "Неверный email или пароль" 401,
            ((h.userRepo.GetByEmail email s).2, log ++ [.user (.GetByEmail email)])) ∧
      handlers.LoginUser lib env h.recording now refreshID refreshToken refreshNow r (s', log')
        = (http.Error "Неверный email или пароль" 401,
            ((h.userRepo.GetByEmail email s').2, log' ++ [.user (.GetByEmail email)])) := by
  constructor
  · rcases hq : h.userRepo.GetByEmail email s with ⟨⟨u, e⟩, s1⟩
    rw [hq] at hfail
    cases e with
    | none => exact absurd rfl hfail
    | some e =>
      simp [handlers.LoginUser, hbody, service.GetUserByEmail, handlers.UserHandler.recording,
        repository.UserRepository.recording, hq]
  · rcases hq : h.userRepo.GetByEmail email s' with ⟨⟨u, e⟩, s1⟩
    rw [hq] at hfound
    cases hfound
    cases hc : user.ComparePassword lib password with
    | none => exact absurd hc hwrong
    | some e =>
      simp [handlers.LoginUser, hbody, service.GetUserByEmail, handlers.UserHandler.recording,
        repository.UserRepository.recording, hq, hc]

/-- Witness of C2: the same login request against an empty user table and
against a table where the email is registered with another password. -/
theorem C2_LoginUser_same_failure_witness :
    handlers.LoginUser sample.libs sample.env sample.handler.recording 0 2 3 0
        { Body := "alice@example.com\npw123" } ({}, [])
        = (http.Error "Неверный email или пароль" 401,
            ({}, [.user (.GetByEmail "alice@example.com")])) ∧
      handlers.LoginUser sample.libs sample.env sample.handler.recording 0 2 3 0
        { Body := "alice@example.com\npw123" }
        ({ users := [⟨1, "alice", "alice@example.com", "$other"⟩] }, [])
        = (http.Error "Неверный email или пароль" 401,
            ({ users := [⟨1, "alice", "alice@example.com", "$other"⟩] },
              [.user (.GetByEmail "alice@example.com")])) :=
  C2_LoginUser_same_failure sample.libs sample.env sample.handler 0 2 3 0
    { Body := "alice@example.com\npw123" } "alice@example.com" "pw123"
    {} { users := [⟨1, "alice", "alice@example.com", "$other"⟩] } [] []
    ⟨1, "alice", "alice@example.com", "$other"⟩ (by rfl) (by decide) (by decide) (by decide)

/-! ## Registration, then login, then the gate -/

theorem postgres_CreateUser_ok (lib : Libs) (db : postgres.DB) (newID : uuid.UUID)
    (salt username email password hash : String)
    (hu : username ≠ "") (hp : password ≠ "")
    (he : service.emailRegex.MatchString email = true)
    (hfree : ∀ u ∈ db.users, u.Email ≠ email)
    (hhash : lib.bcrypt_GenerateFromPassword salt password = .ok hash) :
    service.CreateUser lib postgres.UserRepository newID salt username email password db
      = ((some ⟨newID, username, email, hash⟩, none),
          { db with users := db.users ++ [⟨newID, username, email, hash⟩] }) := by
  have hne := email_ne_empty he
  have hfind : db.users.find? (fun u => decide (u.Email = email)) = none :=
    find_none_of_forall _ _ (fun u hu' => by simp [hfree u hu'])
  simp [service.CreateUser, hu, hp, hne, he, postgres.UserRepository, hfind,
    domain.User.HashPassword, hhash]

theorem Authenticate_bearer {σ : Type} (lib : Libs) (m : handlers.AuthMiddleware σ)
    (now : time.Time) (next : http.Handler σ) (r : http.Request) (s : σ) (tok : String)
    (hh : r.Authorization = "Bearer " ++ tok) (hsp : ' ' ∉ tok.data) :
    handlers.Authenticate lib m now next r s = handlers.authenticateToken lib m now next tok r s := by
  have hne : ("Bearer " ++ tok) ≠ "" := by
    intro h
    have := congrArg String.data h
    simp [String.data_append] at this
  simp [handlers.Authenticate, hh, hne, Split_bearer tok hsp, ToLower_Bearer]

theorem authenticateToken_signed {σ : Type} (lib : Libs) (hjwt : lib.JWTRoundTrip)
    (huuid : lib.UUIDRoundTrip) (m : handlers.AuthMiddleware σ) (now : time.Time)
    (next : http.Handler σ) (r : http.Request) (s : σ) (userID : uuid.UUID) (exp : Int)
    (tok : String)
    (hsign : lib.jwt_SignedString
      [("user_id", .string (lib.uuid_String userID)), ("exp", .number exp)] m.config.JWTSecret
        = .ok tok)
    (hnow : now < exp * time.Second) :
    handlers.authenticateToken lib m now next tok r s
      = next (r.WithContext (auth.ContextWithUser r.ctx userID)) s := by
  obtain ⟨token, hpu, hm, hc, hv, hval⟩ := hjwt _ _ _ _ hsign
  simp [handlers.authenticateToken, jwt.Parse, hpu, handlers.keyFunc, hm,
    jwt.SigningMethod.isHMAC, hv, hval now hnow, hc, huuid userID]

theorem UserIDFromContext_ContextWithUser (ctx : auth.Context) (userID : uuid.UUID) :
    auth.UserIDFromContext (auth.ContextWithUser ctx userID) = (userID, true) := by
  simp [auth.UserIDFromContext, auth.ContextWithUser, auth.Context.Value, List.lookup]

/-- C3, amended. Over the PostgreSQL store: for a non-empty username, a
format-valid email that no stored user has, and a non-empty password whose
hashing succeeds, `CreateUser` returns the new user and appends it to the
table. If moreover the refresh-token lifetime is configured (`godotenv.Load`
succeeds and `REFRESH_TOKEN_EXPIRE_TIME` parses as a duration) and the access
token is signed, `LoginUser` with the same email and password answers 200 with
that access token and a refresh token; and at every instant before the token's
`exp` the `Authenticate` gate of any middleware holding the same secret passes
a request bearing the token on to the next handler, with a context from which
`GetUserIDFromRequest` reads the ID of the user `CreateUser` returned. -/
theorem C3_register_login_authenticate (lib : Libs) (env : OSEnv) (cfg : config.Config)
    (hbcrypt : lib.BcryptRoundTrip) (hjwt : lib.JWTRoundTrip) (hcompact : lib.JWTCompact)
    (huuid : lib.UUIDRoundTrip)
    (db : postgres.DB) (newID : uuid.UUID) (salt username email password hash : String)
    (now : time.Time) (refreshID refreshToken : uuid.UUID) (refreshNow gateNow : time.Time)
    (r : http.Request) (tok : String) (ttl : time.Duration)
    (hu : username ≠ "") (hp : password ≠ "")
    (he : service.emailRegex.MatchString email = true)
    (hfree : ∀ u ∈ db.users, u.Email ≠ email)
    (hhash : lib.bcrypt_GenerateFromPassword salt password = .ok hash)
    (hbody : lib.json_DecodeLogin r.Body = .ok ⟨email, password⟩)
    (hsign : lib.jwt_SignedString (handlers.accessClaims lib newID now) cfg.JWTSecret = .ok tok)
    (hload : env.godotenv_Load = none)
    (httl : lib.time_ParseDuration (env.Getenv "REFRESH_TOKEN_EXPIRE_TIME") = .ok ttl)
    (hgate : gateNow < time.Time.Unix (time.Time.Add now (time.Hour * 24)) * time.Second) :
    service.CreateUser lib postgres.UserRepository newID salt username email password db
        = ((some ⟨newID, username, email, hash⟩, none),
            { db with users := db.users ++ [⟨newID, username, email, hash⟩] }) ∧
      handlers.LoginUser lib env ⟨postgres.UserRepository, postgres.RefreshTokenRepository, cfg⟩
          now refreshID refreshToken refreshNow r
          { db with users := db.users ++ [⟨newID, username, email, hash⟩] }
        = (.reply 200 (.json [("refresh_token", lib.uuid_String refreshToken), ("token", tok)]),
            { db with
              users := db.users ++ [⟨newID, username, email, hash⟩],
              refresh_tokens := db.refresh_tokens ++
                [⟨refreshID, newID, lib.uuid_String refreshToken, time.Time.Add refreshNow ttl⟩] }) ∧
      ∀ (τ : Type) (m : handlers.AuthMiddleware τ) (next : http.Handler τ) (rq : http.Request)
        (t : τ), m.config.JWTSecret = cfg.JWTSecret → rq.Authorization = "Bearer " ++ tok →
          handlers.Authenticate lib m gateNow next rq t
              = next (rq.WithContext (auth.ContextWithUser rq.ctx newID)) t ∧
            handlers.GetUserIDFromRequest (rq.WithContext (auth.ContextWithUser rq.ctx newID))
              = (newID, true) := by
  refine ⟨postgres_CreateUser_ok lib db newID salt username email password hash hu hp he hfree
    hhash, ?_, ?_⟩
  · have hfind : (db.users ++ [(⟨newID, username, email, hash⟩ : domain.User)]).find?
        (fun u => decide (u.Email = email)) = some ⟨newID, username, email, hash⟩ :=
      find_append_singleton _ _ _ (fun u hu' => by simp [hfree u hu']) (by simp)
    have hcmp := hbcrypt salt password hash hhash
    simp [handlers.LoginUser, hbody, service.GetUserByEmail, postgres.UserRepository, hfind,
      domain.User.ComparePassword, hcmp, hsign, service.CreateRefreshToken, hload, httl,
      postgres.RefreshTokenRepository]
  · intro τ m next rq t hsecret hheader
    have hsp := hcompact _ _ _ hsign
    rw [Authenticate_bearer lib m gateNow next rq t tok hheader hsp]
    refine ⟨?_, UserIDFromContext_ContextWithUser _ _⟩
    rw [← hsecret] at hsign
    exact authenticateToken_signed lib hjwt huuid m gateNow next rq t newID _ tok hsign hgate

/-! ## The sample libraries honour the contracts -/

theorem takeWhile_replicate_append (p : Char → Bool) (c : Char) (n : Nat) (l : List Char)
    (hc : p c = true) :
    (List.replicate n c ++ l).takeWhile p = List.replicate n c ++ l.takeWhile p := by
  induction n with
  | zero => simp
  | succ n ih => simp [List.replicate_succ, List.takeWhile_cons, hc, ih]

theorem dropWhile_replicate_append (p : Char → Bool) (c : Char) (n : Nat) (l : List Char)
    (hc : p c = true) :
    (List.replicate n c ++ l).dropWhile p = l.dropWhile p := by
  induction n with
  | zero => simp
  | succ n ih => simp [List.replicate_succ, List.dropWhile_cons, hc, ih]

theorem takeWhile_replicate_stop (p : Char → Bool) (c d : Char) (n : Nat) (l : List Char)
    (hc : p c = false) (hd : p d = false) :
    (List.replicate n c ++ d :: l).takeWhile p = [] := by
  cases n with
  | zero => simp [List.takeWhile_cons, hd]
  | succ n => simp [List.replicate_succ, List.takeWhile_cons, hc]

theorem dropWhile_replicate_stop (p : Char → Bool) (c d : Char) (n : Nat) (l : List Char)
    (hc : p c = false) (hd : p d = false) :
    (List.replicate n c ++ d :: l).dropWhile p = List.replicate n c ++ d :: l := by
  cases n with
  | zero => simp [List.dropWhile_cons, hd]
  | succ n => simp [List.replicate_succ, List.dropWhile_cons, hc]

theorem sample_tokenExp (exp : Int) (key uid : String) :
    sample.tokenExp (sample.encodeToken exp key uid) = exp := by
  simp only [sample.tokenExp, sample.encodeToken]
  rw [takeWhile_replicate_append _ _ _ _ (by decide),
    dropWhile_replicate_append _ _ _ _ (by decide),
    takeWhile_replicate_stop _ _ _ _ _ (by decide) (by decide),
    dropWhile_replicate_stop _ _ _ _ _ (by decide) (by decide),
    takeWhile_replicate_append _ _ _ _ (by decide)]
  simp [List.takeWhile_cons]

theorem sample_tokenRest (exp : Int) (key uid : String) :
    sample.tokenRest (sample.encodeToken exp key uid)
      = List.replicate key.data.length 'k' ++ '.' :: (key.data ++ uid.data) := by
  simp only [sample.tokenRest, sample.encodeToken]
  rw [dropWhile_replicate_append _ _ _ _ (by decide),
    dropWhile_replicate_stop _ _ _ _ _ (by decide) (by decide),
    dropWhile_replicate_append _ _ _ _ (by decide)]
  simp [List.dropWhile_cons]

theorem sample_tokenKey (exp : Int) (key uid : String) :
    sample.tokenKey (sample.encodeToken exp key uid) = key := by
  simp only [sample.tokenKey, sample.tokenTail, sample_tokenRest]
  rw [takeWhile_replicate_append _ _ _ _ (by decide),
    dropWhile_replicate_append _ _ _ _ (by decide)]
  simp [List.takeWhile_cons, List.dropWhile_cons]

theorem sample_tokenUid (exp : Int) (key uid : String) :
    sample.tokenUid (sample.encodeToken exp key uid) = uid := by
  simp only [sample.tokenUid, sample.tokenTail, sample_tokenRest]
  rw [takeWhile_replicate_append _ _ _ _ (by decide),
    dropWhile_replicate_append _ _ _ _ (by decide)]
  simp [List.takeWhile_cons, List.dropWhile_cons]

theorem sample_encodeToken_ne_empty (exp : Int) (key uid : String) :
    sample.encodeToken exp key uid ≠ "" := by
  intro h
  have := congrArg String.data h
  simp [sample.encodeToken] at this

theorem sample_UUIDRoundTrip : sample.libs.UUIDRoundTrip := by
  intro u
  simp [sample.libs, sample.uuidParse, sample.uuidString]

theorem sample_BcryptRoundTrip : sample.libs.BcryptRoundTrip := by
  intro salt password hash h
  simp [sample.libs] at h
  simp [sample.libs, h]

theorem sample_JWTRoundTrip : sample.libs.JWTRoundTrip := by
  intro uid exp key tok h
  have hu : sample.claimUid [("user_id", .string uid), ("exp", .number exp)] = uid := by
    simp [sample.claimUid, jwt.MapClaims.get, List.lookup]
  have hx : sample.claimExp [("user_id", .string uid), ("exp", .number exp)] = exp := by
    simp [sample.claimExp, jwt.MapClaims.get, List.lookup]
  simp only [sample.libs, hu, hx] at h
  split at h
  · exact Except.noConfusion h
  · cases h
    refine ⟨{ Raw := sample.encodeToken exp key uid, Method := .HS256,
              Claims := [("user_id", .string (sample.tokenUid (sample.encodeToken exp key uid))),
                ("exp", .number (sample.tokenExp (sample.encodeToken exp key uid)))],
              Valid := false },
      by simp [sample.libs, sample_encodeToken_ne_empty], rfl, ?_, ?_, ?_⟩
    · simp [jwt.MapClaims.get, List.lookup, sample_tokenUid]
    · simp [sample.libs, sample_tokenKey]
    · intro now hnow
      simp [sample.libs, jwt.MapClaims.get, List.lookup, sample_tokenExp, hnow]

theorem sample_JWTCompact : sample.libs.JWTCompact := by
  intro claims key tok h
  simp only [sample.libs] at h
  split at h
  · exact Except.noConfusion h
  · rename_i hno
    cases h
    simp only [not_or] at hno
    simp [sample.encodeToken, hno.1, hno.2]

/-- Witness of C3: alice registers in an empty store and logs in; one second
later the gate lets her token through as user 1. -/
theorem C3_register_login_authenticate_witness :
    service.CreateUser sample.libs postgres.UserRepository 1 "salt" "alice" "alice@example.com"
        "pw123" {}
        = ((some ⟨1, "alice", "alice@example.com", "$pw123"⟩, none),
            { users := [] ++ [⟨1, "alice", "alice@example.com", "$pw123"⟩] }) ∧
      handlers.LoginUser sample.libs sample.env
          ⟨postgres.UserRepository, postgres.RefreshTokenRepository, sample.cfg⟩ 0 2 3 0
          { Body := "alice@example.com\npw123" }
          { users := [] ++ [⟨1, "alice", "alice@example.com", "$pw123"⟩] }
        = (.reply 200 (.json [("refresh_token", sample.libs.uuid_String 3),
              ("token", sample.encodeToken 86400 "secret" "u")]),
            { users := [] ++ [⟨1, "alice", "alice@example.com", "$pw123"⟩],
              refresh_tokens := [] ++
                [⟨2, 1, sample.libs.uuid_String 3, time.Time.Add 0 (168 * time.Hour)⟩] }) ∧
      handlers.Authenticate sample.libs sample.gate 1000000000 sample.whoami
          { Authorization := "Bearer " ++ sample.encodeToken 86400 "secret" "u" } {}
        = sample.whoami
            (http.Request.WithContext
              { Authorization := "Bearer " ++ sample.encodeToken 86400 "secret" "u" }
              (auth.ContextWithUser [] 1)) {} ∧
      handlers.GetUserIDFromRequest
          (http.Request.WithContext
            { Authorization := "Bearer " ++ sample.encodeToken 86400 "secret" "u" }
            (auth.ContextWithUser [] 1))
        = (1, true) :=
  have w := C3_register_login_authenticate sample.libs sample.env sample.cfg
    sample_BcryptRoundTrip sample_JWTRoundTrip sample_JWTCompact sample_UUIDRoundTrip {} 1 "salt"
    "alice" "alice@example.com" "pw123" "$pw123" 0 2 3 0 1000000000
    { Body := "alice@example.com\npw123" } (sample.encodeToken 86400 "secret" "u")
    (168 * time.Hour) (by decide) (by decide) (by decide) (by simp) (by rfl) (by rfl) (by rfl)
    (by rfl) (by rfl) (by decide)
  ⟨w.1, w.2.1,
    w.2.2 postgres.DB sample.gate sample.whoami
      { Authorization := "Bearer " ++ sample.encodeToken 86400 "secret" "u" } {} rfl rfl⟩

/-- Counterexample to C3 as first stated: alice registers with valid data in an
empty store, but the environment does not set `REFRESH_TOKEN_EXPIRE_TIME`;
`CreateRefreshToken` fails and `LoginUser` answers 500, not 200. -/
theorem C3_counterexample :
    "alice" ≠ "" ∧ "pw123" ≠ "" ∧
      service.emailRegex.MatchString "alice@example.com" = true ∧
      service.CreateUser sample.libs postgres.UserRepository 1 "salt" "alice" "alice@example.com"
        "pw123" {}
        = ((some ⟨1, "alice", "alice@example.com", "$pw123"⟩, none),
            { users := [⟨1, "alice", "alice@example.com", "$pw123"⟩] }) ∧
      handlers.LoginUser sample.libs sample.envNoTTL sample.handler 0 2 3 0
        { Body := "alice@example.com\npw123" }
        { users := [⟨1, "alice", "alice@example.com", "$pw123"⟩] }
        = (http.Error "Ошибка при создании refresh токена" 500,
            { users := [⟨1, "alice", "alice@example.com", "$pw123"⟩] }) := by
  decide

/-! ## Refreshing an access token -/

theorem find_token_of_mem (l : List domain.RefreshToken) (rt : domain.RefreshToken)
    (hmem : rt ∈ l) (huniq : (l.map fun t => t.Token).Nodup) :
    l.find? (fun t => decide (t.Token = rt.Token)) = some rt := by
  induction l with
  | nil => cases hmem
  | cons x xs ih =>
    rw [List.map_cons, List.nodup_cons] at huniq
    rcases List.mem_cons.mp hmem with h | h
    · subst h
      simp
    · have hx : x.Token ≠ rt.Token := fun e =>
        huniq.1 (e ▸ List.mem_map_of_mem (fun t => t.Token) h)
      rw [List.find?_cons]
      simp only [hx, decide_False]
      exact ih h huniq.2

theorem postgres_RefreshToken_live (lib : Libs) (cfg : config.Config) (db : postgres.DB)
    (log : List repository.Call) (rt : domain.RefreshToken) (r : http.Request)
    (nowCheck nowIssue : time.Time) (tok : String)
    (hmem : rt ∈ db.refresh_tokens)
    (huniq : (db.refresh_tokens.map fun t => t.Token).Nodup)
    (hbody : lib.json_DecodeRefresh r.Body = .ok rt.Token)
    (hlive : ¬ rt.ExpiryDate < nowCheck)
    (hsign : lib.jwt_SignedString (handlers.accessClaims lib rt.UserID nowIssue) cfg.JWTSecret
      = .ok tok) :
    handlers.RefreshToken lib
        (handlers.UserHandler.recording
          ⟨postgres.UserRepository, postgres.RefreshTokenRepository, cfg⟩)
        nowCheck nowIssue r (db, log)
      = (.reply 200 (.json [("token", tok)]),
          (db, log ++ [.refreshToken (.GetByToken rt.Token)])) := by
  have hfind := find_token_of_mem _ rt hmem huniq
  simp [handlers.RefreshToken, hbody, service.GetRefreshToken, handlers.UserHandler.recording,
    repository.RefreshTokenRepository.recording, postgres.RefreshTokenRepository, hfind,
    time.Time.Before, hlive, hsign]

/-- C4. Over the PostgreSQL store with unique token strings: for every stored
refresh token that is not expired at the instant of the check, the
`RefreshToken` handler answers 200 with a body holding only `token`, the
signed access token whose `user_id` claim is the string form of the record's
`UserID`; the store is left as it was and the only repository call is
`GetByToken` (no `Create`, no `Delete`), and a second request with the same
token string, while the record is still not expired, succeeds likewise. Signing
with HS256 under a byte key is taken to succeed. -/
theorem C4_RefreshToken_keeps_store (lib : Libs) (cfg : config.Config) (db : postgres.DB)
    (log : List repository.Call) (rt : domain.RefreshToken) (r : http.Request)
    (nowCheck nowIssue nowCheck' nowIssue' : time.Time) (tok tok' : String)
    (hmem : rt ∈ db.refresh_tokens)
    (huniq : (db.refresh_tokens.map fun t => t.Token).Nodup)
    (hbody : lib.json_DecodeRefresh r.Body = .ok rt.Token)
    (hlive : ¬ rt.ExpiryDate < nowCheck) (hlive' : ¬ rt.ExpiryDate < nowCheck')
    (hsign : lib.jwt_SignedString (handlers.accessClaims lib rt.UserID nowIssue) cfg.JWTSecret
      = .ok tok)
    (hsign' : lib.jwt_SignedString (handlers.accessClaims lib rt.UserID nowIssue') cfg.JWTSecret
      = .ok tok') :
    handlers.RefreshToken lib
        (handlers.UserHandler.recording
          ⟨postgres.UserRepository, postgres.RefreshTokenRepository, cfg⟩)
        nowCheck nowIssue r (db, log)
        = (.reply 200 (.json [("token", tok)]),
            (db, log ++ [.refreshToken (.GetByToken rt.Token)])) ∧
      (handlers.accessClaims lib rt.UserID nowIssue).get "user_id"
        = some (.string (lib.uuid_String rt.UserID)) ∧
      handlers.RefreshToken lib
        (handlers.UserHandler.recording
          ⟨postgres.UserRepository, postgres.RefreshTokenRepository, cfg⟩)
        nowCheck' nowIssue' r (db, log ++ [.refreshToken (.GetByToken rt.Token)])
        = (.reply 200 (.json [("token", tok')]),
            (db, log ++ [.refreshToken (.GetByToken rt.Token)]
              ++ [.refreshToken (.GetByToken rt.Token)])) :=
  ⟨postgres_RefreshToken_live lib cfg db log rt r nowCheck nowIssue tok hmem huniq hbody hlive
      hsign,
    by simp [handlers.accessClaims, jwt.MapClaims.get, List.lookup],
    postgres_RefreshToken_live lib cfg db _ rt r nowCheck' nowIssue' tok' hmem huniq hbody hlive'
      hsign'⟩

/-- Witness of C4: a token expiring at instant 10 is used at instants 5 and 7. -/
theorem C4_RefreshToken_keeps_store_witness :
    handlers.RefreshToken sample.libs
        (handlers.UserHandler.recording
          ⟨postgres.UserRepository, postgres.RefreshTokenRepository, sample.cfg⟩)
        5 6 { Body := "uuu" } ({ refresh_tokens := [⟨2, 1, "uuu", 10⟩] }, [])
        = (.reply 200 (.json [("token", sample.encodeToken 86400 "secret" "u")]),
            ({ refresh_tokens := [⟨2, 1, "uuu", 10⟩] },
              [] ++ [.refreshToken (.GetByToken "uuu")])) ∧
      (handlers.accessClaims sample.libs 1 6).get "user_id"
        = some (.string (sample.libs.uuid_String 1)) ∧
      handlers.RefreshToken sample.libs
        (handlers.UserHandler.recording
          ⟨postgres.UserRepository, postgres.RefreshTokenRepository, sample.cfg⟩)
        7 8 { Body := "uuu" }
        ({ refresh_tokens := [⟨2, 1, "uuu", 10⟩] }, [] ++ [.refreshToken (.GetByToken "uuu")])
        = (.reply 200 (.json [("token", sample.encodeToken 86400 "secret" "u")]),
            ({ refresh_tokens := [⟨2, 1, "uuu", 10⟩] },
              [] ++ [.refreshToken (.GetByToken "uuu")]
                ++ [.refreshToken (.GetByToken "uuu")])) :=
  C4_RefreshToken_keeps_store sample.libs sample.cfg { refresh_tokens := [⟨2, 1, "uuu", 10⟩] } []
    ⟨2, 1, "uuu", 10⟩ { Body := "uuu" } 5 6 7 8 (sample.encodeToken 86400 "secret" "u")
    (sample.encodeToken 86400 "secret" "u") (by decide) (by decide) (by rfl) (by decide)
    (by decide) (by rfl) (by rfl)

/-- C5. For every refresh-token record the lookup finds and every instant
`nowCheck` read in the expiry test, the `RefreshToken` handler answers 401 with
"Срок действия refresh токена истек" if and only if the record's `ExpiryDate`
is strictly earlier than `nowCheck`; a record expiring exactly at `nowCheck` is
accepted and the signed access token is returned with status 200. -/
theorem C5_RefreshToken_expiry_strict {σ : Type} (lib : Libs) (h : handlers.UserHandler σ)
    (nowCheck nowIssue : time.Time) (r : http.Request) (s : σ) (token : String)
    (rt : domain.RefreshToken)
    (hbody : lib.json_DecodeRefresh r.Body = .ok token)
    (hget : (h.refreshTokenRepo.GetByToken token s).1 = (some rt, none)) :
    ((handlers.RefreshToken lib h nowCheck nowIssue r s).1
          = http.Error "Срок действия refresh токена истек" 401
        ↔ rt.ExpiryDate < nowCheck) ∧
      (rt.ExpiryDate = nowCheck → ∀ tok : String,
        lib.jwt_SignedString (handlers.accessClaims lib rt.UserID nowIssue) h.config.JWTSecret
            = .ok tok →
          (handlers.RefreshToken lib h nowCheck nowIssue r s).1
            = .reply 200 (.json [("token", tok)])) := by
  rcases hq : h.refreshTokenRepo.GetByToken token s with ⟨⟨u, e⟩, s1⟩
  rw [hq] at hget
  cases hget
  constructor
  · by_cases hlt : rt.ExpiryDate < nowCheck
    · simp [handlers.RefreshToken, hbody, service.GetRefreshToken, hq, time.Time.Before, hlt]
    · cases hs : lib.jwt_SignedString (handlers.accessClaims lib rt.UserID nowIssue)
          h.config.JWTSecret <;>
        simp [handlers.RefreshToken, hbody, service.GetRefreshToken, hq, time.Time.Before, hlt,
          hs, http.Error]
  · intro heq tok hs
    have hlt : ¬ rt.ExpiryDate < nowCheck := by rw [heq]; exact lt_irrefl _
    simp [handlers.RefreshToken, hbody, service.GetRefreshToken, hq, time.Time.Before, hlt, hs]

/-- Witness of C5: a token expiring at instant 10 is refreshed at instant 10. -/
theorem C5_RefreshToken_expiry_strict_witness :
    ((handlers.RefreshToken sample.libs sample.handler 10 11 { Body := "uuu" }
          { refresh_tokens := [⟨2, 1, "uuu", 10⟩] }).1
          = http.Error "Срок действия refresh токена истек" 401
        ↔ (10 : Int) < 10) ∧
      (handlers.RefreshToken sample.libs sample.handler 10 11 { Body := "uuu" }
          { refresh_tokens := [⟨2, 1, "uuu", 10⟩] }).1
        = .reply 200 (.json [("token", sample.encodeToken 86400 "secret" "u")]) :=
  have w := C5_RefreshToken_expiry_strict sample.libs sample.handler 10 11 { Body := "uuu" }
    { refresh_tokens := [⟨2, 1, "uuu", 10⟩] } "uuu" ⟨2, 1, "uuu", 10⟩ (by rfl) (by decide)
  ⟨w.1, w.2 rfl (sample.encodeToken 86400 "secret" "u") (by rfl)⟩

/-! ## Revocation -/

/-- C6. Over the PostgreSQL store with unique token strings: for every user
and every stored refresh token owned by that user, `RevokeAllRefreshTokens`
called for the user answers 204 and removes the user's tokens; a `RefreshToken`
request carrying that token string then fails at lookup with status 401 and
"Неверный refresh токен": its only repository call is `GetByToken` and its
body carries no access token. -/
theorem C6_revoked_token_rejected (lib : Libs) (cfg : config.Config) (db : postgres.DB)
    (userID : uuid.UUID) (rt : domain.RefreshToken) (r rq : http.Request)
    (nowCheck nowIssue : time.Time)
    (hmem : rt ∈ db.refresh_tokens) (hown : rt.UserID = userID)
    (huniq : (db.refresh_tokens.map fun t => t.Token).Nodup)
    (hctx : handlers.GetUserIDFromRequest r = (userID, true))
    (hbody : lib.json_DecodeRefresh rq.Body = .ok rt.Token) :
    handlers.RevokeAllRefreshTokens
        ⟨postgres.UserRepository, postgres.RefreshTokenRepository, cfg⟩ r db
        = (.reply 204 .empty,
            { db with refresh_tokens :=
                db.refresh_tokens.filter fun t => decide (t.UserID ≠ userID) }) ∧
      handlers.RefreshToken lib
        (handlers.UserHandler.recording
          ⟨postgres.UserRepository, postgres.RefreshTokenRepository, cfg⟩)
        nowCheck nowIssue rq
        ({ db with refresh_tokens :=
            db.refresh_tokens.filter fun t => decide (t.UserID ≠ userID) }, [])
        = (http.Error "Неверный refresh токен" 401,
            ({ db with refresh_tokens :=
                db.refresh_tokens.filter fun t => decide (t.UserID ≠ userID) },
              [.refreshToken (.GetByToken rt.Token)])) := by
  constructor
  · simp [handlers.RevokeAllRefreshTokens, hctx, service.DeleteAllRefreshTokensByUserID,
      postgres.RefreshTokenRepository]
  · have hfind : (db.refresh_tokens.filter fun t => decide (t.UserID ≠ userID)).find?
        (fun t => decide (t.Token = rt.Token)) = none := by
      apply find_none_of_forall
      intro t ht
      rw [List.mem_filter] at ht
      have hne : t.Token ≠ rt.Token := by
        intro e
        have := List.inj_on_of_nodup_map huniq ht.1 hmem e
        subst this
        simp [hown] at ht
      simp [hne]
    have hget : postgres.RefreshTokenRepository.GetByToken rt.Token
        { db with refresh_tokens :=
            db.refresh_tokens.filter fun t => decide (t.UserID ≠ userID) }
        = ((none, some (.wrapf "refresh токен не найден" postgres.ErrNoRows)),
            { db with refresh_tokens :=
                db.refresh_tokens.filter fun t => decide (t.UserID ≠ userID) }) := by
      simp only [postgres.RefreshTokenRepository, hfind]
    simp only [handlers.RefreshToken, hbody, service.GetRefreshToken,
      handlers.UserHandler.recording, repository.RefreshTokenRepository.recording, hget,
      List.nil_append]

/-- Witness of C6: user 1 revokes, then presents the revoked token. -/
theorem C6_revoked_token_rejected_witness :
    handlers.RevokeAllRefreshTokens
        ⟨postgres.UserRepository, postgres.RefreshTokenRepository, sample.cfg⟩
        { ctx := auth.ContextWithUser [] 1 }
        { refresh_tokens := [⟨2, 1, "uuu", 10⟩, ⟨4, 7, "uuuuu", 10⟩] }
        = (.reply 204 .empty,
            { ({ refresh_tokens := [⟨2, 1, "uuu", 10⟩, ⟨4, 7, "uuuuu", 10⟩] } : postgres.DB) with
              refresh_tokens :=
                [(⟨2, 1, "uuu", 10⟩ : domain.RefreshToken), ⟨4, 7, "uuuuu", 10⟩].filter
                  fun t => decide (t.UserID ≠ 1) }) ∧
      handlers.RefreshToken sample.libs
        (handlers.UserHandler.recording
          ⟨postgres.UserRepository, postgres.RefreshTokenRepository, sample.cfg⟩)
        5 6 { Body := "uuu" }
        ({ ({ refresh_tokens := [⟨2, 1, "uuu", 10⟩, ⟨4, 7, "uuuuu", 10⟩] } : postgres.DB) with
            refresh_tokens :=
              [(⟨2, 1, "uuu", 10⟩ : domain.RefreshToken), ⟨4, 7, "uuuuu", 10⟩].filter
                fun t => decide (t.UserID ≠ 1) }, [])
        = (http.Error "Неверный refresh токен" 401,
            ({ ({ refresh_tokens := [⟨2, 1, "uuu", 10⟩, ⟨4, 7, "uuuuu", 10⟩] } : postgres.DB) with
                refresh_tokens :=
                  [(⟨2, 1, "uuu", 10⟩ : domain.RefreshToken), ⟨4, 7, "uuuuu", 10⟩].filter
                    fun t => decide (t.UserID ≠ 1) },
              [.refreshToken (.GetByToken "uuu")])) :=
  C6_revoked_token_rejected sample.libs sample.cfg
    { refresh_tokens := [⟨2, 1, "uuu", 10⟩, ⟨4, 7, "uuuuu", 10⟩] } 1 ⟨2, 1, "uuu", 10⟩
    { ctx := auth.ContextWithUser [] 1 } { Body := "uuu" } 5 6
    (by decide) (by rfl) (by decide) (by rfl) (by rfl)

/-! ## The gate: token failures -/

theorem Authenticate_wellformed {σ : Type} (lib : Libs) (m : handlers.AuthMiddleware σ)
    (now : time.Time) (next : http.Handler σ) (r : http.Request) (s : σ)
    (scheme tokenString : String)
    (hne : r.Authorization ≠ "")
    (hsplit : strings.Split r.Authorization ' ' = [scheme, tokenString])
    (hscheme : strings.ToLower scheme = "bearer") :
    handlers.Authenticate lib m now next r s
      = handlers.authenticateToken lib m now next tokenString r s := by
  simp [handlers.Authenticate, hne, hsplit, hscheme]

/-- C7, amended. For a request whose header is `Bearer` and a token: when
`jwt.Parse` returns an error for the token (malformed segments, a key function
error, a bad signature, an expired or otherwise invalid claim set) or returns
a token not marked valid, the gate answers 401 with "Неверный токен"; when the
token is correctly signed and unexpired but its `user_id` claim is missing or
not a string, the gate answers 500 with "Неверный формат ID пользователя в
токене"; when the claim is a string that is not a parsable user id, it answers
500 with "Неверный ID пользователя в токене". In none of these cases is the
next handler invoked: the outcome is the same for every next handler and the
store is untouched. -/
theorem C7_gate_token_failures {σ : Type} (lib : Libs) (m : handlers.AuthMiddleware σ)
    (now : time.Time) (r : http.Request) (s : σ) (scheme tokenString : String)
    (hne : r.Authorization ≠ "")
    (hsplit : strings.Split r.Authorization ' ' = [scheme, tokenString])
    (hscheme : strings.ToLower scheme = "bearer") :
    (∀ err : GoError, jwt.Parse lib now tokenString (handlers.keyFunc m) = .error err →
        ∀ next : http.Handler σ,
          handlers.Authenticate lib m now next r s = (http.Error "Неверный токен" 401, s)) ∧
      (∀ token : jwt.Token, jwt.Parse lib now tokenString (handlers.keyFunc m) = .ok token →
        token.Valid = false →
        ∀ next : http.Handler σ,
          handlers.Authenticate lib m now next r s = (http.Error "Неверный токен" 401, s)) ∧
      (∀ token : jwt.Token, jwt.Parse lib now tokenString (handlers.keyFunc m) = .ok token →
        token.Valid = true →
        (∀ userIDString : String, token.Claims.get "user_id" ≠ some (.string userIDString)) →
        ∀ next : http.Handler σ,
          handlers.Authenticate lib m now next r s
            = (http.Error "Неверный формат ID пользователя в токене" 500, s)) ∧
      (∀ (token : jwt.Token) (userIDString : String) (err : GoError),
        jwt.Parse lib now tokenString (handlers.keyFunc m) = .ok token →
        token.Valid = true →
        token.Claims.get "user_id" = some (.string userIDString) →
        lib.uuid_Parse userIDString = .error err →
        ∀ next : http.Handler σ,
          handlers.Authenticate lib m now next r s
            = (http.Error "Неверный ID пользователя в токене" 500, s)) := by
  refine ⟨?_, ?_, ?_, ?_⟩
  · intro err hparse next
    rw [Authenticate_wellformed lib m now next r s scheme tokenString hne hsplit hscheme]
    simp [handlers.authenticateToken, hparse]
  · intro token hparse hvalid next
    rw [Authenticate_wellformed lib m now next r s scheme tokenString hne hsplit hscheme]
    simp [handlers.authenticateToken, hparse, hvalid]
  · intro token hparse hvalid hclaim next
    rw [Authenticate_wellformed lib m now next r s scheme tokenString hne hsplit hscheme]
    simp only [handlers.authenticateToken, hparse, hvalid, if_true]
  · intro token uid err hparse hvalid hclaim huuid next
    rw [Authenticate_wellformed lib m now next r s scheme tokenString hne hsplit hscheme]
    simp [handlers.authenticateToken, hparse, hvalid, hclaim, huuid]

/-- Witness of C7: a token signed with the configured secret, valid until
instant one second, whose `user_id` is "zz", presented at instant zero. -/
theorem C7_gate_token_failures_witness :
    handlers.Authenticate sample.libs sample.gate 0 sample.whoami
        { Authorization := "Bearer +.kkkkkk.secretzz" } {}
      = (http.Error "Неверный ID пользователя в токене" 500, {}) :=
  (C7_gate_token_failures sample.libs sample.gate 0 { Authorization := "Bearer +.kkkkkk.secretzz" }
    {} "Bearer" "+.kkkkkk.secretzz" (by decide) (by decide) (by decide)).2.2.2
    { Raw := "+.kkkkkk.secretzz", Method := .HS256,
      Claims := [("user_id", .string "zz"), ("exp", .number 1)], Valid := true }
    "zz" (.errorf "invalid UUID format") (by rfl) (by rfl) (by rfl) (by rfl) sample.whoami

/-- Counterexample to C7 as first stated: the token is signed with the
configured secret and not expired, its `user_id` claim "zz" is not a parsable
user id, and the gate answers 500 instead of 401. -/
theorem C7_counterexample :
    sample.libs.jwt_SignedString [("user_id", .string "zz"), ("exp", .number 1)]
        sample.gate.config.JWTSecret = .ok "+.kkkkkk.secretzz" ∧
      sample.libs.uuid_Parse "zz" = .error (.errorf "invalid UUID format") ∧
      handlers.Authenticate sample.libs sample.gate 0 sample.whoami
        { Authorization := "Bearer +.kkkkkk.secretzz" } {}
        = (http.Error "Неверный ID пользователя в токене" 500, {}) ∧
      (handlers.Authenticate sample.libs sample.gate 0 sample.whoami
        { Authorization := "Bearer +.kkkkkk.secretzz" } {}).1.status ≠ some 401 := by
  refine ⟨by rfl, by rfl, by decide, by decide⟩

/-! ## The gate: header format -/

theorem splitAux_cut (sep : Char) (l cur : List Char) :
    strings.splitAux sep l cur
      = (cur.reverse ++ l.takeWhile fun c => c != sep) ::
          (if sep ∈ l then strings.splitAux sep ((l.dropWhile fun c => c != sep).drop 1) []
           else []) := by
  induction l generalizing cur with
  | nil => simp [strings.splitAux]
  | cons c cs ih =>
    by_cases hc : c = sep
    · subst hc
      simp [strings.splitAux, List.takeWhile_cons, List.dropWhile_cons]
    · have hc' : sep ≠ c := fun e => hc e.symm
      rw [strings.splitAux, if_neg hc, ih]
      simp [List.takeWhile_cons, List.dropWhile_cons, hc, hc']

theorem splitAux_ne_nil (sep : Char) (l cur : List Char) : strings.splitAux sep l cur ≠ [] := by
  rw [splitAux_cut]
  exact List.cons_ne_nil _ _

theorem Split_of_cut (h scheme rest : String)
    (hcut : spec.cutAtFirstSpace h = some (scheme, rest)) :
    strings.Split h ' ' = scheme :: (strings.splitAux ' ' rest.data []).map String.mk := by
  unfold spec.cutAtFirstSpace at hcut
  split at hcut
  · rename_i hmem
    simp only [Option.some.injEq, Prod.mk.injEq] at hcut
    rw [strings.Split, splitAux_cut, if_pos hmem, ← hcut.1, ← hcut.2]
    simp
  · exact Option.noConfusion hcut

theorem Split_no_space (h : String) (hcut : spec.cutAtFirstSpace h = none) :
    strings.Split h ' ' = [h] := by
  unfold spec.cutAtFirstSpace at hcut
  split at hcut
  · exact Option.noConfusion hcut
  · rename_i hmem
    simp [strings.Split, splitAux_no_sep _ _ _ hmem]

/-- C8, amended. For every request: an empty or absent `Authorization` header
yields 401 with "Отсутствует заголовок Authorization". For a non-empty header
the gate splits at every space and requires exactly two parts: when the header
cut at its first space gives a scheme that lower-cases to "bearer" and a
remainder that contains no further space, that remainder is the token handed
to verification; in every other case (no space at all, another scheme, or a
remainder that itself contains a space) the gate answers 401 with "Неверный
формат заголовка Authorization", whatever the libraries would say of the
token. -/
theorem C8_gate_header_format {σ : Type} (lib : Libs) (m : handlers.AuthMiddleware σ)
    (now : time.Time) (next : http.Handler σ) (r : http.Request) (s : σ) :
    (r.Authorization = "" →
        handlers.Authenticate lib m now next r s
          = (http.Error "Отсутствует заголовок Authorization" 401, s)) ∧
      (r.Authorization ≠ "" → ∀ scheme rest : String,
        spec.cutAtFirstSpace r.Authorization = some (scheme, rest) →
        strings.ToLower scheme = "bearer" → ' ' ∉ rest.data →
        handlers.Authenticate lib m now next r s
          = handlers.authenticateToken lib m now next rest r s) ∧
      (r.Authorization ≠ "" → ∀ scheme rest : String,
        spec.cutAtFirstSpace r.Authorization = some (scheme, rest) →
        strings.ToLower scheme ≠ "bearer" ∨ ' ' ∈ rest.data →
        handlers.Authenticate lib m now next r s
          = (http.Error "Неверный формат заголовка Authorization" 401, s)) ∧
      (r.Authorization ≠ "" → spec.cutAtFirstSpace r.Authorization = none →
        handlers.Authenticate lib m now next r s
          = (http.Error "Неверный формат заголовка Authorization" 401, s)) := by
  refine ⟨?_, ?_, ?_, ?_⟩
  · intro h
    simp [handlers.Authenticate, h]
  · intro hne scheme rest hcut hscheme hrest
    have hsplit := Split_of_cut _ _ _ hcut
    rw [splitAux_no_sep _ _ _ hrest] at hsplit
    exact Authenticate_wellformed lib m now next r s scheme rest hne (by simpa using hsplit)
      hscheme
  · intro hne scheme rest hcut hbad
    have hsplit := Split_of_cut _ _ _ hcut
    rcases hbad with hbad | hbad
    · simp [handlers.Authenticate, hne, hsplit, hbad]
    · rw [splitAux_cut, if_pos hbad] at hsplit
      have hlen : (strings.Split r.Authorization ' ').length ≠ 2 := by
        rw [hsplit]
        simp only [List.map_cons, List.length_cons, List.length_map]
        have := List.length_pos.mpr (splitAux_ne_nil ' '
          ((rest.data.dropWhile fun c => c != ' ').drop 1) [])
        omega
      simp [handlers.Authenticate, hne, hlen]
  · intro hne hcut
    simp [handlers.Authenticate, hne, Split_no_space _ hcut]

/-- Witness of C8: a header of two parts reaches verification with its second
part as the token. -/
theorem C8_gate_header_format_witness :
    handlers.Authenticate sample.libs sample.gate 0 sample.whoami
        { Authorization := "Bearer +.kkkkkk.secretuu" } {}
      = handlers.authenticateToken sample.libs sample.gate 0 sample.whoami "+.kkkkkk.secretuu"
          { Authorization := "Bearer +.kkkkkk.secretuu" } {} :=
  (C8_gate_header_format sample.libs sample.gate 0 sample.whoami
    { Authorization := "Bearer +.kkkkkk.secretuu" } {}).2.1 (by decide) "Bearer"
    "+.kkkkkk.secretuu" (by decide) (by decide) (by decide)

/-- Counterexample to C8 as first stated: the header "Bearer a b" cut at its
first space gives the scheme "Bearer" and the remainder "a b", yet the gate
answers "Неверный формат заголовка Authorization" and not what verification
of "a b" answers. -/
theorem C8_counterexample :
    spec.cutAtFirstSpace "Bearer a b" = some ("Bearer", "a b") ∧
      strings.ToLower "Bearer" = "bearer" ∧
      handlers.Authenticate sample.libs sample.gate 0 sample.whoami
        { Authorization := "Bearer a b" } {}
        = (http.Error "Неверный формат заголовка Authorization" 401, {}) ∧
      handlers.Authenticate sample.libs sample.gate 0 sample.whoami
        { Authorization := "Bearer a b" } {}
        ≠ handlers.authenticateToken sample.libs sample.gate 0 sample.whoami "a b"
            { Authorization := "Bearer a b" } {} := by
  decide

/-! ## The gate: when the next handler runs -/

theorem UserIDFromContext_absent (ctx : auth.Context)
    (h : ∀ kv ∈ ctx, kv.1 ≠ auth.ContextKey.UserContextKey) :
    auth.UserIDFromContext ctx = (uuid.Nil, false) := by
  have hl : ctx.lookup auth.ContextKey.UserContextKey = none := by
    induction ctx with
    | nil => rfl
    | cons kv rest ih =>
      obtain ⟨k, v⟩ := kv
      have hk : k ≠ auth.ContextKey.UserContextKey := h (k, v) (by simp)
      have hk' : (auth.ContextKey.UserContextKey == k) = false := by
        simpa using fun e => hk e.symm
      rw [List.lookup_cons, hk']
      exact ih (fun kv hkv => h kv (by simp [hkv]))
  simp [auth.UserIDFromContext, auth.Context.Value, hl]

theorem Authenticate_missing {σ : Type} (lib : Libs) (m : handlers.AuthMiddleware σ)
    (now : time.Time) (next : http.Handler σ) (r : http.Request) (s : σ)
    (h : r.Authorization = "") :
    handlers.Authenticate lib m now next r s
      = (http.Error "Отсутствует заголовок Authorization" 401, s) := by
  simp [handlers.Authenticate, h]

theorem Authenticate_malformed {σ : Type} (lib : Libs) (m : handlers.AuthMiddleware σ)
    (now : time.Time) (next : http.Handler σ) (r : http.Request) (s : σ)
    (hne : r.Authorization ≠ "")
    (hfmt : (strings.Split r.Authorization ' ').length ≠ 2 ∨
      strings.ToLower ((strings.Split r.Authorization ' ').getD 0 "") ≠ "bearer") :
    handlers.Authenticate lib m now next r s
      = (http.Error "Неверный формат заголовка Authorization" 401, s) := by
  unfold handlers.Authenticate
  dsimp only
  rw [if_neg hne, if_pos hfmt]

theorem authenticateToken_cases {σ : Type} (lib : Libs) (m : handlers.AuthMiddleware σ)
    (now : time.Time) (r : http.Request) (s : σ) (tokenString : String) :
    (∃ (msg : String) (code : Nat), ∀ next : http.Handler σ,
        handlers.authenticateToken lib m now next tokenString r s = (http.Error msg code, s)) ∨
      (∃ (token : jwt.Token) (userIDString : String) (userID : uuid.UUID),
        jwt.Parse lib now tokenString (handlers.keyFunc m) = .ok token ∧
        token.Valid = true ∧
        token.Claims.get "user_id" = some (.string userIDString) ∧
        lib.uuid_Parse userIDString = .ok userID ∧
        ∀ next : http.Handler σ,
          handlers.authenticateToken lib m now next tokenString r s
            = next (r.WithContext (auth.ContextWithUser r.ctx userID)) s) := by
  cases hparse : jwt.Parse lib now tokenString (handlers.keyFunc m) with
  | error err =>
    exact Or.inl ⟨"Неверный токен", 401, fun next => by
      simp [handlers.authenticateToken, hparse]⟩
  | ok token =>
    cases hvalid : token.Valid with
    | false =>
      exact Or.inl ⟨"Неверный токен", 401, fun next => by
        simp [handlers.authenticateToken, hparse, hvalid]⟩
    | true =>
      by_cases hclaim : ∃ userIDString, token.Claims.get "user_id" = some (.string userIDString)
      · obtain ⟨userIDString, hclaim⟩ := hclaim
        cases huuid : lib.uuid_Parse userIDString with
        | error err =>
          exact Or.inl ⟨"Неверный ID пользователя в токене", 500, fun next => by
            simp [handlers.authenticateToken, hparse, hvalid, hclaim, huuid]⟩
        | ok userID =>
          exact Or.inr ⟨token, userIDString, userID, rfl, hvalid, hclaim, huuid, fun next => by
            simp [handlers.authenticateToken, hparse, hvalid, hclaim, huuid]⟩
      · have hclaim' : ∀ userIDString : String,
            token.Claims.get "user_id" ≠ some (.string userIDString) :=
          fun u e => hclaim ⟨u, e⟩
        exact Or.inl ⟨"Неверный формат ID пользователя в токене", 500, fun next => by
          simp only [handlers.authenticateToken, hparse, hvalid, if_true]⟩

/-- C9. For every request the gate either rejects it with an `http.Error`
response that is the same for every next handler, leaving the store as it was
(the next handler is not invoked), or the header is well formed, `jwt.Parse`
succeeded with a valid token and the `user_id` claim parsed as a UUID; in that
case the gate's outcome is the outcome of one call of the next handler on the
unchanged store, with a request context from which `UserIDFromContext` reads
exactly that UUID with `ok = true`. `UserIDFromContext (ContextWithUser ctx id)`
is `(id, true)` for every context, and `(uuid.Nil, false)` on a context holding
no binding of `UserContextKey`. The gate does not depend on the user service
it was built with. -/
theorem C9_gate_next_handler {σ : Type} (lib : Libs) (m : handlers.AuthMiddleware σ)
    (now : time.Time) (r : http.Request) (s : σ) :
    ((∃ (msg : String) (code : Nat), ∀ next : http.Handler σ,
          handlers.Authenticate lib m now next r s = (http.Error msg code, s)) ∨
        (∃ (scheme tokenString : String) (token : jwt.Token) (userIDString : String)
            (userID : uuid.UUID),
          r.Authorization ≠ "" ∧
          strings.Split r.Authorization ' ' = [scheme, tokenString] ∧
          strings.ToLower scheme = "bearer" ∧
          jwt.Parse lib now tokenString (handlers.keyFunc m) = .ok token ∧
          token.Valid = true ∧
          token.Claims.get "user_id" = some (.string userIDString) ∧
          lib.uuid_Parse userIDString = .ok userID ∧
          (∀ next : http.Handler σ,
            handlers.Authenticate lib m now next r s
              = next (r.WithContext (auth.ContextWithUser r.ctx userID)) s) ∧
          auth.UserIDFromContext (r.WithContext (auth.ContextWithUser r.ctx userID)).ctx
            = (userID, true))) ∧
      (∀ (ctx : auth.Context) (userID : uuid.UUID),
        auth.UserIDFromContext (auth.ContextWithUser ctx userID) = (userID, true)) ∧
      (∀ ctx : auth.Context, (∀ kv ∈ ctx, kv.1 ≠ auth.ContextKey.UserContextKey) →
        auth.UserIDFromContext ctx = (uuid.Nil, false)) ∧
      (∀ (userRepo : repository.UserRepository σ) (next : http.Handler σ),
        handlers.Authenticate lib ⟨userRepo, m.config⟩ now next r s
          = handlers.Authenticate lib m now next r s) := by
  refine ⟨?_, UserIDFromContext_ContextWithUser, UserIDFromContext_absent, fun _ _ => rfl⟩
  by_cases hne : r.Authorization = ""
  · exact Or.inl ⟨_, _, fun next => Authenticate_missing lib m now next r s hne⟩
  · by_cases hfmt : (strings.Split r.Authorization ' ').length ≠ 2 ∨
        strings.ToLower ((strings.Split r.Authorization ' ').getD 0 "") ≠ "bearer"
    · exact Or.inl ⟨_, _, fun next => Authenticate_malformed lib m now next r s hne hfmt⟩
    · rw [not_or, not_not, not_not] at hfmt
      obtain ⟨hlen, hscheme⟩ := hfmt
      obtain ⟨scheme, tokenString, hsplit⟩ :
          ∃ a b, strings.Split r.Authorization ' ' = [a, b] := List.length_eq_two.mp hlen
      rw [hsplit] at hscheme
      have hscheme' : strings.ToLower scheme = "bearer" := by simpa using hscheme
      have hwf := fun next =>
        Authenticate_wellformed lib m now next r s scheme tokenString hne hsplit hscheme'
      rcases authenticateToken_cases lib m now r s tokenString with
        ⟨msg, code, hrej⟩ | ⟨token, userIDString, userID, hparse, hvalid, hclaim, huuid, hacc⟩
      · exact Or.inl ⟨msg, code, fun next => by rw [hwf next]; exact hrej next⟩
      · exact Or.inr ⟨scheme, tokenString, token, userIDString, userID, hne, hsplit, hscheme',
          hparse, hvalid, hclaim, huuid, fun next => by rw [hwf next]; exact hacc next,
          UserIDFromContext_ContextWithUser _ _⟩

/-- Witness of C9: a request bearing a token signed for user 2 reaches the next
handler, which reads user 2 from the context. -/
theorem C9_gate_next_handler_witness :
    auth.UserIDFromContext (auth.ContextWithUser [] 2) = (2, true) ∧
      handlers.Authenticate sample.libs sample.gate 0 sample.whoami
        { Authorization := "Bearer +.kkkkkk.secretuu" } {}
        = (.reply 200 (.text "uu"), {}) :=
  ⟨(C9_gate_next_handler sample.libs sample.gate 0
      { Authorization := "Bearer +.kkkkkk.secretuu" } {}).2.1 [] 2, by decide⟩

/-! ## The body of a successful registration -/

theorem CreateUser_ok_inv {σ : Type} (lib : Libs) (userRepo : repository.UserRepository σ)
    (newID : uuid.UUID) (salt username email password : String) (s s1 : σ)
    (created : domain.User)
    (h : service.CreateUser lib userRepo newID salt username email password s
      = ((some created, none), s1)) :
    ∃ hash : String, lib.bcrypt_GenerateFromPassword salt password = .ok hash ∧
      created = ⟨newID, username, email, hash⟩ ∧
      userRepo.Create created (userRepo.GetByEmail email s).2 = (none, s1) := by
  unfold service.CreateUser at h
  split at h
  · cases h
  · split at h
    · cases h
    · rcases hq : userRepo.GetByEmail email s with ⟨⟨u, e⟩, s0⟩
      rw [hq] at h
      dsimp only at h
      split at h
      · cases h
      · cases hg : lib.bcrypt_GenerateFromPassword salt password with
        | error err =>
          simp [domain.User.HashPassword, hg] at h
        | ok hash =>
          simp only [domain.User.HashPassword, hg] at h
          rcases hc : userRepo.Create ⟨newID, username, email, hash⟩ s0 with ⟨ce, s2⟩
          rw [hc] at h
          cases ce with
          | some err => simp at h
          | none =>
            simp only [Prod.mk.injEq, Option.some.injEq, and_true, true_and] at h
            obtain ⟨h1, h2⟩ := h
            subst h1 h2
            exact ⟨hash, rfl, rfl, hc⟩

/-- C10, amended. For every successful registration (the body decodes and
`CreateUser` returns a user and a nil error), `RegisterUser` answers 201 with a
JSON body of the created user's `id`, `username` and `email` and a fourth
member `password`; that member carries the hash bcrypt produced from the
submitted password, which is the value handed to the repository's `Create`. -/
theorem C10_RegisterUser_body {σ : Type} (lib : Libs) (h : handlers.UserHandler σ)
    (newID : uuid.UUID) (salt : String) (r : http.Request) (s s1 : σ)
    (user created : domain.User)
    (hbody : lib.json_DecodeUser r.Body = .ok user)
    (hcreate : service.CreateUser lib h.userRepo newID salt user.Username user.Email
      user.Password s = ((some created, none), s1)) :
    handlers.RegisterUser lib h newID salt r s
        = (.reply 201 (.json [("id", lib.uuid_String created.ID),
              ("username", created.Username), ("email", created.Email),
              ("password", created.Password)]), s1) ∧
      lib.bcrypt_GenerateFromPassword salt user.Password = .ok created.Password ∧
      h.userRepo.Create created (h.userRepo.GetByEmail user.Email s).2 = (none, s1) := by
  obtain ⟨hash, hg, hc, hcr⟩ := CreateUser_ok_inv lib h.userRepo newID salt _ _ _ s s1 created
    hcreate
  refine ⟨?_, ?_, hcr⟩
  · simp [handlers.RegisterUser, hbody, hcreate, handlers.encodeUser]
  · rw [hg, hc]

/-- Witness of C10: alice registers in an empty store. -/
theorem C10_RegisterUser_body_witness :
    handlers.RegisterUser sample.libs sample.handler 1 "salt"
        { Body := "alice\nalice@example.com\npw123" } {}
        = (.reply 201 (.json [("id", sample.libs.uuid_String 1), ("username", "alice"),
              ("email", "alice@example.com"), ("password", "$pw123")]),
            { users := [⟨1, "alice", "alice@example.com", "$pw123"⟩] }) ∧
      sample.libs.bcrypt_GenerateFromPassword "salt" "pw123" = .ok "$pw123" ∧
      sample.handler.userRepo.Create ⟨1, "alice", "alice@example.com", "$pw123"⟩
          (sample.handler.userRepo.GetByEmail "alice@example.com" {}).2
        = (none, { users := [⟨1, "alice", "alice@example.com", "$pw123"⟩] }) :=
  C10_RegisterUser_body sample.libs sample.handler 1 "salt"
    { Body := "alice\nalice@example.com\npw123" } {}
    { users := [⟨1, "alice", "alice@example.com", "$pw123"⟩] }
    ⟨0, "alice", "alice@example.com", "pw123"⟩ ⟨1, "alice", "alice@example.com", "$pw123"⟩
    (by rfl) (by decide)

/-- Counterexample to C10 as first stated: alice registers with the password
"pw123"; the 201 body has a member `password` whose value is the hash stored
in the `users` table. -/
theorem C10_counterexample :
    handlers.RegisterUser sample.libs sample.handler 1 "salt"
        { Body := "alice\nalice@example.com\npw123" } {}
      = (.reply 201 (.json [("id", "u"), ("username", "alice"),
            ("email", "alice@example.com"), ("password", "$pw123")]),
          { users := [⟨1, "alice", "alice@example.com", "$pw123"⟩] }) := by
  decide

/-! ## The claims of an access token -/

theorem Unix_add_day (now : time.Time) :
    time.Time.Unix (time.Time.Add now (time.Hour * 24)) = time.Time.Unix now + 86400 := by
  simp only [time.Time.Unix, time.Time.Add, time.Hour, time.Second]
  omega

theorem accessClaims_eq (lib : Libs) (userID : uuid.UUID) (now : time.Time) :
    handlers.accessClaims lib userID now
      = [("user_id", .string (lib.uuid_String userID)),
          ("exp", .number (time.Time.Unix now + 86400))] := by
  simp only [handlers.accessClaims, Unix_add_day]

theorem LoginUser_ok_inv {σ : Type} (lib : Libs) (env : OSEnv) (h : handlers.UserHandler σ)
    (now : time.Time) (refreshID refreshToken : uuid.UUID) (refreshNow : time.Time)
    (r : http.Request) (s s' : σ) (body : http.Body)
    (hok : handlers.LoginUser lib env h now refreshID refreshToken refreshNow r s
      = (.reply 200 body, s')) :
    ∃ (loginData : LoginData) (user : domain.User) (tok refresh : String),
      lib.json_DecodeLogin r.Body = .ok loginData ∧
      (h.userRepo.GetByEmail loginData.Email s).1 = (some user, none) ∧
      lib.jwt_SignedString (handlers.accessClaims lib user.ID now) h.config.JWTSecret = .ok tok ∧
      body = .json [("refresh_token", refresh), ("token", tok)] := by
  unfold handlers.LoginUser at hok
  cases hd : lib.json_DecodeLogin r.Body with
  | error e => simp [hd, http.Error] at hok
  | ok loginData =>
    rcases hq : h.userRepo.GetByEmail loginData.Email s with ⟨⟨u, e⟩, s1⟩
    cases e with
    | some e => simp [hd, service.GetUserByEmail, hq, http.Error] at hok
    | none =>
      cases u with
      | none => simp [hd, service.GetUserByEmail, hq] at hok
      | some user =>
        cases hc : user.ComparePassword lib loginData.Password with
        | some e => simp [hd, service.GetUserByEmail, hq, hc, http.Error] at hok
        | none =>
          cases hs : lib.jwt_SignedString (handlers.accessClaims lib user.ID now)
              h.config.JWTSecret with
          | error e => simp [hd, service.GetUserByEmail, hq, hc, hs, http.Error] at hok
          | ok tok =>
            rcases hr : service.CreateRefreshToken lib env h.refreshTokenRepo refreshID
                refreshToken refreshNow user.ID s1 with ⟨⟨rt, e⟩, s2⟩
            cases e with
            | some e => simp [hd, service.GetUserByEmail, hq, hc, hs, hr, http.Error] at hok
            | none =>
              cases rt with
              | none => simp [hd, service.GetUserByEmail, hq, hc, hs, hr] at hok
              | some created =>
                simp only [hd, service.GetUserByEmail, hq, hc, hs, hr, Prod.mk.injEq,
                  http.Response.reply.injEq, true_and] at hok
                exact ⟨loginData, user, tok, created.Token, rfl, by rw [hq], hs, hok.1.symm⟩

theorem RefreshToken_ok_inv {σ : Type} (lib : Libs) (h : handlers.UserHandler σ)
    (nowCheck nowIssue : time.Time) (r : http.Request) (s s' : σ) (body : http.Body)
    (hok : handlers.RefreshToken lib h nowCheck nowIssue r s = (.reply 200 body, s')) :
    ∃ (token : String) (refreshToken : domain.RefreshToken) (tok : String),
      lib.json_DecodeRefresh r.Body = .ok token ∧
      (h.refreshTokenRepo.GetByToken token s).1 = (some refreshToken, none) ∧
      lib.jwt_SignedString (handlers.accessClaims lib refreshToken.UserID nowIssue)
        h.config.JWTSecret = .ok tok ∧
      body = .json [("token", tok)] := by
  unfold handlers.RefreshToken at hok
  cases hd : lib.json_DecodeRefresh r.Body with
  | error e => simp [hd, http.Error] at hok
  | ok token =>
    rcases hq : h.refreshTokenRepo.GetByToken token s with ⟨⟨u, e⟩, s1⟩
    cases e with
    | some e => simp [hd, service.GetRefreshToken, hq, http.Error] at hok
    | none =>
      cases u with
      | none => simp [hd, service.GetRefreshToken, hq] at hok
      | some rt =>
        cases hexp : time.Time.Before rt.ExpiryDate nowCheck with
        | true => simp [hd, service.GetRefreshToken, hq, hexp, http.Error] at hok
        | false =>
          cases hs : lib.jwt_SignedString (handlers.accessClaims lib rt.UserID nowIssue)
              h.config.JWTSecret with
          | error e => simp [hd, service.GetRefreshToken, hq, hexp, hs, http.Error] at hok
          | ok tok =>
            simp only [hd, service.GetRefreshToken, hq, hexp, hs, Prod.mk.injEq,
              http.Response.reply.injEq, true_and, Bool.false_eq_true, if_false] at hok
            exact ⟨token, rt, tok, rfl, by rw [hq], hs, hok.1.symm⟩

/-- C13. In `LoginUser` and in the `RefreshToken` handler the claims signed
into the access token are exactly `user_id` and `exp`: `user_id` is the string
form of the subject's UUID and `exp` is the Unix-seconds value of the issuance
instant plus 86400. Every 200 response of `LoginUser` carries the token signed
over these claims for the user the email lookup found, and every 200 response
of `RefreshToken` the token signed over these claims for the `UserID` of the
record the lookup found. -/
theorem C13_access_token_claims {σ : Type} (lib : Libs) (env : OSEnv)
    (h : handlers.UserHandler σ) (now : time.Time) (refreshID refreshToken : uuid.UUID)
    (refreshNow nowCheck : time.Time) (r : http.Request) (s : σ) :
    (∀ userID : uuid.UUID, handlers.accessClaims lib userID now
        = [("user_id", .string (lib.uuid_String userID)),
            ("exp", .number (time.Time.Unix now + 86400))]) ∧
      (∀ (body : http.Body) (s' : σ),
        handlers.LoginUser lib env h now refreshID refreshToken refreshNow r s
            = (.reply 200 body, s') →
          ∃ (loginData : LoginData) (user : domain.User) (tok refresh : String),
            lib.json_DecodeLogin r.Body = .ok loginData ∧
            (h.userRepo.GetByEmail loginData.Email s).1 = (some user, none) ∧
            lib.jwt_SignedString
                [("user_id", .string (lib.uuid_String user.ID)),
                  ("exp", .number (time.Time.Unix now + 86400))] h.config.JWTSecret
              = .ok tok ∧
            body = .json [("refresh_token", refresh), ("token", tok)]) ∧
      (∀ (body : http.Body) (s' : σ),
        handlers.RefreshToken lib h nowCheck now r s = (.reply 200 body, s') →
          ∃ (token : String) (record : domain.RefreshToken) (tok : String),
            lib.json_DecodeRefresh r.Body = .ok token ∧
            (h.refreshTokenRepo.GetByToken token s).1 = (some record, none) ∧
            lib.jwt_SignedString
                [("user_id", .string (lib.uuid_String record.UserID)),
                  ("exp", .number (time.Time.Unix now + 86400))] h.config.JWTSecret
              = .ok tok ∧
            body = .json [("token", tok)]) := by
  refine ⟨fun userID => accessClaims_eq lib userID now, ?_, ?_⟩
  · intro body s' hok
    obtain ⟨loginData, user, tok, refresh, hd, hq, hs, hb⟩ :=
      LoginUser_ok_inv lib env h now refreshID refreshToken refreshNow r s s' body hok
    rw [accessClaims_eq] at hs
    exact ⟨loginData, user, tok, refresh, hd, hq, hs, hb⟩
  · intro body s' hok
    obtain ⟨token, record, tok, hd, hq, hs, hb⟩ :=
      RefreshToken_ok_inv lib h nowCheck now r s s' body hok
    rw [accessClaims_eq] at hs
    exact ⟨token, record, tok, hd, hq, hs, hb⟩

/-- Witness of C13: the claims of a token issued to user 1 at instant 5 s. -/
theorem C13_access_token_claims_witness :
    handlers.accessClaims sample.libs 1 5000000000
      = [("user_id", .string (sample.libs.uuid_String 1)),
          ("exp", .number (time.Time.Unix 5000000000 + 86400))] :=
  (C13_access_token_claims sample.libs sample.env sample.handler 5000000000 2 3 0 0
    { Body := "alice@example.com\npw123" } {}).1 1

/-! ## The lifetime setting of refresh tokens -/

/-- C14. When the environment file loads: if `REFRESH_TOKEN_EXPIRE_TIME` does
not parse as a duration (as the empty value of an absent setting does not),
`CreateRefreshToken` returns the parse error and a nil record, and the
repository receives no call (nothing is stored, no default lifetime is
taken); if it parses to a duration `d`, the repository's `Create` is called
once, with a record whose `UserID` is the given user id and whose `ExpiryDate`
is `now + d`, and that record is returned when `Create` succeeds. -/
theorem C14_CreateRefreshToken_lifetime {σ : Type} (lib : Libs) (env : OSEnv)
    (repo : repository.RefreshTokenRepository σ) (newID newToken : uuid.UUID)
    (now : time.Time) (userID : uuid.UUID) (s : σ) (log : List repository.Call)
    (hload : env.godotenv_Load = none) :
    (∀ err : GoError,
        lib.time_ParseDuration (env.Getenv "REFRESH_TOKEN_EXPIRE_TIME") = .error err →
        service.CreateRefreshToken lib env repo.recording newID newToken now userID (s, log)
          = ((none, some err), (s, log))) ∧
      (lib.ParseDurationEmpty → env.Getenv "REFRESH_TOKEN_EXPIRE_TIME" = "" →
        ∃ err : GoError,
          service.CreateRefreshToken lib env repo.recording newID newToken now userID (s, log)
            = ((none, some err), (s, log))) ∧
      (∀ d : time.Duration,
        lib.time_ParseDuration (env.Getenv "REFRESH_TOKEN_EXPIRE_TIME") = .ok d →
        (⟨newID, userID, lib.uuid_String newToken, now + d⟩ : domain.RefreshToken).UserID
            = userID ∧
          (service.CreateRefreshToken lib env repo.recording newID newToken now userID
              (s, log)).2
            = ((repo.Create ⟨newID, userID, lib.uuid_String newToken, now + d⟩ s).2,
                log ++ [.refreshToken
                  (.Create ⟨newID, userID, lib.uuid_String newToken, now + d⟩)]) ∧
          ((repo.Create ⟨newID, userID, lib.uuid_String newToken, now + d⟩ s).1 = none →
            (service.CreateRefreshToken lib env repo.recording newID newToken now userID
                (s, log)).1
              = (some ⟨newID, userID, lib.uuid_String newToken, now + d⟩, none)) ∧
          (∀ err : GoError,
            (repo.Create ⟨newID, userID, lib.uuid_String newToken, now + d⟩ s).1 = some err →
            (service.CreateRefreshToken lib env repo.recording newID newToken now userID
                (s, log)).1
              = (none, some (.wrapf "ошибка при создании refresh токена" err)))) := by
  have hfail : ∀ err : GoError,
      lib.time_ParseDuration (env.Getenv "REFRESH_TOKEN_EXPIRE_TIME") = .error err →
      service.CreateRefreshToken lib env repo.recording newID newToken now userID (s, log)
        = ((none, some err), (s, log)) := by
    intro err herr
    simp [service.CreateRefreshToken, hload, herr]
  refine ⟨hfail, ?_, ?_⟩
  · intro ⟨err, hempty⟩ hval
    exact ⟨err, hfail err (by rw [hval]; exact hempty)⟩
  · intro d hd
    rcases hc : repo.Create ⟨newID, userID, lib.uuid_String newToken, now + d⟩ s with ⟨e, s1⟩
    cases e <;>
      simp [service.CreateRefreshToken, hload, hd, repository.RefreshTokenRepository.recording,
        time.Time.Add, hc]

/-- Witness of C14: no lifetime setting in the environment, and the sample
duration parser refuses the empty string. -/
theorem C14_CreateRefreshToken_lifetime_witness :
    service.CreateRefreshToken sample.libs sample.envNoTTL
        postgres.RefreshTokenRepository.recording 2 3 0 1 ({}, [])
      = ((none, some (.errorf "time: invalid duration")), ({}, [])) :=
  (C14_CreateRefreshToken_lifetime sample.libs sample.envNoTTL postgres.RefreshTokenRepository
    2 3 0 1 {} [] rfl).1 (.errorf "time: invalid duration") (by rfl)

/-! ## Registration with an empty field -/

/-- C15. When at least one of username, email and password is the empty string,
`CreateUser` returns a nil user and the error "необходимо заполнить все поля",
whatever the format of the email, and the repository receives no call. -/
theorem C15_CreateUser_empty_field {σ : Type} (lib : Libs)
    (repo : repository.UserRepository σ) (newID : uuid.UUID) (salt : String)
    (username email password : String) (s : σ) (log : List repository.Call)
    (hempty : username = "" ∨ email = "" ∨ password = "") :
    service.CreateUser lib repo.recording newID salt username email password (s, log)
      = ((none, some (.errorf "необходимо заполнить все поля")), (s, log)) := by
  simp [service.CreateUser, hempty]

/-- Witness of C15: an empty password next to a malformed email. -/
theorem C15_CreateUser_empty_field_witness :
    service.CreateUser sample.libs postgres.UserRepository.recording 1 "salt" "alice"
        "invalid-email" "" ({}, [])
      = ((none, some (.errorf "необходимо заполнить все поля")), ({}, [])) :=
  C15_CreateUser_empty_field sample.libs postgres.UserRepository 1 "salt" "alice"
    "invalid-email" "" {} [] (by decide)

/-! ## Acceptance and expiry of an access token at the gate -/

theorem authenticateToken_expired {σ : Type} (lib : Libs) (hjwt : lib.JWTRoundTrip)
    (hexpiry : lib.JWTExpiry) (m : handlers.AuthMiddleware σ) (now : time.Time)
    (next : http.Handler σ) (r : http.Request) (s : σ) (uid : String) (exp : Int)
    (tok : String)
    (hsign : lib.jwt_SignedString [("user_id", .string uid), ("exp", .number exp)]
      m.config.JWTSecret = .ok tok)
    (hexp : exp ≠ 0) (hnow : exp * time.Second < now) :
    handlers.authenticateToken lib m now next tok r s = (http.Error "Неверный токен" 401, s) := by
  obtain ⟨token, hpu, hm, _, hv, _⟩ := hjwt _ _ _ _ hsign
  have hval := hexpiry _ _ _ _ token hsign hpu hexp now hnow
  cases hx : lib.jwt_Validate token.Claims now with
  | none => exact absurd hx hval
  | some err =>
    simp [handlers.authenticateToken, jwt.Parse, hpu, handlers.keyFunc, hm,
      jwt.SigningMethod.isHMAC, hv, hx]

/-- C11. For every user id and signing secret: when the access token built as in
`LoginUser` and `RefreshToken` (HS256 over `user_id` and `exp`, with `exp` the
Unix seconds of the issuance instant plus 24 hours) is presented as
`Bearer` token to a gate holding the same secret, the gate passes the request
on with that user id in the context at every instant before the instant `exp`
names, and answers 401 without invoking the next handler at every instant
after it. The issuance instant is not before the Unix epoch. -/
theorem C11_token_accepted_until_expiry {σ : Type} (lib : Libs)
    (hjwt : lib.JWTRoundTrip) (hexpiry : lib.JWTExpiry) (hcompact : lib.JWTCompact)
    (huuid : lib.UUIDRoundTrip)
    (m : handlers.AuthMiddleware σ) (userID : uuid.UUID) (now gateNow : time.Time)
    (tok : String) (r : http.Request) (s : σ)
    (hclock : 0 ≤ now)
    (hsign : lib.jwt_SignedString (handlers.accessClaims lib userID now) m.config.JWTSecret
      = .ok tok)
    (hheader : r.Authorization = "Bearer " ++ tok) :
    (gateNow < time.Time.Unix (time.Time.Add now (time.Hour * 24)) * time.Second →
        ∀ next : http.Handler σ,
          handlers.Authenticate lib m gateNow next r s
              = next (r.WithContext (auth.ContextWithUser r.ctx userID)) s ∧
            handlers.GetUserIDFromRequest (r.WithContext (auth.ContextWithUser r.ctx userID))
              = (userID, true)) ∧
      (time.Time.Unix (time.Time.Add now (time.Hour * 24)) * time.Second < gateNow →
        ∀ next : http.Handler σ,
          handlers.Authenticate lib m gateNow next r s
            = (http.Error "Неверный токен" 401, s)) := by
  have hsp := hcompact _ _ _ hsign
  constructor
  · intro hbefore next
    rw [Authenticate_bearer lib m gateNow next r s tok hheader hsp]
    exact ⟨authenticateToken_signed lib hjwt huuid m gateNow next r s userID _ tok hsign hbefore,
      UserIDFromContext_ContextWithUser _ _⟩
  · intro hafter next
    rw [Authenticate_bearer lib m gateNow next r s tok hheader hsp]
    have hexp : time.Time.Unix (time.Time.Add now (time.Hour * 24)) ≠ 0 := by
      rw [Unix_add_day]
      have : 0 ≤ time.Time.Unix now := Int.ediv_nonneg hclock (by decide)
      omega
    exact authenticateToken_expired lib hjwt hexpiry m gateNow next r s _ _ tok hsign hexp hafter

theorem sample_sign_inv (claims : jwt.MapClaims) (key tok : String)
    (h : sample.libs.jwt_SignedString claims key = .ok tok) :
    tok = sample.encodeToken (sample.claimExp claims) key (sample.claimUid claims) := by
  simp only [sample.libs] at h
  split at h
  · exact Except.noConfusion h
  · cases h
    rfl

theorem sample_JWTExpiry : sample.libs.JWTExpiry := by
  intro uid exp key tok token hs hpu _ now hnow
  have htok := sample_sign_inv _ _ _ hs
  have hx : sample.claimExp [("user_id", .string uid), ("exp", .number exp)] = exp := by
    simp [sample.claimExp, jwt.MapClaims.get, List.lookup]
  rw [hx] at htok
  subst htok
  simp only [sample.libs, sample_encodeToken_ne_empty, if_false, Except.ok.injEq] at hpu
  subst hpu
  have hnot : ¬ now < exp * time.Second := not_lt.mpr (le_of_lt hnow)
  simp [sample.libs, jwt.MapClaims.get, List.lookup, sample_tokenExp, hnot]

/-- Witness of C11: the token issued to user 1 at instant zero passes the gate
one second later and is refused one second after its `exp` of 86400 s. -/
theorem C11_token_accepted_until_expiry_witness :
    (handlers.Authenticate sample.libs sample.gate 1000000000 sample.whoami
          { Authorization := "Bearer " ++ sample.encodeToken 86400 "secret" "u" } {}
        = sample.whoami
            (http.Request.WithContext
              { Authorization := "Bearer " ++ sample.encodeToken 86400 "secret" "u" }
              (auth.ContextWithUser [] 1)) {} ∧
      handlers.GetUserIDFromRequest
          (http.Request.WithContext
            { Authorization := "Bearer " ++ sample.encodeToken 86400 "secret" "u" }
            (auth.ContextWithUser [] 1))
        = (1, true)) ∧
      handlers.Authenticate sample.libs sample.gate 86401000000000 sample.whoami
          { Authorization := "Bearer " ++ sample.encodeToken 86400 "secret" "u" } {}
        = (http.Error "Неверный токен" 401, {}) :=
  ⟨(C11_token_accepted_until_expiry sample.libs sample_JWTRoundTrip sample_JWTExpiry
      sample_JWTCompact sample_UUIDRoundTrip sample.gate 1 0 1000000000
      (sample.encodeToken 86400 "secret" "u")
      { Authorization := "Bearer " ++ sample.encodeToken 86400 "secret" "u" } {}
      (by decide) (by rfl) rfl).1 (by decide) sample.whoami,
    (C11_token_accepted_until_expiry sample.libs sample_JWTRoundTrip sample_JWTExpiry
      sample_JWTCompact sample_UUIDRoundTrip sample.gate 1 0 86401000000000
      (sample.encodeToken 86400 "secret" "u")
      { Authorization := "Bearer " ++ sample.encodeToken 86400 "secret" "u" } {}
      (by decide) (by rfl) rfl).2 (by decide) sample.whoami⟩

/-! ## Tokens with another algorithm or another key -/

theorem stripZeros_append_zero (key : String) :
    sample.stripZeros (key ++ "\x00") = sample.stripZeros key := by
  have hz : ("\x00" : String).data = [Char.ofNat 0] := by decide
  simp [sample.stripZeros, String.data_append, hz]

theorem sample_libsPad_JWTRoundTrip : sample.libsPad.JWTRoundTrip := by
  intro uid exp key tok h
  exact sample_JWTRoundTrip uid exp (sample.stripZeros key) tok h

theorem sample_libsPad_HMACZeroPad : sample.libsPad.HMACZeroPad := by
  intro claims key _
  show sample.libs.jwt_SignedString claims (sample.stripZeros (key ++ "\x00"))
    = sample.libs.jwt_SignedString claims (sample.stripZeros key)
  rw [stripZeros_append_zero]

theorem append_zero_ne (key : String) : key ++ "\x00" ≠ key := by
  intro h
  have hlen := congrArg String.length h
  have h1 : ("\x00" : String).length = 1 := by decide
  rw [String.length_append, h1] at hlen
  omega

/-- C12, amended. For a request whose header is `Bearer` and a token: when the
token's header names a signing method outside the HMAC family (`none`
included), the gate's key function returns an error that is the same whatever
the secret and returns no key, and the gate answers 401 with "Неверный токен";
when the token's signature does not verify under the configured secret, the
gate answers the same 401. In both cases the outcome is the same for every next
handler, which is not invoked, so no user id is attached or passed on. A token
signed with another secret is not always such a token: HMAC pads a key shorter
than 64 bytes with zero bytes, so an unexpired token signed with the configured
secret followed by a zero byte passes the gate, which hands its user id on to
the next handler. -/
theorem C12_wrong_algorithm_or_key {σ : Type} (lib : Libs)
    (m : handlers.AuthMiddleware σ) (now : time.Time) (r : http.Request) (s : σ)
    (scheme tokenString : String)
    (hne : r.Authorization ≠ "")
    (hsplit : strings.Split r.Authorization ' ' = [scheme, tokenString])
    (hscheme : strings.ToLower scheme = "bearer") :
    (∀ token : jwt.Token, token.Method.isHMAC = false →
        handlers.keyFunc m token
            = .error (.errorf ("неверный алгоритм подписи: " ++ token.Method.Alg)) ∧
          ∀ m' : handlers.AuthMiddleware σ, handlers.keyFunc m' token = handlers.keyFunc m token) ∧
      (∀ token : jwt.Token, lib.jwt_ParseUnverified tokenString = .ok token →
        token.Method.isHMAC = false →
        ∀ next : http.Handler σ,
          handlers.Authenticate lib m now next r s = (http.Error "Неверный токен" 401, s)) ∧
      (∀ (token : jwt.Token) (err : GoError),
        lib.jwt_ParseUnverified tokenString = .ok token →
        lib.jwt_Verify token m.config.JWTSecret = some err →
        ∀ next : http.Handler σ,
          handlers.Authenticate lib m now next r s = (http.Error "Неверный токен" 401, s)) ∧
      (lib.JWTRoundTrip → lib.UUIDRoundTrip → lib.HMACZeroPad →
        ∀ (userID : uuid.UUID) (exp : Int),
          m.config.JWTSecret.utf8ByteSize < 64 →
          lib.jwt_SignedString
              [("user_id", .string (lib.uuid_String userID)), ("exp", .number exp)]
              (m.config.JWTSecret ++ "\x00") = .ok tokenString →
          now < exp * time.Second →
          m.config.JWTSecret ++ "\x00" ≠ m.config.JWTSecret ∧
            ∀ next : http.Handler σ,
              handlers.Authenticate lib m now next r s
                = next (r.WithContext (auth.ContextWithUser r.ctx userID)) s) := by
  have hkey : ∀ (m' : handlers.AuthMiddleware σ) (token : jwt.Token),
      token.Method.isHMAC = false →
      handlers.keyFunc m' token
        = .error (.errorf ("неверный алгоритм подписи: " ++ token.Method.Alg)) := by
    intro m' token hm
    simp [handlers.keyFunc, hm]
  refine ⟨fun token hm => ⟨hkey m token hm, fun m' => by rw [hkey m' token hm, hkey m token hm]⟩,
    ?_, ?_, ?_⟩
  · intro token hpu hm next
    rw [Authenticate_wellformed lib m now next r s scheme tokenString hne hsplit hscheme]
    simp [handlers.authenticateToken, jwt.Parse, hpu, hkey m token hm]
  · intro token err hpu hx next
    rw [Authenticate_wellformed lib m now next r s scheme tokenString hne hsplit hscheme]
    cases hm : token.Method.isHMAC with
    | false => simp [handlers.authenticateToken, jwt.Parse, hpu, hkey m token hm]
    | true => simp [handlers.authenticateToken, jwt.Parse, hpu, handlers.keyFunc, hm, hx]
  · intro hjwt huuid hpad userID exp hshort hsign hnow
    refine ⟨append_zero_ne _, ?_⟩
    intro next
    rw [hpad _ _ hshort] at hsign
    rw [Authenticate_wellformed lib m now next r s scheme tokenString hne hsplit hscheme]
    exact authenticateToken_signed lib hjwt huuid m now next r s userID exp tokenString hsign
      hnow

/-- Witness of C12: at a gate configured with the key "secret", a token whose
header says `none` and a token signed with the key "other" are answered 401; a
token signed with "secret" and a zero byte passes, with a signature that pads
keys as HMAC does. -/
theorem C12_wrong_algorithm_or_key_witness :
    handlers.Authenticate sample.libsNone sample.gate 0 sample.whoami
        { Authorization := "Bearer +.kkkkkk.secretu" } {}
        = (http.Error "Неверный токен" 401, {}) ∧
      handlers.Authenticate sample.libs sample.gate 0 sample.whoami
        { Authorization := "Bearer +.kkkkk.otheru" } {}
        = (http.Error "Неверный токен" 401, {}) ∧
      ("secret" ++ "\x00" ≠ "secret" ∧
        handlers.Authenticate sample.libsPad sample.gate 0 sample.whoami
          { Authorization := "Bearer +.kkkkkk.secretu" } {}
          = sample.whoami
              (http.Request.WithContext { Authorization := "Bearer +.kkkkkk.secretu" }
                (auth.ContextWithUser [] 1)) {}) :=
  ⟨(C12_wrong_algorithm_or_key sample.libsNone sample.gate 0
      { Authorization := "Bearer +.kkkkkk.secretu" } {} "Bearer" "+.kkkkkk.secretu"
      (by decide) (by decide) (by decide)).2.1
      { Raw := "+.kkkkkk.secretu", Method := .none,
        Claims := [("user_id", .string "u"), ("exp", .number 1)], Valid := false }
      (by rfl) (by rfl) sample.whoami,
    (C12_wrong_algorithm_or_key sample.libs sample.gate 0
      { Authorization := "Bearer +.kkkkk.otheru" } {} "Bearer" "+.kkkkk.otheru"
      (by decide) (by decide) (by decide)).2.2.1
      { Raw := "+.kkkkk.otheru", Method := .HS256,
        Claims := [("user_id", .string "u"), ("exp", .number 1)], Valid := false }
      (.errorf "signature is invalid") (by rfl) (by rfl) sample.whoami,
    ((C12_wrong_algorithm_or_key sample.libsPad sample.gate 0
      { Authorization := "Bearer +.kkkkkk.secretu" } {} "Bearer" "+.kkkkkk.secretu"
      (by decide) (by decide) (by decide)).2.2.2
      sample_libsPad_JWTRoundTrip sample_UUIDRoundTrip sample_libsPad_HMACZeroPad 1 1
      (by decide) (by rfl) (by decide)).1,
    ((C12_wrong_algorithm_or_key sample.libsPad sample.gate 0
      { Authorization := "Bearer +.kkkkkk.secretu" } {} "Bearer" "+.kkkkkk.secretu"
      (by decide) (by decide) (by decide)).2.2.2
      sample_libsPad_JWTRoundTrip sample_UUIDRoundTrip sample_libsPad_HMACZeroPad 1 1
      (by decide) (by rfl) (by decide)).2 sample.whoami⟩

/-- C12 as stated fails: with a signature that pads keys with zero bytes as
HMAC does, a token for user 1 signed with the secret "secret" followed by a
zero byte, which is not the configured secret "secret", is verified by the
gate; the next handler runs and reads user id 1 from the context. -/
theorem C12_counterexample :
    "secret\x00" ≠ sample.gate.config.JWTSecret ∧
      sample.libsPad.jwt_SignedString
          [("user_id", .string (sample.libsPad.uuid_String 1)), ("exp", .number 1)] "secret\x00"
        = .ok "+.kkkkkk.secretu" ∧
      handlers.Authenticate sample.libsPad sample.gate 0 sample.whoami
          { Authorization := "Bearer +.kkkkkk.secretu" } {}
        = sample.whoami
            (http.Request.WithContext { Authorization := "Bearer +.kkkkkk.secretu" }
              (auth.ContextWithUser [] 1)) {} ∧
      (handlers.Authenticate sample.libsPad sample.gate 0 sample.whoami
          { Authorization := "Bearer +.kkkkkk.secretu" } {}).1.status = some 200 :=
  ⟨by decide, by rfl, by decide, by decide⟩

/-! ## Correctness of the regular-expression matcher -/

open regexp in
theorem nullable_iff (r : Regexp) : r.nullable = true ↔ r.Matches [] := by
  induction r with
  | fail => simp [Regexp.nullable, Regexp.Matches]
  | eps => simp [Regexp.nullable, Regexp.Matches]
  | cls ranges => simp [Regexp.nullable, Regexp.Matches]
  | seq a b iha ihb =>
    simp only [Regexp.nullable, Regexp.Matches, Bool.and_eq_true, iha, ihb]
    constructor
    · rintro ⟨ha, hb⟩
      exact ⟨[], [], rfl, ha, hb⟩
    · rintro ⟨u, v, huv, ha, hb⟩
      have h := List.append_eq_nil.mp huv.symm
      rw [h.1] at ha
      rw [h.2] at hb
      exact ⟨ha, hb⟩
  | alt a b iha ihb => simp [Regexp.nullable, Regexp.Matches, iha, ihb]
  | star a _ =>
    simp only [Regexp.nullable, Regexp.Matches, true_iff]
    exact ⟨[], rfl, fun u hu => by cases hu⟩

open regexp in
theorem deriv_iff (r : Regexp) (c : Char) (s : List Char) :
    (r.deriv c).Matches s ↔ r.Matches (c :: s) := by
  induction r generalizing s with
  | fail => simp [Regexp.deriv, Regexp.Matches]
  | eps => simp [Regexp.deriv, Regexp.Matches]
  | cls ranges =>
    by_cases hc : Regexp.inClass ranges c = true
    · simp only [Regexp.deriv, hc, if_true, Regexp.Matches]
      constructor
      · intro hs
        exact ⟨c, by rw [hs], hc⟩
      · rintro ⟨c', hs, _⟩
        simp only [List.cons.injEq] at hs
        exact hs.2
    · simp only [Regexp.deriv, hc, Regexp.Matches, false_iff]
      rintro ⟨c', hs, hc'⟩
      simp only [List.cons.injEq] at hs
      rw [← hs.1] at hc'
      exact hc hc'
  | seq a b iha ihb =>
    have hmain : (∃ u v, s = u ++ v ∧ (a.deriv c).Matches u ∧ b.Matches v) ∨
        (a.Matches [] ∧ b.Matches (c :: s)) ↔
        ∃ u v, c :: s = u ++ v ∧ a.Matches u ∧ b.Matches v := by
      constructor
      · rintro (⟨u, v, hs, ha, hb⟩ | ⟨ha, hb⟩)
        · exact ⟨c :: u, v, by rw [hs]; rfl, (iha u).mp ha, hb⟩
        · exact ⟨[], c :: s, rfl, ha, hb⟩
      · rintro ⟨u, v, hs, ha, hb⟩
        cases u with
        | nil =>
          right
          rw [List.nil_append] at hs
          rw [hs]
          exact ⟨ha, hb⟩
        | cons x u =>
          left
          rw [List.cons_append, List.cons.injEq] at hs
          rw [← hs.1] at ha
          exact ⟨u, v, hs.2, (iha u).mpr ha, hb⟩
    by_cases hn : a.nullable = true
    · have hnull := (nullable_iff a).mp hn
      simp only [Regexp.deriv, hn, if_true, Regexp.Matches]
      rw [← hmain, ihb, and_iff_right hnull]
    · have hnull : ¬ a.Matches [] := fun h => hn ((nullable_iff a).mpr h)
      simp only [Regexp.deriv, hn, Bool.false_eq_true, if_false, Regexp.Matches]
      rw [← hmain]
      simp only [hnull, false_and, or_false]
  | alt a b iha ihb => simp [Regexp.deriv, Regexp.Matches, iha, ihb]
  | star a iha =>
    simp only [Regexp.deriv, Regexp.Matches]
    constructor
    · rintro ⟨u, v, hs, ha, pieces, hv, hp⟩
      refine ⟨(c :: u) :: pieces, ?_, ?_⟩
      · rw [hs, hv]
        rfl
      · intro w hw
        rcases List.mem_cons.mp hw with h | h
        · rw [h]
          exact ⟨List.cons_ne_nil _ _, (iha u).mp ha⟩
        · exact hp w h
    · rintro ⟨pieces, hs, hp⟩
      cases pieces with
      | nil => cases hs
      | cons w rest =>
        obtain ⟨hw, ha⟩ := hp w (List.mem_cons_self _ _)
        cases w with
        | nil => exact absurd rfl hw
        | cons x w =>
          rw [List.flatten_cons, List.cons_append, List.cons.injEq] at hs
          rw [← hs.1] at ha
          exact ⟨w, rest.flatten, hs.2, (iha w).mpr ha, rest, rfl,
            fun u hu => hp u (List.mem_cons_of_mem _ hu)⟩

open regexp in
theorem matchRunes_iff (r : Regexp) (s : List Char) : r.matchRunes s = true ↔ r.Matches s := by
  induction s generalizing r with
  | nil => exact nullable_iff r
  | cons c cs ih =>
    rw [Regexp.matchRunes, ih, deriv_iff]

open regexp in
theorem star_cls_iff (ranges : List (Char × Char)) (w : List Char) :
    (Regexp.star (Regexp.cls ranges)).Matches w ↔ ∀ c ∈ w, Regexp.inClass ranges c = true := by
  simp only [Regexp.Matches]
  constructor
  · rintro ⟨pieces, hw, hp⟩
    subst hw
    induction pieces with
    | nil => intro c hc; cases hc
    | cons p rest ih =>
      obtain ⟨_, c', hc', hin⟩ := hp p (List.mem_cons_self _ _)
      subst hc'
      intro c hc
      rw [List.flatten_cons, List.singleton_append] at hc
      rcases List.mem_cons.mp hc with h | h
      · rw [h]; exact hin
      · exact ih (fun u hu => hp u (List.mem_cons_of_mem _ hu)) c h
  · intro hall
    induction w with
    | nil => exact ⟨[], rfl, fun u hu => by cases hu⟩
    | cons c cs ih =>
      obtain ⟨pieces, hcs, hp⟩ := ih (fun x hx => hall x (List.mem_cons_of_mem _ hx))
      refine ⟨[c] :: pieces, by rw [hcs]; rfl, ?_⟩
      intro u hu
      rcases List.mem_cons.mp hu with h | h
      · rw [h]
        exact ⟨List.cons_ne_nil _ _, c, rfl, hall c (List.mem_cons_self _ _)⟩
      · exact hp u h

open regexp in
theorem plus_cls_iff (ranges : List (Char × Char)) (w : List Char) :
    (Regexp.plus (Regexp.cls ranges)).Matches w ↔
      w ≠ [] ∧ ∀ c ∈ w, Regexp.inClass ranges c = true := by
  unfold Regexp.plus
  rw [Regexp.Matches]
  constructor
  · rintro ⟨u, v, hw, ⟨c, hu, hc⟩, hv⟩
    subst hw hu
    refine ⟨List.cons_ne_nil _ _, ?_⟩
    intro x hx
    rcases List.mem_cons.mp hx with h | h
    · rw [h]; exact hc
    · exact (star_cls_iff ranges v).mp hv x h
  · rintro ⟨hne, hall⟩
    cases w with
    | nil => exact absurd rfl hne
    | cons c cs =>
      exact ⟨[c], cs, rfl, ⟨c, rfl, hall c (List.mem_cons_self _ _)⟩,
        (star_cls_iff ranges cs).mpr (fun x hx => hall x (List.mem_cons_of_mem _ hx))⟩

open regexp in
theorem atLeastTwo_cls_iff (ranges : List (Char × Char)) (w : List Char) :
    (Regexp.atLeastTwo (Regexp.cls ranges)).Matches w ↔
      2 ≤ w.length ∧ ∀ c ∈ w, Regexp.inClass ranges c = true := by
  unfold Regexp.atLeastTwo
  rw [Regexp.Matches]
  constructor
  · rintro ⟨u, v, hw, ⟨c, hu, hc⟩, hv⟩
    obtain ⟨hne, hall⟩ := (plus_cls_iff ranges v).mp hv
    subst hw hu
    refine ⟨?_, ?_⟩
    · have := List.length_pos.mpr hne
      simp only [List.singleton_append, List.length_cons]
      omega
    · intro x hx
      rcases List.mem_cons.mp hx with h | h
      · rw [h]; exact hc
      · exact hall x h
  · rintro ⟨hlen, hall⟩
    cases w with
    | nil => simp at hlen
    | cons c cs =>
      refine ⟨[c], cs, rfl, ⟨c, rfl, hall c (List.mem_cons_self _ _)⟩,
        (plus_cls_iff ranges cs).mpr ⟨?_, fun x hx => hall x (List.mem_cons_of_mem _ hx)⟩⟩
      intro h
      rw [h] at hlen
      simp at hlen

open regexp in
theorem lit_iff (c : Char) (w : List Char) : (Regexp.lit c).Matches w ↔ w = [c] := by
  unfold Regexp.lit
  rw [Regexp.Matches]
  constructor
  · rintro ⟨c', hw, hc⟩
    simp only [Regexp.inClass, List.any_cons, List.any_nil, Bool.or_false, Bool.and_eq_true,
      decide_eq_true_eq] at hc
    rw [hw, le_antisymm hc.2 hc.1]
  · intro hw
    exact ⟨c, hw, by simp [Regexp.inClass]⟩

open regexp in
theorem seq_iff (a b : Regexp) (s : List Char) :
    (Regexp.seq a b).Matches s ↔ ∃ u v, s = u ++ v ∧ a.Matches u ∧ b.Matches v := by
  rw [Regexp.Matches]

theorem emailRegex_matches_iff (s : List Char) :
    service.emailRegex.Matches s ↔
      ∃ l d t : List Char, s = l ++ '@' :: (d ++ '.' :: t) ∧
        (l ≠ [] ∧ ∀ c ∈ l, regexp.Regexp.inClass
          [('a', 'z'), ('A', 'Z'), ('0', '9'), ('.', '.'), ('_', '_'), ('%', '%'), ('+', '+'),
            ('-', '-')] c = true) ∧
        (d ≠ [] ∧ ∀ c ∈ d, regexp.Regexp.inClass
          [('a', 'z'), ('A', 'Z'), ('0', '9'), ('.', '.'), ('-', '-')] c = true) ∧
        (2 ≤ t.length ∧ ∀ c ∈ t, regexp.Regexp.inClass [('a', 'z'), ('A', 'Z')] c = true) := by
  unfold service.emailRegex
  simp only [seq_iff, plus_cls_iff, atLeastTwo_cls_iff, lit_iff]
  constructor
  · rintro ⟨l, r1, hs, hl, a, r2, hr1, ha, d, r3, hr2, hd, dot, t, hr3, hdot, ht⟩
    subst hs hr1 ha hr2 hr3 hdot
    exact ⟨l, d, t, rfl, hl, hd, ht⟩
  · rintro ⟨l, d, t, hs, hl, hd, ht⟩
    exact ⟨l, '@' :: (d ++ '.' :: t), hs, hl, ['@'], d ++ '.' :: t, rfl, rfl, d, '.' :: t, rfl,
      hd, ['.'], t, rfl, rfl, ht⟩

theorem inClass_cons (lo hi : Char) (ranges : List (Char × Char)) (c : Char) :
    regexp.Regexp.inClass ((lo, hi) :: ranges) c = true ↔
      (lo ≤ c ∧ c ≤ hi) ∨ regexp.Regexp.inClass ranges c = true := by
  simp only [regexp.Regexp.inClass, List.any_cons, Bool.or_eq_true, Bool.and_eq_true,
    decide_eq_true_eq]

theorem inClass_nil (c : Char) : regexp.Regexp.inClass [] c = true ↔ False := by
  simp [regexp.Regexp.inClass]

theorem single_range (x c : Char) : (x ≤ c ∧ c ≤ x) ↔ c = x :=
  ⟨fun h => le_antisymm h.2 h.1, fun h => by rw [h]; exact ⟨le_refl _, le_refl _⟩⟩

theorem localClass_iff (c : Char) :
    regexp.Regexp.inClass
        [('a', 'z'), ('A', 'Z'), ('0', '9'), ('.', '.'), ('_', '_'), ('%', '%'), ('+', '+'),
          ('-', '-')] c = true ↔ spec.localRune c := by
  simp only [inClass_cons, inClass_nil, single_range, spec.localRune, spec.alphanumeric,
    or_false, or_assoc]

theorem domainClass_iff (c : Char) :
    regexp.Regexp.inClass [('a', 'z'), ('A', 'Z'), ('0', '9'), ('.', '.'), ('-', '-')] c = true
      ↔ spec.domainRune c := by
  simp only [inClass_cons, inClass_nil, single_range, spec.domainRune, spec.alphanumeric,
    or_false, or_assoc]

theorem letterClass_iff (c : Char) :
    regexp.Regexp.inClass [('a', 'z'), ('A', 'Z')] c = true ↔ spec.asciiLetter c := by
  simp only [inClass_cons, inClass_nil, spec.asciiLetter, or_false]

theorem emailRegex_iff_shape (email : String) :
    service.emailRegex.MatchString email = true ↔ spec.emailShape email := by
  rw [regexp.Regexp.MatchString, matchRunes_iff, emailRegex_matches_iff]
  simp only [localClass_iff, domainClass_iff, letterClass_iff, spec.emailShape]
  constructor
  · rintro ⟨l, d, t, hs, ⟨hl, hlc⟩, ⟨hd, hdc⟩, ht⟩
    refine ⟨String.mk l, String.mk d, String.mk t, ?_, ?_, hlc, ?_, hdc, ht⟩
    · apply String.ext
      simp [String.data_append, hs]
    · intro h
      exact hl (congrArg String.data h)
    · intro h
      exact hd (congrArg String.data h)
  · rintro ⟨l, d, t, hs, hl, hlc, hd, hdc, ht⟩
    refine ⟨l.data, d.data, t.data, ?_, ⟨?_, hlc⟩, ⟨?_, hdc⟩, ht⟩
    · rw [hs]
      simp [String.data_append]
    · intro h
      exact hl (String.ext h)
    · intro h
      exact hd (String.ext h)

theorem CreateUser_bad_email {σ : Type} (lib : Libs) (userRepo : repository.UserRepository σ)
    (newID : uuid.UUID) (salt username email password : String) (s : σ)
    (hu : username ≠ "") (he : email ≠ "") (hp : password ≠ "")
    (hbad : service.emailRegex.MatchString email = false) :
    service.CreateUser lib userRepo newID salt username email password s
      = ((none, some (.errorf "неверный формат email")), s) := by
  simp [service.CreateUser, hu, he, hp, hbad]

theorem CreateUser_good_email {σ : Type} (lib : Libs) (userRepo : repository.UserRepository σ)
    (newID : uuid.UUID) (salt username email password : String) (s : σ)
    (hu : username ≠ "") (hp : password ≠ "")
    (hgood : service.emailRegex.MatchString email = true) :
    (service.CreateUser lib userRepo newID salt username email password s).1
      ≠ (none, some (.errorf "неверный формат email")) := by
  have he := email_ne_empty hgood
  rcases hq : userRepo.GetByEmail email s with ⟨⟨u, e⟩, s1⟩
  by_cases hdup : e = none ∧ u ≠ none
  · simp [service.CreateUser, hu, he, hp, hgood, hq, hdup]
  · cases hg : lib.bcrypt_GenerateFromPassword salt password with
    | error err =>
      simp [service.CreateUser, hu, he, hp, hgood, hq, hdup, domain.User.HashPassword, hg]
    | ok hash =>
      rcases hc : userRepo.Create ⟨newID, username, email, hash⟩ s1 with ⟨ce, s2⟩
      cases ce <;>
        simp [service.CreateUser, hu, he, hp, hgood, hq, hdup, domain.User.HashPassword, hg, hc]

theorem class_not_at (ranges : List (Char × Char)) (x : Char)
    (hx : regexp.Regexp.inClass ranges x = false) (l : List Char)
    (hl : ∀ c ∈ l, regexp.Regexp.inClass ranges c = true) : x ∉ l := by
  intro hmem
  have := hl x hmem
  rw [hx] at this
  exact Bool.noConfusion this

theorem class_not_whitespace (ranges : List (Char × Char))
    (h1 : regexp.Regexp.inClass ranges ' ' = false)
    (h2 : regexp.Regexp.inClass ranges '\t' = false)
    (h3 : regexp.Regexp.inClass ranges '\r' = false)
    (h4 : regexp.Regexp.inClass ranges '\n' = false) (c : Char)
    (hc : regexp.Regexp.inClass ranges c = true) : c.isWhitespace = false := by
  cases hw : c.isWhitespace with
  | false => rfl
  | true =>
    simp only [Char.isWhitespace, Bool.or_eq_true, decide_eq_true_eq] at hw
    rcases hw with ((hw | hw) | hw) | hw <;> rw [hw] at hc <;> simp_all

theorem emailShape_runes (email : String) (h : service.emailRegex.MatchString email = true) :
    email.data.count '@' = 1 ∧ ∀ c ∈ email.data, c.isWhitespace = false := by
  rw [regexp.Regexp.MatchString, matchRunes_iff, emailRegex_matches_iff] at h
  obtain ⟨l, d, t, hs, ⟨_, hl⟩, ⟨_, hd⟩, ⟨_, ht⟩⟩ := h
  rw [hs]
  constructor
  · have h1 := List.count_eq_zero.mpr (class_not_at _ '@' (by decide) l hl)
    have h2 := List.count_eq_zero.mpr (class_not_at _ '@' (by decide) d hd)
    have h3 := List.count_eq_zero.mpr (class_not_at _ '@' (by decide) t ht)
    simp only [List.count_append, List.count_cons, h1, h2, h3]
    decide
  · intro c hc
    simp only [List.mem_append, List.mem_cons] at hc
    rcases hc with h | h | h | h | h
    · exact class_not_whitespace _ (by decide) (by decide) (by decide) (by decide) c (hl c h)
    · rw [h]; decide
    · exact class_not_whitespace _ (by decide) (by decide) (by decide) (by decide) c (hd c h)
    · rw [h]; decide
    · exact class_not_whitespace _ (by decide) (by decide) (by decide) (by decide) c (ht c h)

/-- C16. For every non-empty username, email and password, `CreateUser` passes
the email-format check if and only if the email is a local part, "@", a
domain, "." and a top-level part, where the local part is a non-empty string
over `[a-zA-Z0-9._%+-]`, the domain a non-empty string over `[a-zA-Z0-9.-]` and
the top-level part at least two ASCII letters; every such email contains
exactly one "@" and no whitespace, hence no trailing newline. For any other
email `CreateUser` returns a nil user and the error "неверный формат email",
and the repository receives no call. -/
theorem C16_email_format {σ : Type} (lib : Libs) (repo : repository.UserRepository σ)
    (newID : uuid.UUID) (salt username email password : String) (s : σ)
    (log : List repository.Call)
    (hu : username ≠ "") (he : email ≠ "") (hp : password ≠ "") :
    (service.emailRegex.MatchString email = true ↔ spec.emailShape email) ∧
      ((service.CreateUser lib repo.recording newID salt username email password (s, log)).1
          ≠ (none, some (.errorf "неверный формат email")) ↔ spec.emailShape email) ∧
      (¬ spec.emailShape email →
        service.CreateUser lib repo.recording newID salt username email password (s, log)
          = ((none, some (.errorf "неверный формат email")), (s, log))) ∧
      (spec.emailShape email →
        email.data.count '@' = 1 ∧ ∀ c ∈ email.data, c.isWhitespace = false) := by
  have hbad : ¬ spec.emailShape email →
      service.CreateUser lib repo.recording newID salt username email password (s, log)
        = ((none, some (.errorf "неверный формат email")), (s, log)) := by
    intro hshape
    apply CreateUser_bad_email lib _ newID salt username email password _ hu he hp
    cases hm : service.emailRegex.MatchString email with
    | false => rfl
    | true => exact absurd ((emailRegex_iff_shape email).mp hm) hshape
  refine ⟨emailRegex_iff_shape email, ⟨?_, ?_⟩, hbad, ?_⟩
  · intro hpass
    by_contra hshape
    exact hpass (by rw [hbad hshape])
  · intro hshape
    exact CreateUser_good_email lib _ newID salt username email password _ hu hp
      ((emailRegex_iff_shape email).mpr hshape)
  · intro hshape
    exact emailShape_runes email ((emailRegex_iff_shape email).mpr hshape)

/-- Witness of C16: the email of `TestCreateUser_InvalidEmail` has no "@". -/
theorem C16_email_format_witness :
    service.CreateUser sample.libs postgres.UserRepository.recording 1 "salt" "testuser"
        "invalid-email" "password" ({}, [])
      = ((none, some (.errorf "неверный формат email")), ({}, [])) :=
  (C16_email_format sample.libs postgres.UserRepository 1 "salt" "testuser" "invalid-email"
    "password" {} [] (by decide) (by decide) (by decide)).2.2.1
    (fun h => absurd ((emailRegex_iff_shape "invalid-email").mpr h) (by decide))

/-! ## Successful registration -/

theorem sample_BcryptHashForm : sample.libs.BcryptHashForm := by
  intro salt password hash h
  simp only [sample.libs, Except.ok.injEq] at h
  subst h
  constructor
  · intro e
    have := congrArg String.data e
    simp [String.data_append] at this
  · intro e
    have := congrArg (fun x => x.data.length) e
    simp [String.data_append] at this

/-- C17, amended. For every non-empty username and password and format-valid
email, when the email lookup finds no user, the hashing of the password
succeeds and the repository's `Create` succeeds, `CreateUser` returns a nil
error and the user made of the generated ID, the given username and email and
the hash; the hash is not empty, is not the plaintext, and `ComparePassword`
accepts the password against it; the repository receives the lookup and then
`Create` exactly once, with that same user. -/
theorem C17_CreateUser_success {σ : Type} (lib : Libs) (hbcrypt : lib.BcryptRoundTrip)
    (hform : lib.BcryptHashForm) (repo : repository.UserRepository σ) (newID : uuid.UUID)
    (salt username email password hash : String) (s : σ) (log : List repository.Call)
    (hu : username ≠ "") (hp : password ≠ "")
    (he : service.emailRegex.MatchString email = true)
    (hfree : (repo.GetByEmail email s).1.1 = none)
    (hhash : lib.bcrypt_GenerateFromPassword salt password = .ok hash)
    (hcreate : (repo.Create ⟨newID, username, email, hash⟩ (repo.GetByEmail email s).2).1
      = none) :
    service.CreateUser lib repo.recording newID salt username email password (s, log)
        = ((some ⟨newID, username, email, hash⟩, none),
            ((repo.Create ⟨newID, username, email, hash⟩ (repo.GetByEmail email s).2).2,
              log ++ [.user (.GetByEmail email)]
                ++ [.user (.Create ⟨newID, username, email, hash⟩)])) ∧
      hash ≠ "" ∧ hash ≠ password ∧
      domain.User.ComparePassword lib ⟨newID, username, email, hash⟩ password = none := by
  have hne := email_ne_empty he
  refine ⟨?_, (hform salt password hash hhash).1, (hform salt password hash hhash).2,
    hbcrypt salt password hash hhash⟩
  rcases hq : repo.GetByEmail email s with ⟨⟨u, e⟩, s1⟩
  rw [hq] at hfree hcreate
  simp only at hfree hcreate
  subst hfree
  rcases hc : repo.Create ⟨newID, username, email, hash⟩ s1 with ⟨ce, s2⟩
  rw [hc] at hcreate
  simp only at hcreate
  subst hcreate
  simp [service.CreateUser, hu, hp, hne, he, repository.UserRepository.recording, hq,
    domain.User.HashPassword, hhash, hc]

/-- Witness of C17: the case of `TestCreateUser` on an empty PostgreSQL table. -/
theorem C17_CreateUser_success_witness :
    service.CreateUser sample.libs postgres.UserRepository.recording 1 "salt" "testuser"
        "test@example.com" "password" ({}, [])
        = ((some ⟨1, "testuser", "test@example.com", "$password"⟩, none),
            ((postgres.UserRepository.Create ⟨1, "testuser", "test@example.com", "$password"⟩
                (postgres.UserRepository.GetByEmail "test@example.com" {}).2).2,
              [] ++ [.user (.GetByEmail "test@example.com")]
                ++ [.user (.Create ⟨1, "testuser", "test@example.com", "$password"⟩)])) ∧
      "$password" ≠ "" ∧ "$password" ≠ "password" ∧
      domain.User.ComparePassword sample.libs ⟨1, "testuser", "test@example.com", "$password"⟩
        "password" = none :=
  C17_CreateUser_success sample.libs sample_BcryptRoundTrip sample_BcryptHashForm
    postgres.UserRepository 1 "salt" "testuser" "test@example.com" "password" "$password" {} []
    (by decide) (by decide) (by decide) (by decide) (by rfl) (by decide)

/-- Counterexample to C17 as first stated: a valid registration whose password
has 73 bytes, with a password hash that refuses more than 72 bytes; the lookup
finds no user and `Create` would succeed, but `CreateUser` returns the hashing
error and `Create` is not called. -/
theorem C17_counterexample :
    "testuser" ≠ "" ∧
      service.emailRegex.MatchString "test@example.com" = true ∧
      (postgres.UserRepository.GetByEmail "test@example.com" {}).1.1 = none ∧
      service.CreateUser sample.libsLimit postgres.UserRepository.recording 1 "salt" "testuser"
        "test@example.com"
        "aaaaaaaaaaaaaaaaaaaaaaaaaaaaaaaaaaaaaaaaaaaaaaaaaaaaaaaaaaaaaaaaaaaaaaaaa" ({}, [])
        = ((none, some (.wrapf "ошибка при хешировании пароля"
              (.errorf "bcrypt: password length exceeds 72 bytes"))),
            ({}, [.user (.GetByEmail "test@example.com")])) := by
  decide

/-! ## Uniqueness of emails in the user table -/

theorem UserRepositoryOn_no_fault :
    postgres.UserRepositoryOn (fun _ _ => none) = postgres.UserRepository := rfl

theorem postgres_CreateUser_store (lib : Libs)
    (fault : postgres.DB → repository.UserCall → Option GoError) (db : postgres.DB)
    (newID : uuid.UUID) (salt username email password : String)
    (hlookup : fault db (.GetByEmail email) = none) :
    (service.CreateUser lib (postgres.UserRepositoryOn fault) newID salt username email password
        db).2 = db ∨
      ∃ hash : String, (∀ u ∈ db.users, u.Email ≠ email) ∧
        (service.CreateUser lib (postgres.UserRepositoryOn fault) newID salt username email
            password db).2
          = { db with users := db.users ++ [⟨newID, username, email, hash⟩] } := by
  by_cases hempty : username = "" ∨ email = "" ∨ password = ""
  · left
    simp [service.CreateUser, hempty]
  · cases hm : service.emailRegex.MatchString email with
    | false =>
      left
      simp [service.CreateUser, hempty, hm]
    | true =>
      cases hf : db.users.find? (fun u => decide (u.Email = email)) with
      | some existing =>
        left
        simp [service.CreateUser, hempty, hm, postgres.UserRepositoryOn, hlookup,
          postgres.UserRepository, hf]
      | none =>
        cases hg : lib.bcrypt_GenerateFromPassword salt password with
        | error err =>
          left
          simp [service.CreateUser, hempty, hm, postgres.UserRepositoryOn, hlookup,
            postgres.UserRepository, hf, domain.User.HashPassword, hg]
        | ok hash =>
          cases hc : fault db (.Create ⟨newID, username, email, hash⟩) with
          | some err =>
            left
            simp [service.CreateUser, hempty, hm, postgres.UserRepositoryOn, hlookup,
              postgres.UserRepository, hf, domain.User.HashPassword, hg, hc]
          | none =>
            right
            refine ⟨hash, ?_, ?_⟩
            · intro u hu heq
              have := List.find?_eq_none.mp hf u hu
              simp [heq] at this
            · simp [service.CreateUser, hempty, hm, postgres.UserRepositoryOn, hlookup,
                postgres.UserRepository, hf, domain.User.HashPassword, hg, hc]

theorem UserOp_run_unique (lib : Libs)
    (fault : postgres.DB → repository.UserCall → Option GoError) (db : postgres.DB)
    (op : postgres.UserOp) (hop : op.isUpdate = false)
    (hlookup : ∀ (d : postgres.DB) (email : String), fault d (.GetByEmail email) = none)
    (hdb : (db.users.map fun u => u.Email).Nodup) :
    ((postgres.UserOp.run lib fault db op).users.map fun u => u.Email).Nodup := by
  cases op with
  | CreateUser newID salt username email password =>
    simp only [postgres.UserOp.run]
    rcases postgres_CreateUser_store lib fault db newID salt username email password
      (hlookup db email) with h | ⟨hash, hfree, h⟩
    · rw [h]
      exact hdb
    · rw [h]
      simp only [List.map_append, List.map_cons, List.map_nil]
      refine List.Nodup.append hdb (List.nodup_singleton _) ?_
      intro x hx hx'
      rw [List.mem_singleton] at hx'
      obtain ⟨u, hu, hue⟩ := List.mem_map.mp hx
      exact hfree u hu (hue.trans hx')
  | UpdateUser id username email => simp [postgres.UserOp.isUpdate] at hop
  | DeleteUser id =>
    simp only [postgres.UserOp.run, service.DeleteUser, postgres.UserRepositoryOn]
    cases fault db (.Delete id) with
    | some err => exact hdb
    | none =>
      simp only [postgres.UserRepository]
      exact hdb.sublist (List.Sublist.map _ (List.filter_sublist _))

theorem runUserOps_unique (lib : Libs)
    (fault : postgres.DB → repository.UserCall → Option GoError)
    (ops : List postgres.UserOp) (db : postgres.DB)
    (hops : ∀ op ∈ ops, op.isUpdate = false)
    (hlookup : ∀ (d : postgres.DB) (email : String), fault d (.GetByEmail email) = none)
    (hdb : (db.users.map fun u => u.Email).Nodup) :
    ((postgres.runUserOps lib fault ops db).users.map fun u => u.Email).Nodup := by
  induction ops generalizing db with
  | nil => exact hdb
  | cons op rest ih =>
    simp only [postgres.runUserOps, List.foldl_cons]
    exact ih _ (fun o ho => hops o (List.mem_cons_of_mem _ ho))
      (UserOp_run_unique lib fault db op (hops op (List.mem_cons_self _ _)) hlookup hdb)

/-- C18, amended. In the sequential PostgreSQL store model (a `users` table
without constraints) starting from an empty table, after every sequence of
`CreateUser` and `DeleteUser` calls in which no `GetByEmail` statement fails at
the driver, no two stored users have the same email; the `INSERT` and `DELETE`
statements may fail at any call. (`UpdateUser` writes the email it is given
without looking for another user that has it, and `CreateUser` stores the user
when its lookup fails.) -/
theorem C18_email_unique_without_update (lib : Libs)
    (fault : postgres.DB → repository.UserCall → Option GoError)
    (ops : List postgres.UserOp)
    (hops : ∀ op ∈ ops, op.isUpdate = false)
    (hlookup : ∀ (d : postgres.DB) (email : String), fault d (.GetByEmail email) = none) :
    ((postgres.runUserOps lib fault ops {}).users.map fun u => u.Email).Nodup :=
  runUserOps_unique lib fault ops {} hops hlookup List.nodup_nil

/-- Witness of C18: two registrations with one email and a deletion on a
connection that does not fail; and the same registrations on a connection
whose `DELETE` statements fail. -/
theorem C18_email_unique_without_update_witness :
    ((postgres.runUserOps sample.libs (fun _ _ => none)
        [.CreateUser 1 "salt" "alice" "a@x.io" "pw", .CreateUser 2 "salt" "bob" "a@x.io" "pw",
          .DeleteUser 7] {}).users.map fun u => u.Email).Nodup ∧
      ((postgres.runUserOps sample.libs
        (fun _ call => if call = .Delete 1 then some sample.storageError else none)
        [.CreateUser 1 "salt" "alice" "a@x.io" "pw", .DeleteUser 1,
          .CreateUser 2 "salt" "bob" "a@x.io" "pw"] {}).users.map fun u => u.Email).Nodup :=
  ⟨C18_email_unique_without_update sample.libs (fun _ _ => none)
      [.CreateUser 1 "salt" "alice" "a@x.io" "pw", .CreateUser 2 "salt" "bob" "a@x.io" "pw",
        .DeleteUser 7] (by decide) (fun _ _ => rfl),
    C18_email_unique_without_update sample.libs
      (fun _ call => if call = .Delete 1 then some sample.storageError else none)
      [.CreateUser 1 "salt" "alice" "a@x.io" "pw", .DeleteUser 1,
        .CreateUser 2 "salt" "bob" "a@x.io" "pw"] (by decide) (fun _ _ => rfl)⟩

/-- Counterexample to C18 as first stated, on a connection that does not fail:
alice and bob register with two emails, then `UpdateUser` gives bob the email
of alice; the table holds two users with the email "a@x.io". The same happens
without `UpdateUser` when the lookup of the second registration fails at the
driver: `CreateUser` discards the error and stores bob under the email of
alice. -/
theorem C18_counterexample :
    (postgres.runUserOps sample.libs (fun _ _ => none)
        [.CreateUser 1 "salt" "alice" "a@x.io" "pw", .CreateUser 2 "salt" "bob" "b@x.io" "pw",
          .UpdateUser 2 "bob" "a@x.io"] {}).users
        = [⟨1, "alice", "a@x.io", "$pw"⟩, ⟨2, "bob", "a@x.io", "$pw"⟩] ∧
      ¬ ((postgres.runUserOps sample.libs (fun _ _ => none)
        [.CreateUser 1 "salt" "alice" "a@x.io" "pw", .CreateUser 2 "salt" "bob" "b@x.io" "pw",
          .UpdateUser 2 "bob" "a@x.io"] {}).users.map fun u => u.Email).Nodup ∧
      (postgres.runUserOps sample.libs
        (fun db call =>
          if db.users ≠ [] ∧ call = .GetByEmail "a@x.io" then some sample.storageError else none)
        [.CreateUser 1 "salt" "alice" "a@x.io" "pw", .CreateUser 2 "salt" "bob" "a@x.io" "pw"]
        {}).users
        = [⟨1, "alice", "a@x.io", "$pw"⟩, ⟨2, "bob", "a@x.io", "$pw"⟩] := by
  decide

/-! ## The owner of a created task or label -/

theorem CreateTask_ok_inv {σ : Type} (taskRepo : repository.TaskRepository σ)
    (newID : uuid.UUID) (title description : String) (dueDate : time.Time)
    (userID : uuid.UUID) (s s' : σ) (created : domain.Task)
    (h : service.CreateTask taskRepo newID title description dueDate userID s
      = ((some created, none), s')) :
    created = { ID := newID, Title := title, Description := description, DueDate := dueDate,
                UserID := userID } := by
  unfold service.CreateTask at h
  split at h
  · cases h
  · split at h
    · cases h
    · dsimp only at h
      split at h
      · cases h
      · simp only [Prod.mk.injEq, Option.some.injEq, and_true] at h
        exact h.1.symm

theorem CreateLabel_ok_inv {σ : Type} (labelRepo : repository.LabelRepository σ)
    (newID : uuid.UUID) (name color : String) (userID : uuid.UUID) (s s' : σ)
    (created : domain.Label)
    (h : service.CreateLabel labelRepo newID name color userID s = ((some created, none), s')) :
    created = { ID := newID, Name := name, Color := color, UserID := userID } := by
  unfold service.CreateLabel at h
  split at h
  · cases h
  · split at h
    · cases h
    · split at h
      · cases h
      · split at h
        · cases h
        · dsimp only at h
          split at h
          · cases h
          · simp only [Prod.mk.injEq, Option.some.injEq, and_true] at h
            exact h.1.symm

/-- C19, amended. For every request to create a task or a label, whatever user
id the `Authenticate` gate attached to the request context, the handler's
outcome is the same, and the created resource's `UserID` equals the `user_id`
value the request body carries. -/
theorem C19_created_resource_owner {σ : Type} (lib : Libs) (th : handlers.TaskHandler σ)
    (lh : handlers.LabelHandler σ) (newID : uuid.UUID) (r : http.Request) (s : σ)
    (caller : uuid.UUID) :
    handlers.CreateTask lib th newID (r.WithContext (auth.ContextWithUser r.ctx caller)) s
        = handlers.CreateTask lib th newID r s ∧
      handlers.CreateLabel lib lh newID (r.WithContext (auth.ContextWithUser r.ctx caller)) s
        = handlers.CreateLabel lib lh newID r s ∧
      (∀ (taskData : TaskData) (created : domain.Task) (s' : σ),
        lib.json_DecodeTask r.Body = .ok taskData →
        handlers.CreateTask lib th newID (r.WithContext (auth.ContextWithUser r.ctx caller)) s
            = (.reply 201 (.jsonTask created), s') →
          created.UserID = taskData.UserID) ∧
      (∀ (labelData : LabelData) (created : domain.Label) (s' : σ),
        lib.json_DecodeLabel r.Body = .ok labelData →
        handlers.CreateLabel lib lh newID (r.WithContext (auth.ContextWithUser r.ctx caller)) s
            = (.reply 201 (.jsonLabel created), s') →
          created.UserID = labelData.UserID) := by
  refine ⟨rfl, rfl, ?_, ?_⟩
  · intro taskData created s' hd hok
    change handlers.CreateTask lib th newID r s = _ at hok
    unfold handlers.CreateTask at hok
    simp only [hd] at hok
    rcases hc : service.CreateTask th.taskRepo newID taskData.Title taskData.Description
        taskData.DueDate taskData.UserID s with ⟨⟨t, e⟩, s1⟩
    rw [hc] at hok
    cases e with
    | some err => simp [http.Error] at hok
    | none =>
      cases t with
      | none => simp at hok
      | some task =>
        simp only [Prod.mk.injEq, http.Response.reply.injEq, http.Body.jsonTask.injEq,
          true_and] at hok
        rw [← hok.1, CreateTask_ok_inv _ _ _ _ _ _ _ _ _ hc]
  · intro labelData created s' hd hok
    change handlers.CreateLabel lib lh newID r s = _ at hok
    unfold handlers.CreateLabel at hok
    simp only [hd] at hok
    rcases hc : service.CreateLabel lh.labelRepo newID labelData.Name labelData.Color
        labelData.UserID s with ⟨⟨t, e⟩, s1⟩
    rw [hc] at hok
    cases e with
    | some err => simp [http.Error] at hok
    | none =>
      cases t with
      | none => simp at hok
      | some label =>
        simp only [Prod.mk.injEq, http.Response.reply.injEq, http.Body.jsonLabel.injEq,
          true_and] at hok
        rw [← hok.1, CreateLabel_ok_inv _ _ _ _ _ _ _ _ hc]

/-- Witness of C19: a request whose context names user 1 and whose body names
user 2 creates a task of user 2. -/
theorem C19_created_resource_owner_witness :
    handlers.CreateTask sample.libs sample.taskHandler 7
        (http.Request.WithContext { Body := "title\ntext\nuu" } (auth.ContextWithUser [] 1)) {}
        = handlers.CreateTask sample.libs sample.taskHandler 7 { Body := "title\ntext\nuu" } {} ∧
      (⟨7, "title", "text", 0, 2, []⟩ : domain.Task).UserID
        = (⟨"title", "text", 0, 2⟩ : TaskData).UserID :=
  ⟨(C19_created_resource_owner sample.libs sample.taskHandler sample.labelHandler 7
      { Body := "title\ntext\nuu" } {} 1).1,
    (C19_created_resource_owner sample.libs sample.taskHandler sample.labelHandler 7
      { Body := "title\ntext\nuu" } {} 1).2.2.1 ⟨"title", "text", 0, 2⟩
      ⟨7, "title", "text", 0, 2, []⟩ { tasks := [⟨7, "title", "text", 0, 2, []⟩] } (by rfl)
      (by decide)⟩

/-- Counterexample to C19 as first stated: the gate authenticates user 1, the
bodies name user 2, and the task and the label are created for user 2. -/
theorem C19_counterexample :
    handlers.Authenticate sample.libs sample.gate 0 sample.whoami
        { Authorization := "Bearer +.kkkkkk.secretu" } {}
        = (.reply 200 (.text "u"), {}) ∧
      handlers.Authenticate sample.libs sample.gate 0
          (handlers.CreateTask sample.libs sample.taskHandler 7)
          { Authorization := "Bearer +.kkkkkk.secretu", Body := "title\ntext\nuu" } {}
        = (.reply 201 (.jsonTask ⟨7, "title", "text", 0, 2, []⟩),
            { tasks := [⟨7, "title", "text", 0, 2, []⟩] }) ∧
      handlers.Authenticate sample.libs sample.gate 0
          (handlers.CreateLabel sample.libs sample.labelHandler 8)
          { Authorization := "Bearer +.kkkkkk.secretu", Body := "home\n#fff\nuu" } {}
        = (.reply 201 (.jsonLabel ⟨8, "home", "#fff", 2⟩),
            { labels := [⟨8, "home", "#fff", 2⟩] }) := by
  decide

/-! ## Task requests of another user -/

theorem find_task_of_mem (l : List domain.Task) (t : domain.Task) (hmem : t ∈ l)
    (huniq : (l.map fun x => x.ID).Nodup) :
    l.find? (fun x => decide (x.ID = t.ID)) = some t := by
  induction l with
  | nil => cases hmem
  | cons x xs ih =>
    rw [List.map_cons, List.nodup_cons] at huniq
    rcases List.mem_cons.mp hmem with h | h
    · subst h
      simp
    · have hx : x.ID ≠ t.ID := fun e =>
        huniq.1 (e ▸ List.mem_map_of_mem (fun x => x.ID) h)
      rw [List.find?_cons]
      simp only [hx, decide_False]
      exact ih h huniq.2

/-- C20, amended. Over the PostgreSQL store with unique task ids: for every
stored task and every request addressing its id, whatever user id the gate
attached to the request context (the owner's or another user's), `GetTask`
answers 200 with the task's data, `UpdateTask` answers 200 and overwrites the
task's title, description and due date, and `DeleteTask` answers 204 and
removes the task: the task handlers do not compare the caller with the
owner. -/
theorem C20_task_handlers_ignore_caller (lib : Libs) (db : postgres.DB) (t : domain.Task)
    (r : http.Request) (caller : uuid.UUID) (taskData : TaskUpdateData)
    (hmem : t ∈ db.tasks) (huniq : (db.tasks.map fun x => x.ID).Nodup)
    (hid : lib.uuid_Parse (handlers.routeID r) = .ok t.ID)
    (hbody : lib.json_DecodeTaskUpdate r.Body = .ok taskData) :
    handlers.GetTask lib ⟨postgres.TaskRepository⟩
          (r.WithContext (auth.ContextWithUser r.ctx caller)) db
        = (.reply 200 (.jsonTask t), db) ∧
      handlers.UpdateTask lib ⟨postgres.TaskRepository⟩
          (r.WithContext (auth.ContextWithUser r.ctx caller)) db
        = (.reply 200
            (.jsonTask
              { t with
                Title := taskData.Title
                Description := taskData.Description
                DueDate := taskData.DueDate }),
            { db with tasks := db.tasks.map fun x =>
                if x.ID = t.ID then
                  { x with
                    Title := taskData.Title
                    Description := taskData.Description
                    DueDate := taskData.DueDate }
                else x }) ∧
      handlers.DeleteTask lib ⟨postgres.TaskRepository⟩
          (r.WithContext (auth.ContextWithUser r.ctx caller)) db
        = (.reply 204 .empty,
            { db with tasks := db.tasks.filter fun x => decide (x.ID ≠ t.ID) }) ∧
      t ∉ db.tasks.filter fun x => decide (x.ID ≠ t.ID) := by
  have hfind := find_task_of_mem _ t hmem huniq
  have hid' : lib.uuid_Parse
      (handlers.routeID (r.WithContext (auth.ContextWithUser r.ctx caller))) = .ok t.ID := hid
  have hbody' : lib.json_DecodeTaskUpdate
      (r.WithContext (auth.ContextWithUser r.ctx caller)).Body = .ok taskData := hbody
  refine ⟨?_, ?_, ?_, ?_⟩
  · simp only [handlers.GetTask, hid', service.GetTaskByID, postgres.TaskRepository, hfind]
  · simp only [handlers.UpdateTask, hid', hbody', service.UpdateTask, postgres.TaskRepository,
      hfind]
  · simp only [handlers.DeleteTask, hid', service.DeleteTask, postgres.TaskRepository]
  · simp [List.mem_filter]

/-- Witness of C20: user 1 reads, rewrites and deletes task 7 of user 2. -/
theorem C20_task_handlers_ignore_caller_witness :
    handlers.GetTask sample.libs ⟨postgres.TaskRepository⟩
          (http.Request.WithContext { Body := "new\ntext", Vars := [("id", "uuuuuuu")] }
            (auth.ContextWithUser [] 1))
          { tasks := [⟨7, "title", "text", 0, 2, []⟩] }
        = (.reply 200 (.jsonTask ⟨7, "title", "text", 0, 2, []⟩),
            { tasks := [⟨7, "title", "text", 0, 2, []⟩] }) ∧
      handlers.UpdateTask sample.libs ⟨postgres.TaskRepository⟩
          (http.Request.WithContext { Body := "new\ntext", Vars := [("id", "uuuuuuu")] }
            (auth.ContextWithUser [] 1))
          { tasks := [⟨7, "title", "text", 0, 2, []⟩] }
        = (.reply 200 (.jsonTask ⟨7, "new", "text", 0, 2, []⟩),
            { tasks := [⟨7, "new", "text", 0, 2, []⟩] }) ∧
      handlers.DeleteTask sample.libs ⟨postgres.TaskRepository⟩
          (http.Request.WithContext { Body := "new\ntext", Vars := [("id", "uuuuuuu")] }
            (auth.ContextWithUser [] 1))
          { tasks := [⟨7, "title", "text", 0, 2, []⟩] }
        = (.reply 204 .empty, { tasks := [] }) ∧
      (⟨7, "title", "text", 0, 2, []⟩ : domain.Task) ∉
        [(⟨7, "title", "text", 0, 2, []⟩ : domain.Task)].filter fun x => decide (x.ID ≠ 7) :=
  C20_task_handlers_ignore_caller sample.libs { tasks := [⟨7, "title", "text", 0, 2, []⟩] }
    ⟨7, "title", "text", 0, 2, []⟩ { Body := "new\ntext", Vars := [("id", "uuuuuuu")] } 1
    ⟨"new", "text", 0⟩ (by decide) (by decide) (by rfl) (by rfl)

/-- Counterexample to C20 as first stated: task 7 belongs to user 2; requests
that pass the gate as user 1 and address task 7 obtain its data, rewrite it,
and delete it. -/
theorem C20_counterexample :
    handlers.Authenticate sample.libs sample.gate 0 sample.whoami
        { Authorization := "Bearer +.kkkkkk.secretu" } {}
        = (.reply 200 (.text "u"), {}) ∧
      handlers.Authenticate sample.libs sample.gate 0
          (handlers.GetTask sample.libs sample.taskHandler)
          { Authorization := "Bearer +.kkkkkk.secretu", Vars := [("id", "uuuuuuu")] }
          { tasks := [⟨7, "title", "text", 0, 2, []⟩] }
        = (.reply 200 (.jsonTask ⟨7, "title", "text", 0, 2, []⟩),
            { tasks := [⟨7, "title", "text", 0, 2, []⟩] }) ∧
      handlers.Authenticate sample.libs sample.gate 0
          (handlers.UpdateTask sample.libs sample.taskHandler)
          { Authorization := "Bearer +.kkkkkk.secretu", Body := "new\ntext",
            Vars := [("id", "uuuuuuu")] }
          { tasks := [⟨7, "title", "text", 0, 2, []⟩] }
        = (.reply 200 (.jsonTask ⟨7, "new", "text", 0, 2, []⟩),
            { tasks := [⟨7, "new", "text", 0, 2, []⟩] }) ∧
      handlers.Authenticate sample.libs sample.gate 0
          (handlers.DeleteTask sample.libs sample.taskHandler)
          { Authorization := "Bearer +.kkkkkk.secretu", Vars := [("id", "uuuuuuu")] }
          { tasks := [⟨7, "title", "text", 0, 2, []⟩] }
        = (.reply 204 .empty, { tasks := [] }) := by
  decide

/-! ## Propagation of repository errors -/

theorem wrapf_preserves (ctx : String) (e : GoError) :
    (GoError.wrapf ctx e).Unwrap = some e ∧
      (GoError.wrapf ctx e).Error = ctx ++ ": " ++ e.Error :=
  ⟨rfl, rfl⟩

theorem CreateUser_create_err {σ : Type} (lib : Libs) (userRepo : repository.UserRepository σ)
    (newID : uuid.UUID) (salt username email password : String) (s : σ) (user : domain.User)
    (e : GoError)
    (hu : username ≠ "") (hm : email ≠ "") (hp : password ≠ "")
    (he : service.emailRegex.MatchString email = true)
    (hfree : ¬ ((userRepo.GetByEmail email s).1.2 = none ∧
      (userRepo.GetByEmail email s).1.1 ≠ none))
    (hhash : domain.User.HashPassword lib salt
      { ID := newID, Username := username, Email := email, Password := "" } password
        = (user, none))
    (hcreate : (userRepo.Create user (userRepo.GetByEmail email s).2).1 = some e) :
    (service.CreateUser lib userRepo newID salt username email password s).1
      = (none, some (.wrapf "ошибка при создании пользователя" e)) := by
  unfold service.CreateUser
  rw [if_neg (by simp [hu, hm, hp]), he]
  rcases hq : userRepo.GetByEmail email s with ⟨⟨existing, err⟩, s1⟩
  rw [hq] at hfree hcreate
  simp only at hfree hcreate
  simp only [Bool.not_true, Bool.false_eq_true, if_false]
  rw [if_neg hfree, hhash]
  simp only
  rcases hc : userRepo.Create user s1 with ⟨r, s2⟩
  rw [hc] at hcreate
  simp only at hcreate
  subst hcreate
  rfl

theorem GetUserByID_err {σ : Type} (userRepo : repository.UserRepository σ) (id : uuid.UUID)
    (s : σ) (u : Option domain.User) (e : GoError)
    (h : (userRepo.GetByID id s).1 = (u, some e)) :
    (service.GetUserByID userRepo id s).1
      = (none, some (.wrapf "ошибка при получении пользователя по ID" e)) := by
  unfold service.GetUserByID
  rcases hq : userRepo.GetByID id s with ⟨⟨u1, e1⟩, s1⟩
  rw [hq] at h
  cases h
  rfl

theorem GetUserByEmail_err {σ : Type} (userRepo : repository.UserRepository σ)
    (email : String) (s : σ) (u : Option domain.User) (e : GoError)
    (h : (userRepo.GetByEmail email s).1 = (u, some e)) :
    (service.GetUserByEmail userRepo email s).1
      = (none, some (.wrapf "ошибка при получении пользователя по email" e)) := by
  unfold service.GetUserByEmail
  rcases hq : userRepo.GetByEmail email s with ⟨⟨u1, e1⟩, s1⟩
  rw [hq] at h
  cases h
  rfl

theorem UpdateUser_lookup_err {σ : Type} (userRepo : repository.UserRepository σ)
    (id : uuid.UUID) (username email : String) (s : σ) (u : Option domain.User) (e : GoError)
    (h : (userRepo.GetByID id s).1 = (u, some e)) :
    service.UpdateUser userRepo id username email s
      = (some (none, some (.errorf "пользователь не найден")), (userRepo.GetByID id s).2) := by
  unfold service.UpdateUser
  rcases hq : userRepo.GetByID id s with ⟨⟨u1, e1⟩, s1⟩
  rw [hq] at h
  cases h
  cases u <;> rfl

theorem UpdateUser_update_err {σ : Type} (userRepo : repository.UserRepository σ)
    (id : uuid.UUID) (username email : String) (s : σ) (user : domain.User) (e : GoError)
    (h : (userRepo.GetByID id s).1 = (some user, none))
    (hupd : (userRepo.Update { user with Username := username, Email := email }
      (userRepo.GetByID id s).2).1 = some e) :
    (service.UpdateUser userRepo id username email s).1
      = some (none, some (.wrapf "ошибка при обновлении пользователя" e)) := by
  unfold service.UpdateUser
  rcases hq : userRepo.GetByID id s with ⟨⟨u1, e1⟩, s1⟩
  rw [hq] at h hupd
  cases h
  simp only at hupd ⊢
  rcases hc : userRepo.Update { user with Username := username, Email := email } s1
    with ⟨r, s2⟩
  rw [hc] at hupd
  simp only at hupd
  subst hupd
  rfl

theorem DeleteUser_err {σ : Type} (userRepo : repository.UserRepository σ) (id : uuid.UUID)
    (s : σ) (e : GoError) (h : (userRepo.Delete id s).1 = some e) :
    (service.DeleteUser userRepo id s).1
      = some (.wrapf "ошибка при удалении пользователя" e) := by
  unfold service.DeleteUser
  rcases hq : userRepo.Delete id s with ⟨r, s1⟩
  rw [hq] at h
  cases h
  rfl

theorem CreateRefreshToken_create_err {σ : Type} (lib : Libs) (env : OSEnv)
    (refreshTokenRepo : repository.RefreshTokenRepository σ) (newID newToken : uuid.UUID)
    (now : time.Time) (userID : uuid.UUID) (s : σ) (duration : time.Duration) (e : GoError)
    (henv : env.godotenv_Load = none)
    (httl : lib.time_ParseDuration (env.Getenv "REFRESH_TOKEN_EXPIRE_TIME") = .ok duration)
    (h : (refreshTokenRepo.Create
      { ID := newID, UserID := userID, Token := lib.uuid_String newToken,
        ExpiryDate := time.Time.Add now duration } s).1 = some e) :
    (service.CreateRefreshToken lib env refreshTokenRepo newID newToken now userID s).1
      = (none, some (.wrapf "ошибка при создании refresh токена" e)) := by
  unfold service.CreateRefreshToken
  rw [henv]
  simp only [httl]
  rcases hq : refreshTokenRepo.Create
      { ID := newID, UserID := userID, Token := lib.uuid_String newToken,
        ExpiryDate := time.Time.Add now duration } s with ⟨r, s1⟩
  rw [hq] at h
  cases h
  rfl

theorem GetRefreshToken_err {σ : Type} (refreshTokenRepo : repository.RefreshTokenRepository σ)
    (token : String) (s : σ) (t : Option domain.RefreshToken) (e : GoError)
    (h : (refreshTokenRepo.GetByToken token s).1 = (t, some e)) :
    (service.GetRefreshToken refreshTokenRepo token s).1
      = (none, some (.wrapf "ошибка при получении refresh токена" e)) := by
  unfold service.GetRefreshToken
  rcases hq : refreshTokenRepo.GetByToken token s with ⟨⟨u1, e1⟩, s1⟩
  rw [hq] at h
  cases h
  rfl

theorem DeleteRefreshToken_err {σ : Type}
    (refreshTokenRepo : repository.RefreshTokenRepository σ) (id : uuid.UUID)
    (s : σ) (e : GoError) (h : (refreshTokenRepo.Delete id s).1 = some e) :
    (service.DeleteRefreshToken refreshTokenRepo id s).1
      = some (.wrapf "ошибка при удалении refresh токена" e) := by
  unfold service.DeleteRefreshToken
  rcases hq : refreshTokenRepo.Delete id s with ⟨r, s1⟩
  rw [hq] at h
  cases h
  rfl

theorem DeleteAllRefreshTokensByUserID_err {σ : Type}
    (refreshTokenRepo : repository.RefreshTokenRepository σ) (userID : uuid.UUID)
    (s : σ) (e : GoError) (h : (refreshTokenRepo.DeleteAllByUserID userID s).1 = some e) :
    service.DeleteAllRefreshTokensByUserID refreshTokenRepo userID s
      = (some (.wrapf "ошибка при удалении всех refresh токенов пользователя" e),
          (refreshTokenRepo.DeleteAllByUserID userID s).2) := by
  unfold service.DeleteAllRefreshTokensByUserID
  rcases hq : refreshTokenRepo.DeleteAllByUserID userID s with ⟨r, s1⟩
  rw [hq] at h
  cases h
  rfl

theorem CreateTask_create_err {σ : Type} (taskRepo : repository.TaskRepository σ)
    (newID : uuid.UUID) (title description : String) (dueDate : time.Time)
    (userID : uuid.UUID) (s : σ) (e : GoError)
    (ht : title ≠ "") (hu : userID ≠ uuid.Nil)
    (h : (taskRepo.Create
      { ID := newID, Title := title, Description := description, DueDate := dueDate, UserID := userID }
      s).1 = some e) :
    (service.CreateTask taskRepo newID title description dueDate userID s).1
      = (none, some (.wrapf "ошибка при создании задачи" e)) := by
  unfold service.CreateTask
  rw [if_neg ht, if_neg hu]
  dsimp only
  rcases hq : taskRepo.Create
      { ID := newID, Title := title, Description := description, DueDate := dueDate, UserID := userID }
      s with ⟨r, s1⟩
  rw [hq] at h
  cases h
  rfl

theorem GetTaskByID_err {σ : Type} (taskRepo : repository.TaskRepository σ) (id : uuid.UUID)
    (s : σ) (t : Option domain.Task) (e : GoError)
    (h : (taskRepo.GetByID id s).1 = (t, some e)) :
    (service.GetTaskByID taskRepo id s).1
      = (none, some (.wrapf "ошибка при получении задачи по ID" e)) := by
  unfold service.GetTaskByID
  rcases hq : taskRepo.GetByID id s with ⟨⟨u1, e1⟩, s1⟩
  rw [hq] at h
  cases h
  rfl

theorem GetAllTasksByUserID_err {σ : Type} (taskRepo : repository.TaskRepository σ)
    (userID : uuid.UUID) (s : σ) (ts : List domain.Task) (e : GoError)
    (h : (taskRepo.GetAllByUserID userID s).1 = (ts, some e)) :
    (service.GetAllTasksByUserID taskRepo userID s).1
      = ([], some (.wrapf "ошибка при получении задач пользователя" e)) := by
  unfold service.GetAllTasksByUserID
  rcases hq : taskRepo.GetAllByUserID userID s with ⟨⟨u1, e1⟩, s1⟩
  rw [hq] at h
  cases h
  rfl

theorem UpdateTask_lookup_err {σ : Type} (taskRepo : repository.TaskRepository σ)
    (id : uuid.UUID) (title description : String) (dueDate : time.Time) (s : σ)
    (t : Option domain.Task) (e : GoError)
    (h : (taskRepo.GetByID id s).1 = (t, some e)) :
    service.UpdateTask taskRepo id title description dueDate s
      = (some (none, some (.errorf "задача не найдена")), (taskRepo.GetByID id s).2) := by
  unfold service.UpdateTask
  rcases hq : taskRepo.GetByID id s with ⟨⟨u1, e1⟩, s1⟩
  rw [hq] at h
  cases h
  cases t <;> rfl

theorem UpdateTask_update_err {σ : Type} (taskRepo : repository.TaskRepository σ)
    (id : uuid.UUID) (title description : String) (dueDate : time.Time) (s : σ)
    (task : domain.Task) (e : GoError)
    (h : (taskRepo.GetByID id s).1 = (some task, none))
    (hupd : (taskRepo.Update
      { task with Title := title, Description := description, DueDate := dueDate }
      (taskRepo.GetByID id s).2).1 = some e) :
    (service.UpdateTask taskRepo id title description dueDate s).1
      = some (none, some (.wrapf "ошибка при обновлении задачи" e)) := by
  unfold service.UpdateTask
  rcases hq : taskRepo.GetByID id s with ⟨⟨u1, e1⟩, s1⟩
  rw [hq] at h hupd
  cases h
  simp only at hupd ⊢
  rcases hc : taskRepo.Update
      { task with Title := title, Description := description, DueDate := dueDate } s1
    with ⟨r, s2⟩
  rw [hc] at hupd
  simp only at hupd
  subst hupd
  rfl

theorem DeleteTask_err {σ : Type} (taskRepo : repository.TaskRepository σ) (id : uuid.UUID)
    (s : σ) (e : GoError) (h : (taskRepo.Delete id s).1 = some e) :
    (service.DeleteTask taskRepo id s).1 = some (.wrapf "ошибка при удалении задачи" e) := by
  unfold service.DeleteTask
  rcases hq : taskRepo.Delete id s with ⟨r, s1⟩
  rw [hq] at h
  cases h
  rfl

theorem CreateLabel_create_err {σ : Type} (labelRepo : repository.LabelRepository σ)
    (newID : uuid.UUID) (name color : String) (userID : uuid.UUID) (s : σ) (e : GoError)
    (hn : name ≠ "") (hc : color ≠ "") (hu : userID ≠ uuid.Nil)
    (hfmt : service.hexColorRegex.MatchString color = true)
    (h : (labelRepo.Create { ID := newID, Name := name, Color := color, UserID := userID } s).1
      = some e) :
    (service.CreateLabel labelRepo newID name color userID s).1
      = (none, some (.wrapf "ошибка при создании метки" e)) := by
  unfold service.CreateLabel
  rw [if_neg hn, if_neg hc, if_neg hu, hfmt]
  simp only [Bool.not_true, Bool.false_eq_true, if_false]
  rcases hq : labelRepo.Create { ID := newID, Name := name, Color := color, UserID := userID } s
    with ⟨r, s1⟩
  rw [hq] at h
  cases h
  rfl

theorem GetLabelByID_err {σ : Type} (labelRepo : repository.LabelRepository σ)
    (id : uuid.UUID) (s : σ) (l : Option domain.Label) (e : GoError)
    (h : (labelRepo.GetByID id s).1 = (l, some e)) :
    (service.GetLabelByID labelRepo id s).1
      = (none, some (.wrapf "ошибка при получении метки по ID" e)) := by
  unfold service.GetLabelByID
  rcases hq : labelRepo.GetByID id s with ⟨⟨u1, e1⟩, s1⟩
  rw [hq] at h
  cases h
  rfl

theorem GetAllLabelsByUserID_err {σ : Type} (labelRepo : repository.LabelRepository σ)
    (userID : uuid.UUID) (s : σ) (ls : List domain.Label) (e : GoError)
    (h : (labelRepo.GetAllByUserID userID s).1 = (ls, some e)) :
    (service.GetAllLabelsByUserID labelRepo userID s).1
      = ([], some (.wrapf "ошибка при получении меток пользователя" e)) := by
  unfold service.GetAllLabelsByUserID
  rcases hq : labelRepo.GetAllByUserID userID s with ⟨⟨u1, e1⟩, s1⟩
  rw [hq] at h
  cases h
  rfl

theorem UpdateLabel_lookup_err {σ : Type} (labelRepo : repository.LabelRepository σ)
    (id : uuid.UUID) (name color : String) (s : σ) (l : Option domain.Label) (e : GoError)
    (h : (labelRepo.GetByID id s).1 = (l, some e)) :
    service.UpdateLabel labelRepo id name color s
      = (some (none, some (.errorf "метка не найдена")), (labelRepo.GetByID id s).2) := by
  unfold service.UpdateLabel
  rcases hq : labelRepo.GetByID id s with ⟨⟨u1, e1⟩, s1⟩
  rw [hq] at h
  cases h
  cases l <;> rfl

theorem UpdateLabel_update_err {σ : Type} (labelRepo : repository.LabelRepository σ)
    (id : uuid.UUID) (name color : String) (s : σ) (label : domain.Label) (e : GoError)
    (h : (labelRepo.GetByID id s).1 = (some label, none))
    (hupd : (labelRepo.Update { label with Name := name, Color := color }
      (labelRepo.GetByID id s).2).1 = some e) :
    (service.UpdateLabel labelRepo id name color s).1
      = some (none, some (.wrapf "ошибка при обновлении метки" e)) := by
  unfold service.UpdateLabel
  rcases hq : labelRepo.GetByID id s with ⟨⟨u1, e1⟩, s1⟩
  rw [hq] at h hupd
  cases h
  simp only at hupd ⊢
  rcases hc : labelRepo.Update { label with Name := name, Color := color } s1 with ⟨r, s2⟩
  rw [hc] at hupd
  simp only at hupd
  subst hupd
  rfl

theorem DeleteLabel_err {σ : Type} (labelRepo : repository.LabelRepository σ) (id : uuid.UUID)
    (s : σ) (e : GoError) (h : (labelRepo.Delete id s).1 = some e) :
    (service.DeleteLabel labelRepo id s).1 = some (.wrapf "ошибка при удалении метки" e) := by
  unfold service.DeleteLabel
  rcases hq : labelRepo.Delete id s with ⟨r, s1⟩
  rw [hq] at h
  cases h
  rfl

/-- C21, amended. Every error `e` of a repository call is wrapped by the
service operation that made the call, under that operation's context prefix
(unwrapping the returned error gives `e`, and its message is the prefix, a
colon and a blank, then the message of `e`), with two exceptions: `UpdateUser`,
`UpdateTask` and `UpdateLabel` answer a failed `GetByID` with their fixed
not-found error, which does not wrap `e`, and `CreateUser` discards the error
of `GetByEmail` and goes on. The errors of the other repository calls of these
four operations (`Update`, `Create`) are wrapped like all the rest. -/
theorem C21_repository_errors_wrapped {σ : Type} (lib : Libs) (env : OSEnv)
    (userRepo : repository.UserRepository σ)
    (refreshTokenRepo : repository.RefreshTokenRepository σ)
    (taskRepo : repository.TaskRepository σ) (labelRepo : repository.LabelRepository σ)
    (s : σ) (e : GoError) :
    (∀ ctx : String, (GoError.wrapf ctx e).Unwrap = some e ∧
      (GoError.wrapf ctx e).Error = ctx ++ ": " ++ e.Error) ∧
    -- the user service
    ((∀ newID salt username email password user,
        username ≠ "" → email ≠ "" → password ≠ "" →
        service.emailRegex.MatchString email = true →
        ¬ ((userRepo.GetByEmail email s).1.2 = none ∧ (userRepo.GetByEmail email s).1.1 ≠ none) →
        domain.User.HashPassword lib salt
            { ID := newID, Username := username, Email := email, Password := "" } password
          = (user, none) →
        (userRepo.Create user (userRepo.GetByEmail email s).2).1 = some e →
        (service.CreateUser lib userRepo newID salt username email password s).1
          = (none, some (.wrapf "ошибка при создании пользователя" e))) ∧
      (∀ id u, (userRepo.GetByID id s).1 = (u, some e) →
        (service.GetUserByID userRepo id s).1
          = (none, some (.wrapf "ошибка при получении пользователя по ID" e))) ∧
      (∀ email u, (userRepo.GetByEmail email s).1 = (u, some e) →
        (service.GetUserByEmail userRepo email s).1
          = (none, some (.wrapf "ошибка при получении пользователя по email" e))) ∧
      (∀ id username email u, (userRepo.GetByID id s).1 = (u, some e) →
        (service.UpdateUser userRepo id username email s).1
          = some (none, some (.errorf "пользователь не найден"))) ∧
      (∀ id username email user, (userRepo.GetByID id s).1 = (some user, none) →
        (userRepo.Update { user with Username := username, Email := email }
          (userRepo.GetByID id s).2).1 = some e →
        (service.UpdateUser userRepo id username email s).1
          = some (none, some (.wrapf "ошибка при обновлении пользователя" e))) ∧
      (∀ id, (userRepo.Delete id s).1 = some e →
        (service.DeleteUser userRepo id s).1
          = some (.wrapf "ошибка при удалении пользователя" e))) ∧
    -- the refresh-token service
    ((∀ newID newToken now userID duration, env.godotenv_Load = none →
        lib.time_ParseDuration (env.Getenv "REFRESH_TOKEN_EXPIRE_TIME") = .ok duration →
        (refreshTokenRepo.Create
          { ID := newID, UserID := userID, Token := lib.uuid_String newToken,
            ExpiryDate := time.Time.Add now duration } s).1 = some e →
        (service.CreateRefreshToken lib env refreshTokenRepo newID newToken now userID s).1
          = (none, some (.wrapf "ошибка при создании refresh токена" e))) ∧
      (∀ token t, (refreshTokenRepo.GetByToken token s).1 = (t, some e) →
        (service.GetRefreshToken refreshTokenRepo token s).1
          = (none, some (.wrapf "ошибка при получении refresh токена" e))) ∧
      (∀ id, (refreshTokenRepo.Delete id s).1 = some e →
        (service.DeleteRefreshToken refreshTokenRepo id s).1
          = some (.wrapf "ошибка при удалении refresh токена" e)) ∧
      (∀ userID, (refreshTokenRepo.DeleteAllByUserID userID s).1 = some e →
        (service.DeleteAllRefreshTokensByUserID refreshTokenRepo userID s).1
          = some (.wrapf "ошибка при удалении всех refresh токенов пользователя" e))) ∧
    -- the task service
    ((∀ newID title description dueDate userID, title ≠ "" → userID ≠ uuid.Nil →
        (taskRepo.Create ⟨newID, title, description, dueDate, userID, []⟩ s).1 = some e →
        (service.CreateTask taskRepo newID title description dueDate userID s).1
          = (none, some (.wrapf "ошибка при создании задачи" e))) ∧
      (∀ id t, (taskRepo.GetByID id s).1 = (t, some e) →
        (service.GetTaskByID taskRepo id s).1
          = (none, some (.wrapf "ошибка при получении задачи по ID" e))) ∧
      (∀ userID ts, (taskRepo.GetAllByUserID userID s).1 = (ts, some e) →
        (service.GetAllTasksByUserID taskRepo userID s).1
          = ([], some (.wrapf "ошибка при получении задач пользователя" e))) ∧
      (∀ id title description dueDate t, (taskRepo.GetByID id s).1 = (t, some e) →
        (service.UpdateTask taskRepo id title description dueDate s).1
          = some (none, some (.errorf "задача не найдена"))) ∧
      (∀ id title description dueDate task, (taskRepo.GetByID id s).1 = (some task, none) →
        (taskRepo.Update
          { task with Title := title, Description := description, DueDate := dueDate }
          (taskRepo.GetByID id s).2).1 = some e →
        (service.UpdateTask taskRepo id title description dueDate s).1
          = some (none, some (.wrapf "ошибка при обновлении задачи" e))) ∧
      (∀ id, (taskRepo.Delete id s).1 = some e →
        (service.DeleteTask taskRepo id s).1
          = some (.wrapf "ошибка при удалении задачи" e))) ∧
    -- the label service
    ((∀ newID name color userID, name ≠ "" → color ≠ "" → userID ≠ uuid.Nil →
        service.hexColorRegex.MatchString color = true →
        (labelRepo.Create ⟨newID, name, color, userID⟩ s).1 = some e →
        (service.CreateLabel labelRepo newID name color userID s).1
          = (none, some (.wrapf "ошибка при создании метки" e))) ∧
      (∀ id l, (labelRepo.GetByID id s).1 = (l, some e) →
        (service.GetLabelByID labelRepo id s).1
          = (none, some (.wrapf "ошибка при получении метки по ID" e))) ∧
      (∀ userID ls, (labelRepo.GetAllByUserID userID s).1 = (ls, some e) →
        (service.GetAllLabelsByUserID labelRepo userID s).1
          = ([], some (.wrapf "ошибка при получении меток пользователя" e))) ∧
      (∀ id name color l, (labelRepo.GetByID id s).1 = (l, some e) →
        (service.UpdateLabel labelRepo id name color s).1
          = some (none, some (.errorf "метка не найдена"))) ∧
      (∀ id name color label, (labelRepo.GetByID id s).1 = (some label, none) →
        (labelRepo.Update { label with Name := name, Color := color }
          (labelRepo.GetByID id s).2).1 = some e →
        (service.UpdateLabel labelRepo id name color s).1
          = some (none, some (.wrapf "ошибка при обновлении метки" e))) ∧
      (∀ id, (labelRepo.Delete id s).1 = some e →
        (service.DeleteLabel labelRepo id s).1
          = some (.wrapf "ошибка при удалении метки" e))) := by
  refine ⟨fun ctx => wrapf_preserves ctx e, ⟨?_, ?_, ?_, ?_, ?_, ?_⟩, ⟨?_, ?_, ?_, ?_⟩,
    ⟨?_, ?_, ?_, ?_, ?_, ?_⟩, ⟨?_, ?_, ?_, ?_, ?_, ?_⟩⟩
  · intro newID salt username email password user hu hm hp he hfree hhash hcreate
    exact CreateUser_create_err lib userRepo newID salt username email password s user e
      hu hm hp he hfree hhash hcreate
  · intro id u h
    exact GetUserByID_err userRepo id s u e h
  · intro email u h
    exact GetUserByEmail_err userRepo email s u e h
  · intro id username email u h
    rw [UpdateUser_lookup_err userRepo id username email s u e h]
  · intro id username email user h hupd
    exact UpdateUser_update_err userRepo id username email s user e h hupd
  · intro id h
    exact DeleteUser_err userRepo id s e h
  · intro newID newToken now userID duration henv httl h
    exact CreateRefreshToken_create_err lib env refreshTokenRepo newID newToken now userID s
      duration e henv httl h
  · intro token t h
    exact GetRefreshToken_err refreshTokenRepo token s t e h
  · intro id h
    exact DeleteRefreshToken_err refreshTokenRepo id s e h
  · intro userID h
    rw [DeleteAllRefreshTokensByUserID_err refreshTokenRepo userID s e h]
  · intro newID title description dueDate userID ht hu h
    exact CreateTask_create_err taskRepo newID title description dueDate userID s e ht hu h
  · intro id t h
    exact GetTaskByID_err taskRepo id s t e h
  · intro userID ts h
    exact GetAllTasksByUserID_err taskRepo userID s ts e h
  · intro id title description dueDate t h
    rw [UpdateTask_lookup_err taskRepo id title description dueDate s t e h]
  · intro id title description dueDate task h hupd
    exact UpdateTask_update_err taskRepo id title description dueDate s task e h hupd
  · intro id h
    exact DeleteTask_err taskRepo id s e h
  · intro newID name color userID hn hc hu hfmt h
    exact CreateLabel_create_err labelRepo newID name color userID s e hn hc hu hfmt h
  · intro id l h
    exact GetLabelByID_err labelRepo id s l e h
  · intro userID ls h
    exact GetAllLabelsByUserID_err labelRepo userID s ls e h
  · intro id name color l h
    rw [UpdateLabel_lookup_err labelRepo id name color s l e h]
  · intro id name color label h hupd
    exact UpdateLabel_update_err labelRepo id name color s label e h hupd
  · intro id h
    exact DeleteLabel_err labelRepo id s e h

/-- With an unreachable database, `GetUserByID`, `DeleteUser`, `GetRefreshToken`,
`DeleteTask` and `GetAllLabelsByUserID` return the repository's error under
their own prefix, while `UpdateUser` returns its bare not-found error. -/
theorem C21_repository_errors_wrapped_witness :
    (sample.downUserRepo.GetByID 7 {}).1
        = (none, some (.wrapf "ошибка в получении пользователя по ID" sample.storageError)) ∧
      (service.GetUserByID sample.downUserRepo 7 {}).1
        = (none, some (.wrapf "ошибка при получении пользователя по ID"
            (.wrapf "ошибка в получении пользователя по ID" sample.storageError))) ∧
      (service.UpdateUser sample.downUserRepo 7 "bob" "b@x.io" {}).1
        = some (none, some (.errorf "пользователь не найден")) ∧
      (service.DeleteUser sample.downUserRepo 7 {}).1
        = some (.wrapf "ошибка при удалении пользователя"
            (.wrapf "ошибка при удалении пользователя" sample.storageError)) ∧
      (service.GetRefreshToken sample.downRefreshTokenRepo "uuu" {}).1
        = (none, some (.wrapf "ошибка при получении refresh токена"
            (.wrapf "ошибка при получении refresh токена по токену" sample.storageError))) ∧
      (service.DeleteTask sample.downTaskRepo 7 {}).1
        = some (.wrapf "ошибка при удалении задачи"
            (.wrapf "ошибка при удалении задачи" sample.storageError)) ∧
      (service.GetAllLabelsByUserID sample.downLabelRepo 7 {}).1
        = ([], some (.wrapf "ошибка при получении меток пользователя"
            (.wrapf "ошибка при получении меток пользователя" sample.storageError))) :=
  ⟨rfl,
    (C21_repository_errors_wrapped sample.libs sample.env sample.downUserRepo
      sample.downRefreshTokenRepo sample.downTaskRepo sample.downLabelRepo {}
      (.wrapf "ошибка в получении пользователя по ID" sample.storageError)).2.1.2.1 7 none rfl,
    (C21_repository_errors_wrapped sample.libs sample.env sample.downUserRepo
      sample.downRefreshTokenRepo sample.downTaskRepo sample.downLabelRepo {}
      (.wrapf "ошибка в получении пользователя по ID" sample.storageError)).2.1.2.2.2.1
        7 "bob" "b@x.io" none rfl,
    (C21_repository_errors_wrapped sample.libs sample.env sample.downUserRepo
      sample.downRefreshTokenRepo sample.downTaskRepo sample.downLabelRepo {}
      (.wrapf "ошибка при удалении пользователя" sample.storageError)).2.1.2.2.2.2.2 7 rfl,
    (C21_repository_errors_wrapped sample.libs sample.env sample.downUserRepo
      sample.downRefreshTokenRepo sample.downTaskRepo sample.downLabelRepo {}
      (.wrapf "ошибка при получении refresh токена по токену" sample.storageError)).2.2.1.2.1
        "uuu" none rfl,
    (C21_repository_errors_wrapped sample.libs sample.env sample.downUserRepo
      sample.downRefreshTokenRepo sample.downTaskRepo sample.downLabelRepo {}
      (.wrapf "ошибка при удалении задачи" sample.storageError)).2.2.2.1.2.2.2.2.2 7 rfl,
    (C21_repository_errors_wrapped sample.libs sample.env sample.downUserRepo
      sample.downRefreshTokenRepo sample.downTaskRepo sample.downLabelRepo {}
      (.wrapf "ошибка при получении меток пользователя" sample.storageError)).2.2.2.2.2.2.1
        7 [] rfl⟩

/-- C21 as stated fails: updating a user that is not in the `users` table, the
repository's `GetByID` returns an error `e` that wraps `sql.ErrNoRows`, and
`UpdateUser` returns an error that wraps nothing and whose message is not a
prefix followed by the message of `e`. -/
theorem C21_counterexample :
    ∃ e err, (postgres.UserRepository.GetByID 7 {}).1 = (none, some e) ∧
      (service.UpdateUser postgres.UserRepository 7 "bob" "b@x.io" {}).1
        = some (none, some err) ∧
      err.Unwrap = none ∧
      err.Error = "пользователь не найден" ∧
      e.Error = "пользователь не найден: sql: no rows in result set" ∧
      ∀ ctx : String, err.Error ≠ ctx ++ ": " ++ e.Error := by
  refine ⟨.wrapf "пользователь не найден" postgres.ErrNoRows, .errorf "пользователь не найден",
    rfl, rfl, rfl, rfl, by decide, ?_⟩
  intro ctx h
  have hlen := congrArg String.length h
  have h1 : (GoError.errorf "пользователь не найден").Error.length = 22 := by decide
  have h2 : (GoError.wrapf "пользователь не найден" postgres.ErrNoRows).Error.length = 50 := by
    decide
  rw [String.length_append, String.length_append, h1, h2] at hlen
  omega

/-! ## Status codes of storage, hashing and configuration failures -/

theorem CreateUser_hash_err {σ : Type} (lib : Libs) (userRepo : repository.UserRepository σ)
    (newID : uuid.UUID) (salt username email password : String) (s : σ) (e : GoError)
    (hu : username ≠ "") (hm : email ≠ "") (hp : password ≠ "")
    (he : service.emailRegex.MatchString email = true)
    (hfree : ¬ ((userRepo.GetByEmail email s).1.2 = none ∧
      (userRepo.GetByEmail email s).1.1 ≠ none))
    (hhash : lib.bcrypt_GenerateFromPassword salt password = .error e) :
    (service.CreateUser lib userRepo newID salt username email password s).1
      = (none, some (.wrapf "ошибка при хешировании пароля" e)) := by
  unfold service.CreateUser
  rw [if_neg (by simp [hu, hm, hp]), he]
  rcases hq : userRepo.GetByEmail email s with ⟨⟨existing, err⟩, s1⟩
  rw [hq] at hfree
  simp only at hfree
  simp only [Bool.not_true, Bool.false_eq_true, if_false]
  rw [if_neg hfree]
  simp only [domain.User.HashPassword, hhash]

theorem RegisterUser_err {σ : Type} (lib : Libs) (h : handlers.UserHandler σ)
    (newID : uuid.UUID) (salt : String) (r : http.Request) (s : σ) (user : domain.User)
    (created : Option domain.User) (err : GoError)
    (hbody : lib.json_DecodeUser r.Body = .ok user)
    (hcreate : (service.CreateUser lib h.userRepo newID salt user.Username user.Email
      user.Password s).1 = (created, some err)) :
    (handlers.RegisterUser lib h newID salt r s).1 = http.Error err.Error 400 := by
  unfold handlers.RegisterUser
  simp only [hbody]
  rcases hq : service.CreateUser lib h.userRepo newID salt user.Username user.Email
    user.Password s with ⟨⟨c1, e1⟩, s1⟩
  rw [hq] at hcreate
  cases hcreate
  cases created <;> rfl

/-- C22, amended. `RevokeAllRefreshTokens` answers 500 whenever the
repository's `DeleteAllByUserID` fails, and `LoginUser` answers 500 whenever
creating the refresh token fails (the `.env` file, the TTL setting or the
repository's `Create`). The other failures do not give 500: `RegisterUser`
answers 400 with the error's message when the password hash fails and when the
repository's `Create` fails; `LoginUser` answers 401 for every error of
`GetByEmail` and `RefreshToken` answers 401 for every error of `GetByToken`,
storage failures included. -/
theorem C22_failure_status_codes {σ : Type} (lib : Libs) (env : OSEnv)
    (h : handlers.UserHandler σ) (r : http.Request) (s : σ) (e : GoError) :
    -- RevokeAllRefreshTokens
    (∀ userID, handlers.GetUserIDFromRequest r = (userID, true) →
      (h.refreshTokenRepo.DeleteAllByUserID userID s).1 = some e →
      (handlers.RevokeAllRefreshTokens h r s).1
        = http.Error "Ошибка при отзыве refresh токенов" 500) ∧
    -- LoginUser, creating the refresh token
    (∀ now refreshID refreshToken refreshNow loginData user tokenString created,
      lib.json_DecodeLogin r.Body = .ok loginData →
      (h.userRepo.GetByEmail loginData.Email s).1 = (some user, none) →
      user.ComparePassword lib loginData.Password = none →
      lib.jwt_SignedString (handlers.accessClaims lib user.ID now) h.config.JWTSecret
        = .ok tokenString →
      (service.CreateRefreshToken lib env h.refreshTokenRepo refreshID refreshToken refreshNow
        user.ID (h.userRepo.GetByEmail loginData.Email s).2).1 = (created, some e) →
      (handlers.LoginUser lib env h now refreshID refreshToken refreshNow r s).1
        = http.Error "Ошибка при создании refresh токена" 500) ∧
    -- LoginUser, looking the user up
    (∀ now refreshID refreshToken refreshNow loginData u,
      lib.json_DecodeLogin r.Body = .ok loginData →
      (h.userRepo.GetByEmail loginData.Email s).1 = (u, some e) →
      (handlers.LoginUser lib env h now refreshID refreshToken refreshNow r s).1
        = http.Error "Неверный email или пароль" 401) ∧
    -- RefreshToken, looking the token up
    (∀ nowCheck nowIssue token t,
      lib.json_DecodeRefresh r.Body = .ok token →
      (h.refreshTokenRepo.GetByToken token s).1 = (t, some e) →
      (handlers.RefreshToken lib h nowCheck nowIssue r s).1
        = http.Error "Неверный refresh токен" 401) ∧
    -- RegisterUser, hashing the password
    (∀ newID salt user,
      lib.json_DecodeUser r.Body = .ok user →
      user.Username ≠ "" → user.Email ≠ "" → user.Password ≠ "" →
      service.emailRegex.MatchString user.Email = true →
      ¬ ((h.userRepo.GetByEmail user.Email s).1.2 = none ∧
        (h.userRepo.GetByEmail user.Email s).1.1 ≠ none) →
      lib.bcrypt_GenerateFromPassword salt user.Password = .error e →
      (handlers.RegisterUser lib h newID salt r s).1
        = http.Error ("ошибка при хешировании пароля: " ++ e.Error) 400) ∧
    -- RegisterUser, storing the user
    (∀ newID salt user hash,
      lib.json_DecodeUser r.Body = .ok user →
      user.Username ≠ "" → user.Email ≠ "" → user.Password ≠ "" →
      service.emailRegex.MatchString user.Email = true →
      ¬ ((h.userRepo.GetByEmail user.Email s).1.2 = none ∧
        (h.userRepo.GetByEmail user.Email s).1.1 ≠ none) →
      lib.bcrypt_GenerateFromPassword salt user.Password = .ok hash →
      (h.userRepo.Create ⟨newID, user.Username, user.Email, hash⟩
        (h.userRepo.GetByEmail user.Email s).2).1 = some e →
      (handlers.RegisterUser lib h newID salt r s).1
        = http.Error ("ошибка при создании пользователя: " ++ e.Error) 400) := by
  refine ⟨?_, ?_, ?_, ?_, ?_, ?_⟩
  · intro userID hctx hdel
    unfold handlers.RevokeAllRefreshTokens
    rw [hctx]
    simp only
    rw [DeleteAllRefreshTokensByUserID_err h.refreshTokenRepo userID s e hdel]
  · intro now refreshID refreshToken refreshNow loginData user tokenString created hbody hget
      hpw hsign hcreate
    unfold handlers.LoginUser
    simp only [hbody]
    unfold service.GetUserByEmail
    rcases hq : h.userRepo.GetByEmail loginData.Email s with ⟨⟨u1, e1⟩, s1⟩
    rw [hq] at hget hcreate
    cases hget
    simp only at hcreate ⊢
    simp only [hpw, hsign]
    rcases hc : service.CreateRefreshToken lib env h.refreshTokenRepo refreshID refreshToken
      refreshNow user.ID s1 with ⟨⟨c1, e2⟩, s2⟩
    rw [hc] at hcreate
    cases hcreate
    cases created <;> rfl
  · intro now refreshID refreshToken refreshNow loginData u hbody hget
    unfold handlers.LoginUser
    simp only [hbody]
    have hsvc := GetUserByEmail_err h.userRepo loginData.Email s u e hget
    rcases hq : service.GetUserByEmail h.userRepo loginData.Email s with ⟨⟨u1, e1⟩, s1⟩
    rw [hq] at hsvc
    cases hsvc
    rfl
  · intro nowCheck nowIssue token t hbody hget
    unfold handlers.RefreshToken
    simp only [hbody]
    have hsvc := GetRefreshToken_err h.refreshTokenRepo token s t e hget
    rcases hq : service.GetRefreshToken h.refreshTokenRepo token s with ⟨⟨u1, e1⟩, s1⟩
    rw [hq] at hsvc
    cases hsvc
    rfl
  · intro newID salt user hbody hu hm hp he hfree hhash
    exact RegisterUser_err lib h newID salt r s user none _ hbody
      (CreateUser_hash_err lib h.userRepo newID salt user.Username user.Email user.Password s e
        hu hm hp he hfree hhash)
  · intro newID salt user hash hbody hu hm hp he hfree hhash hcreate
    refine RegisterUser_err lib h newID salt r s user none _ hbody
      (CreateUser_create_err lib h.userRepo newID salt user.Username user.Email user.Password s
        ⟨newID, user.Username, user.Email, hash⟩ e hu hm hp he hfree ?_ hcreate)
    simp only [domain.User.HashPassword, hhash]

/-- Witness of C22: with an unreachable database, revoking answers 500, a login
and a refresh answer 401 and a registration answers 400; with a reachable
database and no TTL setting, a login answers 500; with a password hash that
refuses 73 bytes, a registration answers 400. -/
theorem C22_failure_status_codes_witness :
    (handlers.RevokeAllRefreshTokens sample.downHandler { ctx := auth.ContextWithUser [] 1 } {}).1
        = http.Error "Ошибка при отзыве refresh токенов" 500 ∧
      (handlers.LoginUser sample.libs sample.envNoTTL sample.handler 0 2 3 0
          { Body := "alice@example.com\npw123" }
          { users := [⟨1, "alice", "alice@example.com", "$pw123"⟩] }).1
        = http.Error "Ошибка при создании refresh токена" 500 ∧
      (handlers.LoginUser sample.libs sample.env sample.downHandler 0 2 3 0
          { Body := "alice@example.com\npw123" } {}).1
        = http.Error "Неверный email или пароль" 401 ∧
      (handlers.RefreshToken sample.libs sample.downHandler 5 6 { Body := "uuu" } {}).1
        = http.Error "Неверный refresh токен" 401 ∧
      (handlers.RegisterUser sample.libsLimit sample.handler 1 "salt"
          { Body := "alice\nalice@example.com\n" ++
              "aaaaaaaaaaaaaaaaaaaaaaaaaaaaaaaaaaaaaaaaaaaaaaaaaaaaaaaaaaaaaaaaaaaaaaaaa" } {}).1
        = http.Error ("ошибка при хешировании пароля: " ++
            (GoError.errorf "bcrypt: password length exceeds 72 bytes").Error) 400 ∧
      (handlers.RegisterUser sample.libs sample.downHandler 1 "salt"
          { Body := "alice\nalice@example.com\npw123" } {}).1
        = http.Error ("ошибка при создании пользователя: " ++
            (GoError.wrapf "ошибка в создании пользователя" sample.storageError).Error) 400 :=
  ⟨(C22_failure_status_codes sample.libs sample.env sample.downHandler
      { ctx := auth.ContextWithUser [] 1 } {}
      (.wrapf "ошибка при удалении всех refresh токенов пользователя" sample.storageError)).1
      1 (by decide) (by decide),
    (C22_failure_status_codes sample.libs sample.envNoTTL sample.handler
      { Body := "alice@example.com\npw123" }
      { users := [⟨1, "alice", "alice@example.com", "$pw123"⟩] }
      (.errorf "time: invalid duration")).2.1
      0 2 3 0 ⟨"alice@example.com", "pw123"⟩ ⟨1, "alice", "alice@example.com", "$pw123"⟩
      (sample.encodeToken 86400 "secret" "u") none (by rfl) (by decide) (by decide) (by rfl) (by decide),
    (C22_failure_status_codes sample.libs sample.env sample.downHandler
      { Body := "alice@example.com\npw123" } {}
      (.wrapf "ошибка в получении пользователя по email" sample.storageError)).2.2.1
      0 2 3 0 ⟨"alice@example.com", "pw123"⟩ none (by rfl) (by decide),
    (C22_failure_status_codes sample.libs sample.env sample.downHandler { Body := "uuu" } {}
      (.wrapf "ошибка при получении refresh токена по токену" sample.storageError)).2.2.2.1
      5 6 "uuu" none (by rfl) (by decide),
    (C22_failure_status_codes sample.libsLimit sample.env sample.handler
      { Body := "alice\nalice@example.com\n" ++
          "aaaaaaaaaaaaaaaaaaaaaaaaaaaaaaaaaaaaaaaaaaaaaaaaaaaaaaaaaaaaaaaaaaaaaaaaa" } {}
      (.errorf "bcrypt: password length exceeds 72 bytes")).2.2.2.2.1
      1 "salt"
      ⟨0, "alice", "alice@example.com",
        "aaaaaaaaaaaaaaaaaaaaaaaaaaaaaaaaaaaaaaaaaaaaaaaaaaaaaaaaaaaaaaaaaaaaaaaaa"⟩
      (by rfl) (by decide) (by decide) (by decide) (by decide) (by decide) (by rfl),
    (C22_failure_status_codes sample.libs sample.env sample.downHandler
      { Body := "alice\nalice@example.com\npw123" } {}
      (.wrapf "ошибка в создании пользователя" sample.storageError)).2.2.2.2.2
      1 "salt" ⟨0, "alice", "alice@example.com", "pw123"⟩ "$pw123"
      (by rfl) (by decide) (by decide) (by decide) (by decide) (by decide) (by rfl)
      (by decide)⟩

/-- C22 as stated fails: with an unreachable database every repository call
returns a storage error; a well-formed registration is answered with 400, a
login and a refresh with 401, none of them with 500. -/
theorem C22_counterexample :
    (sample.downUserRepo.Create ⟨1, "alice", "alice@example.com", "$pw123"⟩ {}).1
        = some (.wrapf "ошибка в создании пользователя" sample.storageError) ∧
      (handlers.RegisterUser sample.libs sample.downHandler 1 "salt"
          { Body := "alice\nalice@example.com\npw123" } {}).1.status = some 400 ∧
      (sample.downUserRepo.GetByEmail "alice@example.com" {}).1
        = (none, some (.wrapf "ошибка в получении пользователя по email" sample.storageError)) ∧
      (handlers.LoginUser sample.libs sample.env sample.downHandler 0 2 3 0
          { Body := "alice@example.com\npw123" } {}).1.status = some 401 ∧
      (sample.downRefreshTokenRepo.GetByToken "uuu" {}).1
        = (none, some (.wrapf "ошибка при получении refresh токена по токену"
            sample.storageError)) ∧
      (handlers.RefreshToken sample.libs sample.downHandler 5 6 { Body := "uuu" } {}).1.status
        = some 401 := by
  decide

/-! ## Updating a user -/

/-- C23. `UpdateUser` validates nothing. For every id, user name and email
(empty, malformed and already used ones included): when `GetByID` returns a
user and `Update` succeeds, `UpdateUser` returns that user with `Username` and
`Email` replaced by the inputs and with `ID` and `Password` unchanged, and the
repository receives exactly `GetByID id` and then `Update` of that very user;
when `GetByID` fails, `UpdateUser` returns a nil user and the error
"пользователь не найден", and the repository receives `GetByID id` only. -/
theorem C23_UpdateUser_no_validation {σ : Type} (userRepo : repository.UserRepository σ)
    (id : uuid.UUID) (username email : String) (s : σ) (log : List repository.Call) :
    (∀ user : domain.User, (userRepo.GetByID id s).1 = (some user, none) →
      (userRepo.Update ⟨user.ID, username, email, user.Password⟩ (userRepo.GetByID id s).2).1
        = none →
      service.UpdateUser userRepo.recording id username email (s, log)
        = (some (some ⟨user.ID, username, email, user.Password⟩, none),
            ((userRepo.Update ⟨user.ID, username, email, user.Password⟩
                (userRepo.GetByID id s).2).2,
              log ++ [.user (.GetByID id),
                .user (.Update ⟨user.ID, username, email, user.Password⟩)]))) ∧
    (∀ (u : Option domain.User) (e : GoError), (userRepo.GetByID id s).1 = (u, some e) →
      service.UpdateUser userRepo.recording id username email (s, log)
        = (some (none, some (.errorf "пользователь не найден")),
            ((userRepo.GetByID id s).2, log ++ [.user (.GetByID id)]))) := by
  constructor
  · intro user hget hupd
    unfold service.UpdateUser
    rcases hq : userRepo.GetByID id s with ⟨⟨u1, e1⟩, s1⟩
    rw [hq] at hget hupd
    cases hget
    rcases hc : userRepo.Update ⟨user.ID, username, email, user.Password⟩ s1 with ⟨r, s2⟩
    rw [hc] at hupd
    simp only at hupd
    subst hupd
    simp only [repository.UserRepository.recording, hq, hc, List.append_assoc,
      List.singleton_append]
  · intro u e hget
    unfold service.UpdateUser
    rcases hq : userRepo.GetByID id s with ⟨⟨u1, e1⟩, s1⟩
    rw [hq] at hget
    cases hget
    simp only [repository.UserRepository.recording, hq]

/-- Witness of C23: bob takes an empty user name and the email of alice; an id
that is not in the table gives the not-found error after one `GetByID`. -/
theorem C23_UpdateUser_no_validation_witness :
    service.UpdateUser postgres.UserRepository.recording 2 "" "a@x.io"
        ({ users := [⟨1, "alice", "a@x.io", "$pw"⟩, ⟨2, "bob", "b@x.io", "$pw2"⟩] }, [])
      = (some (some ⟨2, "", "a@x.io", "$pw2"⟩, none),
          ((postgres.UserRepository.Update ⟨2, "", "a@x.io", "$pw2"⟩
              (postgres.UserRepository.GetByID 2
                { users := [⟨1, "alice", "a@x.io", "$pw"⟩, ⟨2, "bob", "b@x.io", "$pw2"⟩] }).2).2,
            [] ++ [.user (.GetByID 2), .user (.Update ⟨2, "", "a@x.io", "$pw2"⟩)])) ∧
      service.UpdateUser postgres.UserRepository.recording 7 "carol" "not an email" ({}, [])
        = (some (none, some (.errorf "пользователь не найден")),
            ((postgres.UserRepository.GetByID 7 {}).2, [] ++ [.user (.GetByID 7)])) :=
  ⟨(C23_UpdateUser_no_validation postgres.UserRepository 2 "" "a@x.io"
      { users := [⟨1, "alice", "a@x.io", "$pw"⟩, ⟨2, "bob", "b@x.io", "$pw2"⟩] } []).1
      ⟨2, "bob", "b@x.io", "$pw2"⟩ (by decide) (by decide),
    (C23_UpdateUser_no_validation postgres.UserRepository 7 "carol" "not an email" {} []).2
      none (.wrapf "пользователь не найден" postgres.ErrNoRows) (by decide)⟩

/-! ## Hashing and comparing a password -/

theorem takeBytes_of_le (l : List Char) (n : Nat) (h : String.utf8Len l ≤ n) :
    sample.takeBytes n l = l := by
  induction l generalizing n with
  | nil => rfl
  | cons c cs ih =>
    rw [String.utf8Len_cons] at h
    rw [sample.takeBytes, if_pos (by omega), ih (n - c.utf8Size) (by omega)]

theorem takeBytes_append (l r : List Char) :
    sample.takeBytes (String.utf8Len l) (l ++ r) = l := by
  induction l with
  | nil =>
    cases r with
    | nil => rfl
    | cons c cs =>
      have := Char.utf8Size_pos c
      rw [List.nil_append, String.utf8Len_nil, sample.takeBytes, if_neg (by omega)]
  | cons c cs ih =>
    rw [List.cons_append, String.utf8Len_cons, sample.takeBytes, if_pos (by omega),
      Nat.add_sub_cancel, ih]

theorem sample_libsTrunc_BcryptRoundTrip : sample.libsTrunc.BcryptRoundTrip := by
  intro salt password hash h
  simp only [sample.libsTrunc, sample.libsLimit] at h ⊢
  split at h
  · cases h
  · rename_i hle
    simp only [Except.ok.injEq] at h
    subst h
    have hsize : String.utf8Len password.data ≤ 72 := by
      have hb : password.utf8ByteSize = String.utf8Len password.data := rfl
      omega
    rw [takeBytes_of_le password.data 72 hsize]
    simp

theorem sample_libsTrunc_BcryptReads72 : sample.libsTrunc.BcryptReads72 := by
  intro hash password suffix hsize
  have hb : String.utf8Len password.data = 72 := hsize
  have h1 : sample.takeBytes 72 (password ++ suffix).data = password.data := by
    rw [String.data_append, ← hb, takeBytes_append]
  have h2 : sample.takeBytes 72 password.data = password.data :=
    takeBytes_of_le password.data 72 (by omega)
  simp only [sample.libsTrunc, h1, h2]

/-- C24, amended. With a bcrypt whose hashes compare equal to the hashed
password: for every user and plaintext `p`, after `HashPassword(p)` succeeds,
the user's `Password` is the hash bcrypt generated for `p` and the other fields
are as before; `ComparePassword(p)` returns nil; and `ComparePassword(p2)`
returns, for every `p2`, what bcrypt returns for that hash and `p2`. This is
not an error for every `p2` different from `p`: bcrypt reads the first 72 bytes
of a password, so when `p` has 72 bytes `ComparePassword` returns nil for every
`p2` that continues `p`. -/
theorem C24_hash_then_compare (lib : Libs) (hround : lib.BcryptRoundTrip)
    (salt : String) (u hashed : domain.User) (p : String)
    (hhash : u.HashPassword lib salt p = (hashed, none)) :
    hashed.ComparePassword lib p = none ∧
      (∃ hash : String, lib.bcrypt_GenerateFromPassword salt p = .ok hash ∧
        hashed = ⟨u.ID, u.Username, u.Email, hash⟩ ∧
        ∀ p2 : String,
          hashed.ComparePassword lib p2 = lib.bcrypt_CompareHashAndPassword hash p2) ∧
      (lib.BcryptReads72 → p.utf8ByteSize = 72 →
        ∀ suffix : String, hashed.ComparePassword lib (p ++ suffix) = none) := by
  unfold domain.User.HashPassword at hhash
  cases hg : lib.bcrypt_GenerateFromPassword salt p with
  | error err =>
    rw [hg] at hhash
    cases hhash
  | ok hash =>
    rw [hg] at hhash
    simp only [Prod.mk.injEq, and_true] at hhash
    subst hhash
    refine ⟨hround salt p hash hg, ⟨hash, rfl, rfl, fun _ => rfl⟩, ?_⟩
    intro hreads hsize suffix
    show lib.bcrypt_CompareHashAndPassword hash (p ++ suffix) = none
    rw [hreads hash p suffix hsize]
    exact hround salt p hash hg

/-- Witness of C24: with a hash that reads 72 bytes, alice's password "pw123"
is hashed and compares equal; a password of 72 letters is hashed and compares
equal with one more letter after it. -/
theorem C24_hash_then_compare_witness :
    domain.User.ComparePassword sample.libsTrunc ⟨1, "alice", "alice@example.com", "$pw123"⟩
        "pw123" = none ∧
      domain.User.ComparePassword sample.libsTrunc
        ⟨1, "alice", "alice@example.com",
          "$aaaaaaaaaaaaaaaaaaaaaaaaaaaaaaaaaaaaaaaaaaaaaaaaaaaaaaaaaaaaaaaaaaaaaaaa"⟩
        ("aaaaaaaaaaaaaaaaaaaaaaaaaaaaaaaaaaaaaaaaaaaaaaaaaaaaaaaaaaaaaaaaaaaaaaaa" ++ "b")
        = none :=
  ⟨(C24_hash_then_compare sample.libsTrunc sample_libsTrunc_BcryptRoundTrip "salt"
      ⟨1, "alice", "alice@example.com", ""⟩ ⟨1, "alice", "alice@example.com", "$pw123"⟩ "pw123"
      (by decide)).1,
    (C24_hash_then_compare sample.libsTrunc sample_libsTrunc_BcryptRoundTrip "salt"
      ⟨1, "alice", "alice@example.com", ""⟩
      ⟨1, "alice", "alice@example.com",
        "$aaaaaaaaaaaaaaaaaaaaaaaaaaaaaaaaaaaaaaaaaaaaaaaaaaaaaaaaaaaaaaaaaaaaaaaa"⟩
      "aaaaaaaaaaaaaaaaaaaaaaaaaaaaaaaaaaaaaaaaaaaaaaaaaaaaaaaaaaaaaaaaaaaaaaaa"
      (by decide)).2.2 sample_libsTrunc_BcryptReads72 (by decide) "b"⟩

/-- C24 as stated fails: with a hash that, like bcrypt, reads the first 72
bytes of a password, `HashPassword` succeeds on a password of 72 letters `a`
and `ComparePassword` then returns nil for the different password of 73
letters `a`. -/
theorem C24_counterexample :
    domain.User.HashPassword sample.libsTrunc "salt" ⟨1, "alice", "alice@example.com", ""⟩
        "aaaaaaaaaaaaaaaaaaaaaaaaaaaaaaaaaaaaaaaaaaaaaaaaaaaaaaaaaaaaaaaaaaaaaaaa"
      = (⟨1, "alice", "alice@example.com",
          "$aaaaaaaaaaaaaaaaaaaaaaaaaaaaaaaaaaaaaaaaaaaaaaaaaaaaaaaaaaaaaaaaaaaaaaaa"⟩, none) ∧
      "aaaaaaaaaaaaaaaaaaaaaaaaaaaaaaaaaaaaaaaaaaaaaaaaaaaaaaaaaaaaaaaaaaaaaaaaa"
        ≠ "aaaaaaaaaaaaaaaaaaaaaaaaaaaaaaaaaaaaaaaaaaaaaaaaaaaaaaaaaaaaaaaaaaaaaaaa" ∧
      domain.User.ComparePassword sample.libsTrunc
        ⟨1, "alice", "alice@example.com",
          "$aaaaaaaaaaaaaaaaaaaaaaaaaaaaaaaaaaaaaaaaaaaaaaaaaaaaaaaaaaaaaaaaaaaaaaaa"⟩
        "aaaaaaaaaaaaaaaaaaaaaaaaaaaaaaaaaaaaaaaaaaaaaaaaaaaaaaaaaaaaaaaaaaaaaaaaa" = none := by
  decide

/-! ## The color of a label -/

theorem hexClass_iff (c : Char) :
    regexp.Regexp.inClass [('0', '9'), ('a', 'f'), ('A', 'F')] c = true ↔ spec.hexDigit c := by
  simp only [inClass_cons, inClass_nil, spec.hexDigit, or_false]

open regexp in
theorem cls_iff (ranges : List (Char × Char)) (w : List Char) :
    (Regexp.cls ranges).Matches w ↔ ∃ c, w = [c] ∧ Regexp.inClass ranges c = true := by
  rw [Regexp.Matches]

open regexp in
theorem alt_eps_iff (a : Regexp) (w : List Char) :
    (Regexp.alt Regexp.eps a).Matches w ↔ w = [] ∨ a.Matches w := by
  rw [Regexp.Matches, Regexp.Matches]

open regexp in
theorem three_cls_iff (ranges : List (Char × Char)) (w : List Char) :
    (Regexp.seq (Regexp.cls ranges) (Regexp.seq (Regexp.cls ranges) (Regexp.cls ranges))).Matches w
      ↔ w.length = 3 ∧ ∀ c ∈ w, Regexp.inClass ranges c = true := by
  simp only [seq_iff, cls_iff]
  constructor
  · rintro ⟨u, v, hw, ⟨a, hu, ha⟩, v1, v2, hv, ⟨b, hv1, hb⟩, c, hv2, hc⟩
    subst hw hu hv hv1 hv2
    refine ⟨rfl, ?_⟩
    intro x hx
    simp only [List.singleton_append, List.mem_cons, List.mem_singleton, List.not_mem_nil,
      or_false] at hx
    rcases hx with h | h | h <;> rw [h] <;> assumption
  · rintro ⟨hlen, hall⟩
    match w, hlen, hall with
    | [a, b, c], _, hall =>
      exact ⟨[a], [b, c], rfl, ⟨a, rfl, hall a (by simp)⟩, [b], [c], rfl,
        ⟨b, rfl, hall b (by simp)⟩, c, rfl, hall c (by simp)⟩

theorem hexColorRegex_matches_iff (s : List Char) :
    service.hexColorRegex.Matches s ↔
      ∃ digits : List Char, s = '#' :: digits ∧ (digits.length = 3 ∨ digits.length = 6) ∧
        ∀ c ∈ digits, spec.hexDigit c := by
  unfold service.hexColorRegex
  simp only [seq_iff (regexp.Regexp.lit '#'),
    fun a b c w => seq_iff a (regexp.Regexp.alt b c) w, lit_iff, alt_eps_iff, three_cls_iff,
    hexClass_iff]
  constructor
  · rintro ⟨u, v, hs, hu, x, y, hv, ⟨hxlen, hx⟩, hy⟩
    subst hs hu hv
    refine ⟨x ++ y, rfl, ?_, ?_⟩
    · rcases hy with hy | ⟨hylen, _⟩
      · left
        rw [hy, List.append_nil]
        exact hxlen
      · right
        rw [List.length_append, hxlen, hylen]
    · intro c hc
      rcases List.mem_append.mp hc with h | h
      · exact hx c h
      · rcases hy with hy | ⟨_, hy⟩
        · rw [hy] at h
          cases h
        · exact hy c h
  · rintro ⟨digits, hs, hlen, hall⟩
    subst hs
    rcases hlen with hlen | hlen
    · exact ⟨['#'], digits, rfl, rfl, digits, [], (List.append_nil _).symm, ⟨hlen, hall⟩,
        Or.inl rfl⟩
    · refine ⟨['#'], digits, rfl, rfl, digits.take 3, digits.drop 3,
        (List.take_append_drop 3 digits).symm, ⟨?_, ?_⟩, Or.inr ⟨?_, ?_⟩⟩
      · rw [List.length_take, hlen]
        rfl
      · intro c hc
        exact hall c (List.mem_of_mem_take hc)
      · rw [List.length_drop, hlen]
      · intro c hc
        exact hall c (List.mem_of_mem_drop hc)

theorem hexColorRegex_iff_shape (color : String) :
    service.hexColorRegex.MatchString color = true ↔ spec.hexColorShape color := by
  rw [regexp.Regexp.MatchString, matchRunes_iff, hexColorRegex_matches_iff]
  unfold spec.hexColorShape
  constructor
  · rintro ⟨digits, hs, hlen, hall⟩
    refine ⟨String.mk digits, ?_, hlen, hall⟩
    apply String.ext
    simp [String.data_append, hs]
  · rintro ⟨digits, hs, hlen, hall⟩
    refine ⟨digits.data, ?_, hlen, hall⟩
    rw [hs]
    simp [String.data_append]

/-- C25. The color test of `CreateLabel` accepts exactly the strings made of a
number sign and three or six hexadecimal digits. The checks run in this order,
each returning a nil label and its own error with no call to the repository:
empty name, empty color, nil user id, color not of that shape ("неверный
формат цвета (HEX)"). When all pass, the repository receives exactly one
`Create`, of the label with the generated id and the given name, color and user
id; `CreateLabel` returns that label when `Create` succeeds. -/
theorem C25_CreateLabel_color_format {σ : Type} (labelRepo : repository.LabelRepository σ)
    (newID : uuid.UUID) (name color : String) (userID : uuid.UUID) (s : σ)
    (log : List repository.LabelCall) :
    (service.hexColorRegex.MatchString color = true ↔ spec.hexColorShape color) ∧
    (name = "" →
      service.CreateLabel labelRepo.recording newID name color userID (s, log)
        = ((none, some (.errorf "необходимо указать название метки")), (s, log))) ∧
    (name ≠ "" → color = "" →
      service.CreateLabel labelRepo.recording newID name color userID (s, log)
        = ((none, some (.errorf "необходимо указать цвет метки")), (s, log))) ∧
    (name ≠ "" → color ≠ "" → userID = uuid.Nil →
      service.CreateLabel labelRepo.recording newID name color userID (s, log)
        = ((none, some (.errorf "необходимо указать пользователя")), (s, log))) ∧
    (name ≠ "" → color ≠ "" → userID ≠ uuid.Nil → ¬ spec.hexColorShape color →
      service.CreateLabel labelRepo.recording newID name color userID (s, log)
        = ((none, some (.errorf "неверный формат цвета (HEX)")), (s, log))) ∧
    (name ≠ "" → color ≠ "" → userID ≠ uuid.Nil → spec.hexColorShape color →
      (service.CreateLabel labelRepo.recording newID name color userID (s, log)).2
          = ((labelRepo.Create ⟨newID, name, color, userID⟩ s).2,
              log ++ [.Create ⟨newID, name, color, userID⟩]) ∧
        ((labelRepo.Create ⟨newID, name, color, userID⟩ s).1 = none →
          (service.CreateLabel labelRepo.recording newID name color userID (s, log)).1
            = (some ⟨newID, name, color, userID⟩, none))) := by
  refine ⟨hexColorRegex_iff_shape color, ?_, ?_, ?_, ?_, ?_⟩
  · intro hn
    unfold service.CreateLabel
    rw [if_pos hn]
  · intro hn hc
    unfold service.CreateLabel
    rw [if_neg hn, if_pos hc]
  · intro hn hc hu
    unfold service.CreateLabel
    rw [if_neg hn, if_neg hc, if_pos hu]
  · intro hn hc hu hshape
    have hfmt : service.hexColorRegex.MatchString color = false := by
      cases hm : service.hexColorRegex.MatchString color with
      | false => rfl
      | true => exact absurd ((hexColorRegex_iff_shape color).mp hm) hshape
    unfold service.CreateLabel
    rw [if_neg hn, if_neg hc, if_neg hu, hfmt]
    rfl
  · intro hn hc hu hshape
    have hfmt := (hexColorRegex_iff_shape color).mpr hshape
    unfold service.CreateLabel
    rw [if_neg hn, if_neg hc, if_neg hu, hfmt]
    simp only [Bool.not_true, Bool.false_eq_true, if_false,
      repository.LabelRepository.recording]
    rcases hq : labelRepo.Create ⟨newID, name, color, userID⟩ s with ⟨r, s1⟩
    cases r with
    | none => exact ⟨rfl, fun _ => rfl⟩
    | some e =>
      refine ⟨rfl, ?_⟩
      intro h
      cases h

/-- Witness of C25: with three and with six hexadecimal digits the label is
stored; with four digits, with a letter that is not hexadecimal, with an empty
name, an empty color or a nil user id nothing is asked of the repository. -/
theorem C25_CreateLabel_color_format_witness :
    (service.CreateLabel postgres.LabelRepository.recording 9 "home" "#fff" 2 ({}, [])).1
        = (some ⟨9, "home", "#fff", 2⟩, none) ∧
      (service.CreateLabel postgres.LabelRepository.recording 9 "home" "#A1b2C3" 2 ({}, [])).1
        = (some ⟨9, "home", "#A1b2C3", 2⟩, none) ∧
      service.CreateLabel postgres.LabelRepository.recording 9 "home" "#ffff" 2 ({}, [])
        = ((none, some (.errorf "неверный формат цвета (HEX)")), ({}, [])) ∧
      service.CreateLabel postgres.LabelRepository.recording 9 "home" "#ggg" 2 ({}, [])
        = ((none, some (.errorf "неверный формат цвета (HEX)")), ({}, [])) ∧
      service.CreateLabel postgres.LabelRepository.recording 9 "" "" 0 ({}, [])
        = ((none, some (.errorf "необходимо указать название метки")), ({}, [])) ∧
      service.CreateLabel postgres.LabelRepository.recording 9 "home" "" 0 ({}, [])
        = ((none, some (.errorf "необходимо указать цвет метки")), ({}, [])) ∧
      service.CreateLabel postgres.LabelRepository.recording 9 "home" "red" 0 ({}, [])
        = ((none, some (.errorf "необходимо указать пользователя")), ({}, [])) :=
  ⟨((C25_CreateLabel_color_format postgres.LabelRepository 9 "home" "#fff" 2 {} []).2.2.2.2.2
      (by decide) (by decide) (by decide)
      ((C25_CreateLabel_color_format postgres.LabelRepository 9 "home" "#fff" 2 {} []).1.mp
        (by decide))).2 (by decide),
    ((C25_CreateLabel_color_format postgres.LabelRepository 9 "home" "#A1b2C3" 2 {} []).2.2.2.2.2
      (by decide) (by decide) (by decide)
      ((C25_CreateLabel_color_format postgres.LabelRepository 9 "home" "#A1b2C3" 2 {} []).1.mp
        (by decide))).2 (by decide),
    (C25_CreateLabel_color_format postgres.LabelRepository 9 "home" "#ffff" 2 {} []).2.2.2.2.1
      (by decide) (by decide) (by decide)
      (fun h => absurd
        ((C25_CreateLabel_color_format postgres.LabelRepository 9 "home" "#ffff" 2 {} []).1.mpr h)
        (by decide)),
    (C25_CreateLabel_color_format postgres.LabelRepository 9 "home" "#ggg" 2 {} []).2.2.2.2.1
      (by decide) (by decide) (by decide)
      (fun h => absurd
        ((C25_CreateLabel_color_format postgres.LabelRepository 9 "home" "#ggg" 2 {} []).1.mpr h)
        (by decide)),
    (C25_CreateLabel_color_format postgres.LabelRepository 9 "" "" 0 {} []).2.1 (by decide),
    (C25_CreateLabel_color_format postgres.LabelRepository 9 "home" "" 0 {} []).2.2.1
      (by decide) (by decide),
    (C25_CreateLabel_color_format postgres.LabelRepository 9 "home" "red" 0 {} []).2.2.2.1
      (by decide) (by decide) (by decide)⟩

/-! ## Creating a task -/

/-- C26. `CreateTask` returns a task exactly when the title is not empty, the
user id is not the nil UUID and the repository's `Create` succeeds. An empty
title gives a nil task and "необходимо указать название задачи"; a nil user id
(with a title) gives a nil task and "необходимо указать пользователя"; in both
cases the repository receives no call. A returned task comes with a nil error,
carries the generated id and the given title, description, due date and user
id, and has no label ids. -/
theorem C26_CreateTask_outcome {σ : Type} (taskRepo : repository.TaskRepository σ)
    (newID : uuid.UUID) (title description : String) (dueDate : time.Time)
    (userID : uuid.UUID) (s : σ) (log : List repository.TaskCall) :
    ((∃ task, (service.CreateTask taskRepo.recording newID title description dueDate userID
          (s, log)).1.1 = some task) ↔
      title ≠ "" ∧ userID ≠ uuid.Nil ∧
        (taskRepo.Create ⟨newID, title, description, dueDate, userID, []⟩ s).1 = none) ∧
    (title = "" →
      service.CreateTask taskRepo.recording newID title description dueDate userID (s, log)
        = ((none, some (.errorf "необходимо указать название задачи")), (s, log))) ∧
    (title ≠ "" → userID = uuid.Nil →
      service.CreateTask taskRepo.recording newID title description dueDate userID (s, log)
        = ((none, some (.errorf "необходимо указать пользователя")), (s, log))) ∧
    (∀ task, (service.CreateTask taskRepo.recording newID title description dueDate userID
          (s, log)).1.1 = some task →
      (service.CreateTask taskRepo.recording newID title description dueDate userID
          (s, log)).1.2 = none ∧
        task.ID = newID ∧ task.Title = title ∧ task.Description = description ∧
        task.DueDate = dueDate ∧ task.UserID = userID ∧ task.LabelIDs = [] ∧
        (service.CreateTask taskRepo.recording newID title description dueDate userID
          (s, log)).2.2 = log ++ [.Create task]) := by
  unfold service.CreateTask
  by_cases ht : title = ""
  · simp [ht]
  · by_cases hu : userID = uuid.Nil
    · simp [ht, hu]
    · simp only [if_neg ht, if_neg hu, repository.TaskRepository.recording]
      rcases hq : taskRepo.Create ⟨newID, title, description, dueDate, userID, []⟩ s
        with ⟨r, s1⟩
      cases r with
      | none =>
        refine ⟨⟨fun _ => ⟨ht, hu, rfl⟩, fun _ => ⟨_, rfl⟩⟩, fun h => absurd h ht,
          fun _ h => absurd h hu, ?_⟩
        intro task h
        simp only [Option.some.injEq] at h
        subst h
        exact ⟨rfl, rfl, rfl, rfl, rfl, rfl, rfl, rfl⟩
      | some e =>
        refine ⟨⟨?_, ?_⟩, fun h => absurd h ht, fun _ h => absurd h hu, ?_⟩
        · rintro ⟨task, h⟩
          cases h
        · rintro ⟨_, _, h⟩
          cases h
        · intro task h
          cases h

/-- Witness of C26: a task with a title and a user id is created in the
PostgreSQL store with no label ids; without a title, or without a user id,
nothing is created and the repository is not called. -/
theorem C26_CreateTask_outcome_witness :
    (∃ task, (service.CreateTask postgres.TaskRepository.recording 7 "title" "text" 5 2
        ({}, [])).1.1 = some task) ∧
      service.CreateTask postgres.TaskRepository.recording 7 "" "text" 5 0 ({}, [])
        = ((none, some (.errorf "необходимо указать название задачи")), ({}, [])) ∧
      service.CreateTask postgres.TaskRepository.recording 7 "title" "text" 5 0 ({}, [])
        = ((none, some (.errorf "необходимо указать пользователя")), ({}, [])) ∧
      (service.CreateTask postgres.TaskRepository.recording 7 "title" "text" 5 2
          ({}, [])).1.2 = none ∧
      (⟨7, "title", "text", 5, 2, []⟩ : domain.Task).LabelIDs = [] :=
  ⟨(C26_CreateTask_outcome postgres.TaskRepository 7 "title" "text" 5 2 {} []).1.mpr
      ⟨by decide, by decide, by decide⟩,
    (C26_CreateTask_outcome postgres.TaskRepository 7 "" "text" 5 0 {} []).2.1 (by decide),
    (C26_CreateTask_outcome postgres.TaskRepository 7 "title" "text" 5 0 {} []).2.2.1
      (by decide) (by decide),
    ((C26_CreateTask_outcome postgres.TaskRepository 7 "title" "text" 5 2 {} []).2.2.2
      ⟨7, "title", "text", 5, 2, []⟩ (by decide)).1,
    ((C26_CreateTask_outcome postgres.TaskRepository 7 "title" "text" 5 2 {} []).2.2.2
      ⟨7, "title", "text", 5, 2, []⟩ (by decide)).2.2.2.2.2.2.1⟩

/-! ## Revocation and the tokens of other users -/

theorem find_filter_of_find {α : Type} (l : List α) (p q : α → Bool) (a : α)
    (hfind : l.find? q = some a) (hp : p a = true) : (l.filter p).find? q = some a := by
  induction l with
  | nil => cases hfind
  | cons x xs ih =>
    rw [List.find?_cons] at hfind
    cases hq : q x with
    | true =>
      rw [hq] at hfind
      simp only [Option.some.injEq] at hfind
      subst hfind
      rw [List.filter_cons, if_pos hp, List.find?_cons, hq]
    | false =>
      rw [hq] at hfind
      rw [List.filter_cons]
      split
      · rw [List.find?_cons, hq]
        exact ih hfind
      · exact ih hfind

theorem postgres_GetByToken_inv (db : postgres.DB) (token : String) (rt : domain.RefreshToken)
    (h : (postgres.RefreshTokenRepository.GetByToken token db).1 = (some rt, none)) :
    db.refresh_tokens.find? (fun t => decide (t.Token = token)) = some rt := by
  simp only [postgres.RefreshTokenRepository] at h
  split at h
  · rename_i found hfound
    simp only [Prod.mk.injEq, Option.some.injEq, and_true] at h
    rw [hfound, h]
  · simp at h

theorem postgres_RefreshToken_found (lib : Libs) (cfg : config.Config) (db : postgres.DB)
    (rt : domain.RefreshToken) (r : http.Request) (nowCheck nowIssue : time.Time)
    (token tok : String)
    (hbody : lib.json_DecodeRefresh r.Body = .ok token)
    (hfind : db.refresh_tokens.find? (fun t => decide (t.Token = token)) = some rt)
    (hlive : ¬ rt.ExpiryDate < nowCheck)
    (hsign : lib.jwt_SignedString (handlers.accessClaims lib rt.UserID nowIssue) cfg.JWTSecret
      = .ok tok) :
    handlers.RefreshToken lib ⟨postgres.UserRepository, postgres.RefreshTokenRepository, cfg⟩
        nowCheck nowIssue r db
      = (.reply 200 (.json [("token", tok)]), db) := by
  have hget : postgres.RefreshTokenRepository.GetByToken token db = ((some rt, none), db) := by
    simp only [postgres.RefreshTokenRepository, hfind]
  simp only [handlers.RefreshToken, hbody, service.GetRefreshToken, hget, time.Time.Before,
    decide_eq_true_eq, hlive, if_false, hsign]

/-- C27. Over the PostgreSQL store, for every two distinct users `U` and `V`:
`DeleteAllRefreshTokensByUserID(U)` returns a nil error, leaves the refresh
tokens owned by `V` as they were, in the same order, and leaves the `users`,
`tasks` and `labels` tables untouched. A `RefreshToken` request whose token
string the lookup resolves to a record of `V` that is not expired is answered
after the revocation as before it: 200 with the same signed access token.
Signing with HS256 under a byte key is taken to succeed. -/
theorem C27_revocation_frame (lib : Libs) (cfg : config.Config) (db : postgres.DB)
    (U V : uuid.UUID) (hne : U ≠ V) :
    (service.DeleteAllRefreshTokensByUserID postgres.RefreshTokenRepository U db).1 = none ∧
      ((service.DeleteAllRefreshTokensByUserID postgres.RefreshTokenRepository U db).2
          |>.refresh_tokens.filter fun t => decide (t.UserID = V))
        = (db.refresh_tokens.filter fun t => decide (t.UserID = V)) ∧
      (service.DeleteAllRefreshTokensByUserID postgres.RefreshTokenRepository U db).2.users
        = db.users ∧
      (service.DeleteAllRefreshTokensByUserID postgres.RefreshTokenRepository U db).2.tasks
        = db.tasks ∧
      (service.DeleteAllRefreshTokensByUserID postgres.RefreshTokenRepository U db).2.labels
        = db.labels ∧
      ∀ (r : http.Request) (nowCheck nowIssue : time.Time) (token : String)
        (rt : domain.RefreshToken) (tok : String),
        lib.json_DecodeRefresh r.Body = .ok token →
        (postgres.RefreshTokenRepository.GetByToken token db).1 = (some rt, none) →
        rt.UserID = V →
        ¬ rt.ExpiryDate < nowCheck →
        lib.jwt_SignedString (handlers.accessClaims lib rt.UserID nowIssue) cfg.JWTSecret
          = .ok tok →
        handlers.RefreshToken lib
            ⟨postgres.UserRepository, postgres.RefreshTokenRepository, cfg⟩ nowCheck nowIssue r db
          = (.reply 200 (.json [("token", tok)]), db) ∧
        handlers.RefreshToken lib
            ⟨postgres.UserRepository, postgres.RefreshTokenRepository, cfg⟩ nowCheck nowIssue r
            (service.DeleteAllRefreshTokensByUserID postgres.RefreshTokenRepository U db).2
          = (.reply 200 (.json [("token", tok)]),
              (service.DeleteAllRefreshTokensByUserID postgres.RefreshTokenRepository U db).2) := by
  have hsvc : service.DeleteAllRefreshTokensByUserID postgres.RefreshTokenRepository U db
      = (none, { db with
          refresh_tokens := db.refresh_tokens.filter fun t => decide (t.UserID ≠ U) }) := rfl
  rw [hsvc]
  refine ⟨rfl, ?_, rfl, rfl, rfl, ?_⟩
  · simp only [List.filter_filter]
    apply List.filter_congr
    intro t _
    by_cases hv : t.UserID = V
    · have hu : t.UserID ≠ U := fun h => hne (h.symm.trans hv)
      simp [hv, hu]
      exact fun h => hne h.symm
    · simp [hv]
  · intro r nowCheck nowIssue token rt tok hbody hget hown hlive hsign
    have hfind := postgres_GetByToken_inv db token rt hget
    refine ⟨postgres_RefreshToken_found lib cfg db rt r nowCheck nowIssue token tok hbody hfind
      hlive hsign, ?_⟩
    apply postgres_RefreshToken_found lib cfg _ rt r nowCheck nowIssue token tok hbody _ hlive
      hsign
    apply find_filter_of_find _ _ _ rt hfind
    simp only [decide_eq_true_eq]
    rw [hown]
    exact fun h => hne h.symm

/-- Witness of C27: user 1 revokes; the token of user 7 stays in the table and
is refreshed with status 200 before and after. -/
theorem C27_revocation_frame_witness :
    (service.DeleteAllRefreshTokensByUserID postgres.RefreshTokenRepository 1
        { users := [⟨7, "bob", "b@x.io", "$pw"⟩],
          refresh_tokens := [⟨2, 1, "uuu", 10⟩, ⟨4, 7, "uuuuu", 10⟩] }).2
      = { users := [⟨7, "bob", "b@x.io", "$pw"⟩], refresh_tokens := [⟨4, 7, "uuuuu", 10⟩] } ∧
      handlers.RefreshToken sample.libs
          ⟨postgres.UserRepository, postgres.RefreshTokenRepository, sample.cfg⟩ 5 6
          { Body := "uuuuu" }
          { users := [⟨7, "bob", "b@x.io", "$pw"⟩],
            refresh_tokens := [⟨2, 1, "uuu", 10⟩, ⟨4, 7, "uuuuu", 10⟩] }
        = (.reply 200 (.json [("token", sample.encodeToken 86400 "secret" "uuuuuuu")]),
            { users := [⟨7, "bob", "b@x.io", "$pw"⟩],
              refresh_tokens := [⟨2, 1, "uuu", 10⟩, ⟨4, 7, "uuuuu", 10⟩] }) ∧
      handlers.RefreshToken sample.libs
          ⟨postgres.UserRepository, postgres.RefreshTokenRepository, sample.cfg⟩ 5 6
          { Body := "uuuuu" }
          (service.DeleteAllRefreshTokensByUserID postgres.RefreshTokenRepository 1
            { users := [⟨7, "bob", "b@x.io", "$pw"⟩],
              refresh_tokens := [⟨2, 1, "uuu", 10⟩, ⟨4, 7, "uuuuu", 10⟩] }).2
        = (.reply 200 (.json [("token", sample.encodeToken 86400 "secret" "uuuuuuu")]),
            (service.DeleteAllRefreshTokensByUserID postgres.RefreshTokenRepository 1
              { users := [⟨7, "bob", "b@x.io", "$pw"⟩],
                refresh_tokens := [⟨2, 1, "uuu", 10⟩, ⟨4, 7, "uuuuu", 10⟩] }).2) :=
  ⟨by decide,
    (C27_revocation_frame sample.libs sample.cfg
      { users := [⟨7, "bob", "b@x.io", "$pw"⟩],
        refresh_tokens := [⟨2, 1, "uuu", 10⟩, ⟨4, 7, "uuuuu", 10⟩] } 1 7 (by decide)).2.2.2.2.2
      { Body := "uuuuu" } 5 6 "uuuuu" ⟨4, 7, "uuuuu", 10⟩
      (sample.encodeToken 86400 "secret" "uuuuuuu") (by rfl) (by decide) (by rfl) (by decide)
      (by rfl)⟩

/-! ## The email lookup of a registration -/

/-- C28. For every registration with non-empty fields and a format-valid
email: whatever error `GetByEmail` returns (with or without a user next to it),
`CreateUser` discards it and goes on as for a free email; when the hash
succeeds the repository receives `GetByEmail` and then `Create` of the new
user, and `CreateUser` returns that user if `Create` succeeds and the wrapped
error of `Create` if not. The rejection "пользователь с таким email уже
существует" is returned exactly when `GetByEmail` returns a user and a nil
error. -/
theorem C28_CreateUser_lookup_error_discarded {σ : Type} (lib : Libs)
    (userRepo : repository.UserRepository σ) (newID : uuid.UUID)
    (salt username email password : String) (s : σ) (log : List repository.Call)
    (hu : username ≠ "") (hm : email ≠ "") (hp : password ≠ "")
    (he : service.emailRegex.MatchString email = true) :
    (∀ (existing : Option domain.User) (err : GoError) (hash : String),
      (userRepo.GetByEmail email s).1 = (existing, some err) →
      lib.bcrypt_GenerateFromPassword salt password = .ok hash →
      (service.CreateUser lib userRepo.recording newID salt username email password (s, log)).2
          = ((userRepo.Create ⟨newID, username, email, hash⟩ (userRepo.GetByEmail email s).2).2,
              log ++ [.user (.GetByEmail email),
                .user (.Create ⟨newID, username, email, hash⟩)]) ∧
        ((userRepo.Create ⟨newID, username, email, hash⟩ (userRepo.GetByEmail email s).2).1
            = none →
          (service.CreateUser lib userRepo.recording newID salt username email password
              (s, log)).1
            = (some ⟨newID, username, email, hash⟩, none)) ∧
        (∀ e, (userRepo.Create ⟨newID, username, email, hash⟩ (userRepo.GetByEmail email s).2).1
            = some e →
          (service.CreateUser lib userRepo.recording newID salt username email password
              (s, log)).1
            = (none, some (.wrapf "ошибка при создании пользователя" e)))) ∧
    ((service.CreateUser lib userRepo.recording newID salt username email password (s, log)).1
        = (none, some (.errorf "пользователь с таким email уже существует")) ↔
      ∃ existing : domain.User, (userRepo.GetByEmail email s).1 = (some existing, none)) := by
  have hfields : ¬ (username = "" ∨ email = "" ∨ password = "") := by simp [hu, hm, hp]
  unfold service.CreateUser
  rw [if_neg hfields, he]
  simp only [Bool.not_true, Bool.false_eq_true, if_false, repository.UserRepository.recording]
  rcases hq : userRepo.GetByEmail email s with ⟨⟨found, lookupErr⟩, s1⟩
  constructor
  · intro existing err hash hget hhash
    simp only [Prod.mk.injEq] at hget
    obtain ⟨_, hlookup⟩ := hget
    subst hlookup
    have hfree : ¬ ((some err : Option GoError) = none ∧ found ≠ none) := fun h => by
      cases h.1
    rw [if_neg hfree]
    simp only [domain.User.HashPassword, hhash]
    rcases hc : userRepo.Create ⟨newID, username, email, hash⟩ s1 with ⟨r, s2⟩
    cases r with
    | none =>
      simp only [List.append_assoc, List.singleton_append, List.nil_append, true_and,
        implies_true, and_true]
      intro e h
      cases h
    | some e =>
      simp only [List.append_assoc, List.singleton_append, List.nil_append, true_and]
      constructor
      · intro h
        cases h
      · intro e2 h
        cases h
        rfl
  · cases lookupErr with
    | some err =>
      have hfree : ¬ ((some err : Option GoError) = none ∧ found ≠ none) := fun h => by
        cases h.1
      rw [if_neg hfree]
      constructor
      · intro h
        exfalso
        unfold domain.User.HashPassword at h
        cases hg : lib.bcrypt_GenerateFromPassword salt password with
        | error e =>
          rw [hg] at h
          cases h
        | ok hash =>
          rw [hg] at h
          simp only at h
          rcases hc : userRepo.Create ⟨newID, username, email, hash⟩ s1 with ⟨r, s2⟩
          rw [hc] at h
          cases r <;> cases h
      · rintro ⟨existing, h⟩
        cases h
    | none =>
      cases found with
      | some existing =>
        rw [if_pos ⟨rfl, by simp⟩]
        exact ⟨fun _ => ⟨existing, rfl⟩, fun _ => rfl⟩
      | none =>
        have hfree : ¬ ((none : Option GoError) = none ∧ (none : Option domain.User) ≠ none) :=
          fun h => h.2 rfl
        rw [if_neg hfree]
        constructor
        · intro h
          exfalso
          unfold domain.User.HashPassword at h
          cases hg : lib.bcrypt_GenerateFromPassword salt password with
          | error e =>
            rw [hg] at h
            cases h
          | ok hash =>
            rw [hg] at h
            simp only at h
            rcases hc : userRepo.Create ⟨newID, username, email, hash⟩ s1 with ⟨r, s2⟩
            rw [hc] at h
            cases r <;> cases h
        · rintro ⟨existing, h⟩
          cases h

/-- Witness of C28: on an empty table the lookup fails with "no rows" and alice
is created; with an unreachable database the lookup fails, `Create` is called
all the same and its error is returned; with alice in the table the lookup
succeeds and the registration is rejected as a duplicate. -/
theorem C28_CreateUser_lookup_error_discarded_witness :
    (service.CreateUser sample.libs postgres.UserRepository.recording 1 "salt" "alice"
        "alice@example.com" "pw123" ({}, [])).1
      = (some ⟨1, "alice", "alice@example.com", "$pw123"⟩, none) ∧
    (service.CreateUser sample.libs sample.downUserRepo.recording 1 "salt" "alice"
        "alice@example.com" "pw123" ({}, [])).2
      = ((sample.downUserRepo.Create ⟨1, "alice", "alice@example.com", "$pw123"⟩
            (sample.downUserRepo.GetByEmail "alice@example.com" {}).2).2,
          [] ++ [.user (.GetByEmail "alice@example.com"),
            .user (.Create ⟨1, "alice", "alice@example.com", "$pw123"⟩)]) ∧
    (service.CreateUser sample.libs sample.downUserRepo.recording 1 "salt" "alice"
        "alice@example.com" "pw123" ({}, [])).1
      = (none, some (.wrapf "ошибка при создании пользователя"
          (.wrapf "ошибка в создании пользователя" sample.storageError))) ∧
    (service.CreateUser sample.libs postgres.UserRepository.recording 2 "salt" "alice2"
        "alice@example.com" "pw456"
        ({ users := [⟨1, "alice", "alice@example.com", "$pw123"⟩] }, [])).1
      = (none, some (.errorf "пользователь с таким email уже существует")) :=
  ⟨((C28_CreateUser_lookup_error_discarded sample.libs postgres.UserRepository 1 "salt" "alice"
      "alice@example.com" "pw123" {} [] (by decide) (by decide) (by decide) (by decide)).1
      none (.wrapf "пользователь не найден" postgres.ErrNoRows) "$pw123" (by decide)
      (by rfl)).2.1 (by decide),
    ((C28_CreateUser_lookup_error_discarded sample.libs sample.downUserRepo 1 "salt" "alice"
      "alice@example.com" "pw123" {} [] (by decide) (by decide) (by decide) (by decide)).1
      none (.wrapf "ошибка в получении пользователя по email" sample.storageError) "$pw123"
      (by decide) (by rfl)).1,
    ((C28_CreateUser_lookup_error_discarded sample.libs sample.downUserRepo 1 "salt" "alice"
      "alice@example.com" "pw123" {} [] (by decide) (by decide) (by decide) (by decide)).1
      none (.wrapf "ошибка в получении пользователя по email" sample.storageError) "$pw123"
      (by decide) (by rfl)).2.2 (.wrapf "ошибка в создании пользователя" sample.storageError)
      (by decide),
    (C28_CreateUser_lookup_error_discarded sample.libs postgres.UserRepository 2 "salt" "alice2"
      "alice@example.com" "pw456" { users := [⟨1, "alice", "alice@example.com", "$pw123"⟩] } []
      (by decide) (by decide) (by decide) (by decide)).2.mpr
      ⟨⟨1, "alice", "alice@example.com", "$pw123"⟩, by decide⟩⟩

/-! ## Deleting twice -/

theorem filter_ne_idem {α : Type} (l : List α) (key : α → uuid.UUID) (id : uuid.UUID) :
    (l.filter fun x => decide (key x ≠ id)).filter (fun x => decide (key x ≠ id))
      = l.filter fun x => decide (key x ≠ id) := by
  rw [List.filter_filter]
  simp only [Bool.and_self]

theorem filter_ne_absent {α : Type} (l : List α) (key : α → uuid.UUID) (id : uuid.UUID)
    (h : ∀ x ∈ l, key x ≠ id) : (l.filter fun x => decide (key x ≠ id)) = l := by
  rw [List.filter_eq_self]
  intro x hx
  exact decide_eq_true (h x hx)

theorem filter_ne_keeps {α : Type} (l : List α) (key : α → uuid.UUID) (id : uuid.UUID)
    (x : α) (hx : x ∈ l) (h : key x ≠ id) : x ∈ l.filter fun y => decide (key y ≠ id) :=
  List.mem_filter.mpr ⟨hx, decide_eq_true h⟩

/-- C29. Over the PostgreSQL store, where `Delete` is a delete-by-id statement,
for each of `DeleteUser`, `DeleteTask`, `DeleteLabel` and `DeleteRefreshToken`
and every id: the call returns a nil error; on an id that no row of the table
carries it leaves the store unchanged; a second call with the same id returns a
nil error again and leaves the store of the first call unchanged; every row
with a different id stays in its table; and the other tables are not
touched. -/
theorem C29_delete_idempotent (db : postgres.DB) (id : uuid.UUID) :
    -- users
    ((service.DeleteUser postgres.UserRepository id db).1 = none ∧
      ((∀ u ∈ db.users, u.ID ≠ id) →
        service.DeleteUser postgres.UserRepository id db = (none, db)) ∧
      service.DeleteUser postgres.UserRepository id
          (service.DeleteUser postgres.UserRepository id db).2
        = (none, (service.DeleteUser postgres.UserRepository id db).2) ∧
      (∀ u ∈ db.users, u.ID ≠ id →
        u ∈ (service.DeleteUser postgres.UserRepository id db).2.users) ∧
      (service.DeleteUser postgres.UserRepository id db).2
        = { db with users := (service.DeleteUser postgres.UserRepository id db).2.users }) ∧
    -- tasks
    ((service.DeleteTask postgres.TaskRepository id db).1 = none ∧
      ((∀ t ∈ db.tasks, t.ID ≠ id) →
        service.DeleteTask postgres.TaskRepository id db = (none, db)) ∧
      service.DeleteTask postgres.TaskRepository id
          (service.DeleteTask postgres.TaskRepository id db).2
        = (none, (service.DeleteTask postgres.TaskRepository id db).2) ∧
      (∀ t ∈ db.tasks, t.ID ≠ id →
        t ∈ (service.DeleteTask postgres.TaskRepository id db).2.tasks) ∧
      (service.DeleteTask postgres.TaskRepository id db).2
        = { db with tasks := (service.DeleteTask postgres.TaskRepository id db).2.tasks }) ∧
    -- labels
    ((service.DeleteLabel postgres.LabelRepository id db).1 = none ∧
      ((∀ l ∈ db.labels, l.ID ≠ id) →
        service.DeleteLabel postgres.LabelRepository id db = (none, db)) ∧
      service.DeleteLabel postgres.LabelRepository id
          (service.DeleteLabel postgres.LabelRepository id db).2
        = (none, (service.DeleteLabel postgres.LabelRepository id db).2) ∧
      (∀ l ∈ db.labels, l.ID ≠ id →
        l ∈ (service.DeleteLabel postgres.LabelRepository id db).2.labels) ∧
      (service.DeleteLabel postgres.LabelRepository id db).2
        = { db with labels := (service.DeleteLabel postgres.LabelRepository id db).2.labels }) ∧
    -- refresh tokens
    ((service.DeleteRefreshToken postgres.RefreshTokenRepository id db).1 = none ∧
      ((∀ t ∈ db.refresh_tokens, t.ID ≠ id) →
        service.DeleteRefreshToken postgres.RefreshTokenRepository id db = (none, db)) ∧
      service.DeleteRefreshToken postgres.RefreshTokenRepository id
          (service.DeleteRefreshToken postgres.RefreshTokenRepository id db).2
        = (none, (service.DeleteRefreshToken postgres.RefreshTokenRepository id db).2) ∧
      (∀ t ∈ db.refresh_tokens, t.ID ≠ id →
        t ∈ (service.DeleteRefreshToken postgres.RefreshTokenRepository id db).2.refresh_tokens) ∧
      (service.DeleteRefreshToken postgres.RefreshTokenRepository id db).2
        = { db with refresh_tokens :=
            (service.DeleteRefreshToken postgres.RefreshTokenRepository id db).2.refresh_tokens })
      := by
  have hu : ∀ d : postgres.DB, service.DeleteUser postgres.UserRepository id d
      = (none, { d with users := d.users.filter fun u => decide (u.ID ≠ id) }) := fun _ => rfl
  have ht : ∀ d : postgres.DB, service.DeleteTask postgres.TaskRepository id d
      = (none, { d with tasks := d.tasks.filter fun t => decide (t.ID ≠ id) }) := fun _ => rfl
  have hl : ∀ d : postgres.DB, service.DeleteLabel postgres.LabelRepository id d
      = (none, { d with labels := d.labels.filter fun l => decide (l.ID ≠ id) }) := fun _ => rfl
  have hr : ∀ d : postgres.DB, service.DeleteRefreshToken postgres.RefreshTokenRepository id d
      = (none, { d with
          refresh_tokens := d.refresh_tokens.filter fun t => decide (t.ID ≠ id) }) :=
    fun _ => rfl
  refine ⟨⟨?_, ?_, ?_, ?_, ?_⟩, ⟨?_, ?_, ?_, ?_, ?_⟩, ⟨?_, ?_, ?_, ?_, ?_⟩, ⟨?_, ?_, ?_, ?_, ?_⟩⟩
  · rw [hu]
  · intro h
    rw [hu, filter_ne_absent db.users (fun u => u.ID) id h]
  · rw [hu, hu]
    simp only [filter_ne_idem db.users (fun u => u.ID) id]
  · intro u hmem hne
    rw [hu]
    exact filter_ne_keeps db.users (fun u => u.ID) id u hmem hne
  · rw [hu]
  · rw [ht]
  · intro h
    rw [ht, filter_ne_absent db.tasks (fun t => t.ID) id h]
  · rw [ht, ht]
    simp only [filter_ne_idem db.tasks (fun t => t.ID) id]
  · intro t hmem hne
    rw [ht]
    exact filter_ne_keeps db.tasks (fun t => t.ID) id t hmem hne
  · rw [ht]
  · rw [hl]
  · intro h
    rw [hl, filter_ne_absent db.labels (fun l => l.ID) id h]
  · rw [hl, hl]
    simp only [filter_ne_idem db.labels (fun l => l.ID) id]
  · intro l hmem hne
    rw [hl]
    exact filter_ne_keeps db.labels (fun l => l.ID) id l hmem hne
  · rw [hl]
  · rw [hr]
  · intro h
    rw [hr, filter_ne_absent db.refresh_tokens (fun t => t.ID) id h]
  · rw [hr, hr]
    simp only [filter_ne_idem db.refresh_tokens (fun t => t.ID) id]
  · intro t hmem hne
    rw [hr]
    exact filter_ne_keeps db.refresh_tokens (fun t => t.ID) id t hmem hne
  · rw [hr]

/-- Witness of C29: in a store with two users, a task, a label and a refresh
token, deleting the absent id 5 changes nothing in any of the four tables, and
deleting user 1 keeps user 2. -/
theorem C29_delete_idempotent_witness :
    service.DeleteUser postgres.UserRepository 5
        { users := [⟨1, "alice", "a@x.io", "$pw"⟩, ⟨2, "bob", "b@x.io", "$pw2"⟩],
          refresh_tokens := [⟨2, 1, "uuu", 10⟩],
          tasks := [⟨7, "title", "text", 0, 2, []⟩],
          labels := [⟨9, "home", "#fff", 2⟩] }
      = (none,
          { users := [⟨1, "alice", "a@x.io", "$pw"⟩, ⟨2, "bob", "b@x.io", "$pw2"⟩],
            refresh_tokens := [⟨2, 1, "uuu", 10⟩],
            tasks := [⟨7, "title", "text", 0, 2, []⟩],
            labels := [⟨9, "home", "#fff", 2⟩] }) ∧
      service.DeleteTask postgres.TaskRepository 5
          { tasks := [⟨7, "title", "text", 0, 2, []⟩] }
        = (none, { tasks := [⟨7, "title", "text", 0, 2, []⟩] }) ∧
      service.DeleteLabel postgres.LabelRepository 5 { labels := [⟨9, "home", "#fff", 2⟩] }
        = (none, { labels := [⟨9, "home", "#fff", 2⟩] }) ∧
      service.DeleteRefreshToken postgres.RefreshTokenRepository 5
          { refresh_tokens := [⟨2, 1, "uuu", 10⟩] }
        = (none, { refresh_tokens := [⟨2, 1, "uuu", 10⟩] }) ∧
      (⟨2, "bob", "b@x.io", "$pw2"⟩ : domain.User) ∈
        (service.DeleteUser postgres.UserRepository 1
          { users := [⟨1, "alice", "a@x.io", "$pw"⟩, ⟨2, "bob", "b@x.io", "$pw2"⟩] }).2.users :=
  ⟨(C29_delete_idempotent
      { users := [⟨1, "alice", "a@x.io", "$pw"⟩, ⟨2, "bob", "b@x.io", "$pw2"⟩],
        refresh_tokens := [⟨2, 1, "uuu", 10⟩],
        tasks := [⟨7, "title", "text", 0, 2, []⟩],
        labels := [⟨9, "home", "#fff", 2⟩] } 5).1.2.1 (by decide),
    (C29_delete_idempotent { tasks := [⟨7, "title", "text", 0, 2, []⟩] } 5).2.1.2.1 (by decide),
    (C29_delete_idempotent { labels := [⟨9, "home", "#fff", 2⟩] } 5).2.2.1.2.1 (by decide),
    (C29_delete_idempotent { refresh_tokens := [⟨2, 1, "uuu", 10⟩] } 5).2.2.2.2.1 (by decide),
    (C29_delete_idempotent
      { users := [⟨1, "alice", "a@x.io", "$pw"⟩, ⟨2, "bob", "b@x.io", "$pw2"⟩] } 1).1.2.2.2.1
      ⟨2, "bob", "b@x.io", "$pw2"⟩ (by decide) (by decide)⟩

/-! ## Updating a label -/

theorem CreateLabel_establishes {σ : Type} (labelRepo : repository.LabelRepository σ)
    (newID : uuid.UUID) (name color : String) (userID : uuid.UUID) (s : σ)
    (created : domain.Label)
    (h : (service.CreateLabel labelRepo newID name color userID s).1.1 = some created) :
    created.Name ≠ "" ∧ spec.hexColorShape created.Color := by
  unfold service.CreateLabel at h
  by_cases hn : name = ""
  · rw [if_pos hn] at h
    cases h
  · by_cases hc : color = ""
    · rw [if_neg hn, if_pos hc] at h
      cases h
    · by_cases hu : userID = uuid.Nil
      · rw [if_neg hn, if_neg hc, if_pos hu] at h
        cases h
      · cases hm : service.hexColorRegex.MatchString color with
        | false =>
          rw [if_neg hn, if_neg hc, if_neg hu, hm] at h
          cases h
        | true =>
          rw [if_neg hn, if_neg hc, if_neg hu, hm] at h
          simp only [Bool.not_true, Bool.false_eq_true, if_false] at h
          rcases hq : labelRepo.Create ⟨newID, name, color, userID⟩ s with ⟨r, s1⟩
          rw [hq] at h
          cases r with
          | some e => cases h
          | none =>
            simp only [Option.some.injEq] at h
            subst h
            exact ⟨hn, (hexColorRegex_iff_shape color).mp hm⟩

theorem postgres_GetLabelByID_inv (db : postgres.DB) (id : uuid.UUID) (label : domain.Label)
    (h : (postgres.LabelRepository.GetByID id db).1 = (some label, none)) :
    postgres.LabelRepository.GetByID id db = ((some label, none), db) ∧ label.ID = id ∧
      label ∈ db.labels := by
  simp only [postgres.LabelRepository] at h ⊢
  split at h
  · rename_i found hfound
    simp only [Prod.mk.injEq, Option.some.injEq, and_true] at h
    subst h
    have hid := List.find?_some hfound
    simp only [decide_eq_true_eq] at hid
    exact ⟨rfl, hid, List.mem_of_find?_eq_some hfound⟩
  · simp at h

/-- C30. `CreateLabel` returns only labels with a non-empty name and a color
made of a number sign and three or six hexadecimal digits. `UpdateLabel` checks
neither: for every id, name and color (empty and non-hexadecimal ones
included), when `GetByID` returns a label and `Update` succeeds, `UpdateLabel`
returns a nil error and that label with `Name` and `Color` replaced by the
inputs and with `ID` and `UserID` unchanged, and the repository receives
`GetByID id` and then `Update` of that very label. Over the PostgreSQL store
the call always succeeds for a stored label and the row with that id then
holds the given name and color, its `ID` and `UserID` being unchanged, like
every other row. -/
theorem C30_UpdateLabel_no_validation {σ : Type} (labelRepo : repository.LabelRepository σ)
    (id : uuid.UUID) (name color : String) (s : σ) (log : List repository.LabelCall) :
    (∀ (newID userID : uuid.UUID) (name0 color0 : String) (created : domain.Label),
      (service.CreateLabel labelRepo newID name0 color0 userID s).1.1 = some created →
      created.Name ≠ "" ∧ spec.hexColorShape created.Color) ∧
    (∀ label : domain.Label, (labelRepo.GetByID id s).1 = (some label, none) →
      (labelRepo.Update ⟨label.ID, name, color, label.UserID⟩ (labelRepo.GetByID id s).2).1
        = none →
      service.UpdateLabel labelRepo.recording id name color (s, log)
        = (some (some ⟨label.ID, name, color, label.UserID⟩, none),
            ((labelRepo.Update ⟨label.ID, name, color, label.UserID⟩
                (labelRepo.GetByID id s).2).2,
              log ++ [.GetByID id, .Update ⟨label.ID, name, color, label.UserID⟩]))) ∧
    (∀ (db : postgres.DB) (label : domain.Label),
      (postgres.LabelRepository.GetByID id db).1 = (some label, none) →
      service.UpdateLabel postgres.LabelRepository id name color db
        = (some (some ⟨id, name, color, label.UserID⟩, none),
            { db with labels := db.labels.map fun l =>
                if l.ID = id then ⟨l.ID, name, color, l.UserID⟩ else l })) := by
  refine ⟨?_, ?_, ?_⟩
  · intro newID userID name0 color0 created h
    exact CreateLabel_establishes labelRepo newID name0 color0 userID s created h
  · intro label hget hupd
    unfold service.UpdateLabel
    rcases hq : labelRepo.GetByID id s with ⟨⟨u1, e1⟩, s1⟩
    rw [hq] at hget hupd
    cases hget
    rcases hc : labelRepo.Update ⟨label.ID, name, color, label.UserID⟩ s1 with ⟨r, s2⟩
    rw [hc] at hupd
    simp only at hupd
    subst hupd
    simp only [repository.LabelRepository.recording, hq, hc, List.append_assoc,
      List.singleton_append]
  · intro db label hget
    obtain ⟨hfull, hid, _⟩ := postgres_GetLabelByID_inv db id label hget
    unfold service.UpdateLabel
    rw [hfull]
    subst hid
    rfl

/-- Witness of C30: the label created as "home", "#fff" is updated to an empty
name and the color "red"; the update succeeds and the stored row holds both. -/
theorem C30_UpdateLabel_no_validation_witness :
    service.UpdateLabel postgres.LabelRepository.recording 9 "" "red"
        ({ labels := [⟨9, "home", "#fff", 2⟩] }, [])
      = (some (some ⟨9, "", "red", 2⟩, none),
          ((postgres.LabelRepository.Update ⟨9, "", "red", 2⟩
              (postgres.LabelRepository.GetByID 9 { labels := [⟨9, "home", "#fff", 2⟩] }).2).2,
            [] ++ [.GetByID 9, .Update ⟨9, "", "red", 2⟩])) ∧
      service.UpdateLabel postgres.LabelRepository 9 "" "red"
          { labels := [⟨9, "home", "#fff", 2⟩, ⟨10, "work", "#A1b2C3", 3⟩] }
        = (some (some ⟨9, "", "red", 2⟩, none),
            { ({ labels := [⟨9, "home", "#fff", 2⟩, ⟨10, "work", "#A1b2C3", 3⟩] }
                : postgres.DB) with
              labels := [(⟨9, "home", "#fff", 2⟩ : domain.Label), ⟨10, "work", "#A1b2C3", 3⟩].map
                fun l => if l.ID = 9 then ⟨l.ID, "", "red", l.UserID⟩ else l }) :=
  ⟨(C30_UpdateLabel_no_validation postgres.LabelRepository 9 "" "red"
      { labels := [⟨9, "home", "#fff", 2⟩] } []).2.1 ⟨9, "home", "#fff", 2⟩ (by decide)
      (by decide),
    (C30_UpdateLabel_no_validation postgres.LabelRepository 9 "" "red" {} []).2.2
      { labels := [⟨9, "home", "#fff", 2⟩, ⟨10, "work", "#A1b2C3", 3⟩] } ⟨9, "home", "#fff", 2⟩
      (by decide)⟩

end TaskTracker
